import Mathlib

/-!
# Korifi API repositories: a shallow embedding

The development embeds the space and app repositories of the Korifi API
(`api/repositories/space_repository.go`, `api/repositories/app_repository.go`)
as pure Lean functions.  The resource store, the user-client factory, the
permission resolver and the condition awaiter are collaborators: every call
to one of them is a function argument whose answer is part of the input of a
run.  Operations whose contract speaks about which collaborator calls happen
also return the trace of the calls they made, in call order.

Conventions:
* a Go `error` value that may be nil is an `Option GoError`;
* a Go slice whose nil-ness is observable is a `Slice` (`none` is nil);
* a Go `map[string]T` is a list of entries; the order of the entries is the
  order in which a `range` loop of the run visits them.
-/

namespace Korifi

/-! ## Go values -/

/-- Go error values.  `status` is an API status error answered by the
resource store, `plain` any other error value, `errorf` the value built by
`fmt.Errorf`: its format string, its rendered non-error operands, and the
operand of the `%w` verb (if the format has one). -/
inductive GoError where
  | status (reason : String) (message : String)
  | plain (message : String)
  | errorf (format : String) (args : List String) (wrapped : Option GoError)

/-- A Go slice value: `none` is the nil slice. -/
abbrev Slice (α : Type) := Option (List α)

/-- The elements of a slice (ranging over a nil slice visits nothing). -/
def Slice.elems {α : Type} : Slice α → List α
  | none => []
  | some l => l

/-- The builtin `append(s, x)`: the result is never nil. -/
def Slice.push {α : Type} (s : Slice α) (x : α) : Slice α :=
  some (s.elems ++ [x])

/-- A Go `map[string]β`; entry order is the iteration order of the run. -/
abbrev GoMap (β : Type) := List (String × β)

/-- The keys a `for k := range m` loop visits, in visiting order. -/
def GoMap.keys {β : Type} (m : GoMap β) : List String := m.map Prod.fst

/-- The index expression `m[k]`: the zero value when the key is absent. -/
def GoMap.index {β : Type} (zero : β) : GoMap β → String → β
  | [], _ => zero
  | (k', v) :: rest, k => if k' = k then v else GoMap.index zero rest k

/-- Go compares strings byte-wise.  On UTF-8 text the byte-wise lexicographic
order is the lexicographic order of the code points, which is the key used
here. -/
def stringKey (s : String) : List Nat := s.data.map Char.toNat

/-- The Go expression `a < b` on strings. -/
def stringLess (a b : String) : Bool := decide (stringKey a < stringKey b)

/-- Embeds `time.Duration.Milliseconds`: the duration is an integer count of
nanoseconds, and Go integer division truncates toward zero. -/
def Milliseconds (d : Int) : Int := Int.tdiv d 1000000

/-! ## Kubernetes API machinery -/

/-- Embeds `metav1.Condition`, the fields the repositories read. -/
structure Condition where
  Type_ : String
  Status : String
deriving DecidableEq

/-- Embeds `metav1.ConditionTrue`. -/
def ConditionTrue : String := "True"

/-- Embeds `meta.IsStatusConditionPresentAndEqual`: the first condition of the given
type decides. -/
def IsStatusConditionPresentAndEqual : List Condition → String → String → Bool
  | [], _, _ => false
  | condition :: rest, conditionType, status =>
    if condition.Type_ = conditionType then condition.Status = status
    else IsStatusConditionPresentAndEqual rest conditionType status

/-- Embeds `meta.IsStatusConditionTrue`. -/
def IsStatusConditionTrue (conditions : List Condition) (conditionType : String) : Bool :=
  IsStatusConditionPresentAndEqual conditions conditionType ConditionTrue

/-- Embeds `metav1.StatusReasonForbidden`. -/
def StatusReasonForbidden : String := "Forbidden"

/-- Embeds `k8serrors.IsForbidden`: looks through `%w` wrapping for an API status
error and tests its reason. -/
def IsForbidden : GoError → Bool
  | .status reason _ => reason = StatusReasonForbidden
  | .plain _ => false
  | .errorf _ _ none => false
  | .errorf _ _ (some inner) => IsForbidden inner

/-- Embeds `metav1.OwnerReference`. -/
structure OwnerReference where
  APIVersion : String
  Kind : String
  Name : String
  UID : String
deriving DecidableEq

/-- Embeds `metav1.ObjectMeta`, the fields the repositories use.  The creation
timestamp is a count of seconds. -/
structure ObjectMeta where
  Name : String := ""
  Namespace : String := ""
  UID : String := ""
  Labels : GoMap String := []
  Annotations : GoMap String := []
  CreationTimestamp : Int := 0
  OwnerReferences : List OwnerReference := []
deriving DecidableEq

/-! ## Korifi resources -/

/-- Embeds `korifiv1alpha1.CFSpaceSpec`. -/
structure CFSpaceSpec where
  DisplayName : String := ""
deriving DecidableEq

/-- Embeds `korifiv1alpha1.CFSpaceStatus`. -/
structure CFSpaceStatus where
  Conditions : List Condition := []
deriving DecidableEq

/-- Embeds `korifiv1alpha1.CFSpace`. -/
structure CFSpace extends ObjectMeta where
  Spec : CFSpaceSpec := {}
  Status : CFSpaceStatus := {}
deriving DecidableEq

/-- Embeds `korifiv1alpha1.LifecycleData`. -/
structure LifecycleData where
  Buildpacks : List String := []
  Stack : String := ""
deriving DecidableEq

/-- Embeds `korifiv1alpha1.Lifecycle` and `repositories.Lifecycle` (same shape). -/
structure Lifecycle where
  Type_ : String := ""
  Data : LifecycleData := {}
deriving DecidableEq

/-- Embeds `corev1.LocalObjectReference`. -/
structure LocalObjectReference where
  Name : String := ""
deriving DecidableEq

/-- Embeds `korifiv1alpha1.CFAppSpec`. -/
structure CFAppSpec where
  DisplayName : String := ""
  DesiredState : String := ""
  EnvSecretName : String := ""
  Lifecycle : Lifecycle := {}
  CurrentDropletRef : LocalObjectReference := {}
deriving DecidableEq

/-- Embeds `korifiv1alpha1.CFAppStatus`. -/
structure CFAppStatus where
  Conditions : List Condition := []
  VCAPServicesSecretName : String := ""
deriving DecidableEq

/-- Embeds `korifiv1alpha1.CFApp`. -/
structure CFApp extends ObjectMeta where
  Spec : CFAppSpec := {}
  Status : CFAppStatus := {}
deriving DecidableEq

/-- Embeds `corev1.Secret`; a `[]byte` value of `Data` is held as the string of its
bytes. -/
structure Secret extends ObjectMeta where
  Data : GoMap String := []
  StringData : GoMap String := []
deriving DecidableEq

/-- The dynamic type of a `runtime.Object` delivered by a watch. -/
inductive RuntimeObject where
  | cfSpace (space : CFSpace)
  | other (kind : String)
deriving DecidableEq

/-- Embeds `watch.Event`. -/
structure WatchEvent where
  Type_ : String
  Object : RuntimeObject
deriving DecidableEq

/-- Embeds `authorization.Info`. -/
structure Info where
  Token : String := ""
  CertData : String := ""
deriving DecidableEq

/-- Embeds `webhooks.ValidationError`. -/
structure ValidationError where
  Type_ : String := ""
  Message : String := ""
deriving DecidableEq

/-! ## Collaborators -/

/-- The context a store call is issued with: the request context, or the
context derived from it by `context.WithTimeout`. -/
inductive Ctx where
  | request
  | timeout
deriving DecidableEq

/-- Calls to collaborators, as recorded in a trace. -/
inductive Call where
  | BuildClient
  | Create (name : String)
  | WithTimeout (d : Int)
  | Watch (ctx : Ctx) (ns : String) (name : String)
  | Recv
  | Stop
  | CancelFn
  | PatchResource (name : String)
  | AwaitCondition (name : String) (conditionType : String)
  | CreateOrPatchSecret (name : String)
  | Get (name : String)
  | List (ns : String)
deriving DecidableEq

/-- The user-scoped store client (`client.WithWatch`) as the repositories use
it.  `WatchSpaces` answers the events the result channel delivers before it
is closed; a watch opened with a deadline is closed at the deadline at the
latest. -/
structure UserClient where
  CreateSpace : CFSpace → Except GoError CFSpace
  WatchSpaces : String → String → Except GoError (List WatchEvent)
  ListSpaces : String → Except GoError (List CFSpace)
  CreateApp : CFApp → Except GoError CFApp
  GetApp : String → String → Except GoError CFApp
  ListApps : String → Except GoError (List CFApp)
  CreateOrPatchSecret : Secret → (Secret → Secret) → Except GoError Secret

/-- Functions, constants and collaborators of the repository that are
declared outside the embedded files (packages `apierrors`, `webhooks`,
`tools/k8s`, `authorization`, `conditions`, and the shared helpers of package
`repositories`). -/
structure Deps where
  FromK8sError : Option GoError → String → Option GoError
  NewUniquenessError : GoError → String → GoError
  NewNotFoundError : GoError → String → GoError
  WebhookErrorToValidationError : GoError → ValidationError × Bool
  GetMessage : ValidationError → String
  DuplicateNameErrorType : String
  PatchResource : UserClient → CFApp → (CFApp → CFApp) → Except GoError CFApp
  AwaitCondition : UserClient → CFApp → String → Except GoError CFApp
  BuildClient : Info → Except GoError UserClient
  GetAuthorizedOrgNamespaces : Info → Except GoError (GoMap Bool)
  GetAuthorizedSpaceNamespaces : Info → Except GoError (GoMap Bool)
  matchesFilter : String → List String → Bool
  getTimeLastUpdatedTimestamp : ObjectMeta → String × Option GoError
  getLabelOrAnnotation : GoMap String → String → String
  formatTimestamp : Int → String
  CFAppRevisionKey : String

/-! ## `space_repository.go` -/

def SpacePrefix : String := "cf-space-"

def SpaceResourceType : String := "Space"

/-- The constant `StatusConditionReady` of package `repositories`, declared
outside the embedded files; its value is the condition type that the timeout
error of `createSpaceCR` names. -/
def StatusConditionReady : String := "Ready"

structure CreateSpaceMessage where
  Name : String := ""
  OrganizationGUID : String := ""
deriving DecidableEq

structure ListSpacesMessage where
  Names : List String := []
  GUIDs : List String := []
  OrganizationGUIDs : List String := []
deriving DecidableEq

structure SpaceRecord where
  Name : String := ""
  GUID : String := ""
  OrganizationGUID : String := ""
  Labels : GoMap String := []
  Annotations : GoMap String := []
  CreatedAt : Int := 0
  UpdatedAt : Int := 0
deriving DecidableEq

/-- The variables of the receive loop of `createSpaceCR`, with the trace of
the channel receives and of `watch.Stop`. -/
structure AwaitState where
  conditionReady : Bool := false
  createdSpace : Option CFSpace := none
  trace : List Call := []

/-- The loop `for res := range watch.ResultChan()` of `createSpaceCR` over the
events the channel delivers before it is closed. -/
def consumeEvents : List WatchEvent → AwaitState → AwaitState
  | [], st => st
  | res :: rest, st =>
    let st := { st with trace := st.trace ++ [Call.Recv] }
    match res.Object with
    | .cfSpace createdSpace =>
      let st := { st with createdSpace := some createdSpace }
      if IsStatusConditionTrue createdSpace.Status.Conditions StatusConditionReady then
        { st with trace := st.trace ++ [Call.Stop], conditionReady := true }
      else
        consumeEvents rest st
    | .other _ =>
      consumeEvents rest { st with createdSpace := none }

/-- What a run of `createSpaceCR` returns, with its trace. -/
structure CreateSpaceCRResult where
  space : Option CFSpace
  err : Option GoError
  trace : List Call

/-- Embeds `SpaceRepo.createSpaceCR`; `timeout` is `r.timeout`.  The deferred
`cancelFn` runs last on every path that got past `context.WithTimeout`. -/
def createSpaceCR (d : Deps) (timeout : Int) (userClient : UserClient) (space : CFSpace) :
    CreateSpaceCRResult :=
  match userClient.CreateSpace space with
  | .error err =>
    { space := none
      err := some (.errorf "failed to create cf space: %w" []
        (d.FromK8sError (some err) SpaceResourceType))
      trace := [.Create space.Name] }
  | .ok space =>
    match userClient.WatchSpaces space.Namespace space.Name with
    | .error err =>
      { space := none
        err := some (.errorf "failed to set up watch on cf space: %w" []
          (d.FromK8sError (some err) SpaceResourceType))
        trace := [.Create space.Name, .WithTimeout timeout,
          .Watch .timeout space.Namespace space.Name, .CancelFn] }
    | .ok events =>
      let st := consumeEvents events {}
      let trace := [.Create space.Name, .WithTimeout timeout,
        .Watch .timeout space.Namespace space.Name] ++ st.trace ++ [.CancelFn]
      if !st.conditionReady then
        { space := none
          err := some (.errorf
            "cf space did not get Condition `Ready`: 'True' within timeout period %d ms"
            [toString (Milliseconds timeout)] none)
          trace := trace }
      else
        { space := st.createdSpace, err := none, trace := trace }

/-- What a listing operation returns: the record slice and the error. -/
structure ListResult (α : Type) where
  records : Slice α
  err : Option GoError

/-- Embeds `cfSpaceToSpaceRecord`. -/
def cfSpaceToSpaceRecord (cfSpace : CFSpace) : SpaceRecord :=
  { Name := cfSpace.Spec.DisplayName
    GUID := cfSpace.Name
    OrganizationGUID := cfSpace.Namespace
    Annotations := cfSpace.Annotations
    Labels := cfSpace.Labels
    CreatedAt := cfSpace.CreationTimestamp
    UpdatedAt := cfSpace.CreationTimestamp }

/-- The loop `for org := range authorizedOrgNamespaces` of `ListSpaces` over
the keys in visiting order; `cfSpaces` is the slice collected so far.  An
error answer is the value returned next to the nil record list. -/
def listSpacesInOrgs (d : Deps) (userClient : UserClient) :
    List String → List CFSpace → Except (Option GoError) (List CFSpace)
  | [], cfSpaces => .ok cfSpaces
  | org :: rest, cfSpaces =>
    match userClient.ListSpaces org with
    | .error err =>
      if IsForbidden err then
        listSpacesInOrgs d userClient rest cfSpaces
      else
        .error (d.FromK8sError (some err) SpaceResourceType)
    | .ok items => listSpacesInOrgs d userClient rest (cfSpaces ++ items)

/-- The loop `for _, cfSpace := range cfSpaces` of `ListSpaces`. -/
def selectSpaces (d : Deps) (message : ListSpacesMessage)
    (authorizedSpaceNamespaces : GoMap Bool) : List CFSpace → Slice SpaceRecord → Slice SpaceRecord
  | [], records => records
  | cfSpace :: rest, records =>
    if !IsStatusConditionTrue cfSpace.Status.Conditions StatusConditionReady then
      selectSpaces d message authorizedSpaceNamespaces rest records
    else if !d.matchesFilter cfSpace.Namespace message.OrganizationGUIDs then
      selectSpaces d message authorizedSpaceNamespaces rest records
    else if !d.matchesFilter cfSpace.Name message.GUIDs then
      selectSpaces d message authorizedSpaceNamespaces rest records
    else if !d.matchesFilter cfSpace.Spec.DisplayName message.Names then
      selectSpaces d message authorizedSpaceNamespaces rest records
    else if !GoMap.index false authorizedSpaceNamespaces cfSpace.Name then
      selectSpaces d message authorizedSpaceNamespaces rest records
    else
      selectSpaces d message authorizedSpaceNamespaces rest
        (records.push (cfSpaceToSpaceRecord cfSpace))

/-- Embeds `SpaceRepo.ListSpaces`. -/
def ListSpaces (d : Deps) (info : Info) (message : ListSpacesMessage) : ListResult SpaceRecord :=
  match d.BuildClient info with
  | .error err =>
    { records := some []
      err := some (.errorf "failed to build user client: %w" [] (some err)) }
  | .ok userClient =>
    match d.GetAuthorizedOrgNamespaces info with
    | .error err => { records := none, err := some err }
    | .ok authorizedOrgNamespaces =>
      match listSpacesInOrgs d userClient authorizedOrgNamespaces.keys [] with
      | .error err => { records := none, err := err }
      | .ok cfSpaces =>
        match d.GetAuthorizedSpaceNamespaces info with
        | .error err => { records := none, err := some err }
        | .ok authorizedSpaceNamespaces =>
          { records := selectSpaces d message authorizedSpaceNamespaces cfSpaces none
            err := none }

/-! ## `app_repository.go` -/

def Kind : String := "CFApp"

def APIVersion : String := "korifi.cloudfoundry.org/v1alpha1"

def CFAppGUIDLabel : String := "korifi.cloudfoundry.org/app-guid"

def AppResourceType : String := "App"

def AppEnvResourceType : String := "App Env"

/-- The constant `workloads.StatusConditionStaged`. -/
def StatusConditionStaged : String := "Staged"

structure AppRecord where
  Name : String := ""
  GUID : String := ""
  EtcdUID : String := ""
  Revision : String := ""
  SpaceGUID : String := ""
  DropletGUID : String := ""
  Labels : GoMap String := []
  Annotations : GoMap String := []
  State : String := ""
  Lifecycle : Lifecycle := {}
  CreatedAt : String := ""
  UpdatedAt : String := ""
  IsStaged : Bool := false
  envSecretName : String := ""
  vcapServiceSecretName : String := ""
deriving DecidableEq

structure AppEnvVarsRecord where
  Name : String := ""
  AppGUID : String := ""
  SpaceGUID : String := ""
  EnvironmentVariables : GoMap String := []
deriving DecidableEq

structure CurrentDropletRecord where
  AppGUID : String := ""
  DropletGUID : String := ""
deriving DecidableEq

structure CreateAppMessage where
  Name : String := ""
  SpaceGUID : String := ""
  Labels : GoMap String := []
  Annotations : GoMap String := []
  State : String := ""
  Lifecycle : Lifecycle := {}
  EnvironmentVariables : GoMap String := []
deriving DecidableEq

structure CreateOrPatchAppEnvVarsMessage where
  AppGUID : String := ""
  AppEtcdUID : String := ""
  SpaceGUID : String := ""
  EnvironmentVariables : GoMap String := []
deriving DecidableEq

structure SetCurrentDropletMessage where
  AppGUID : String := ""
  DropletGUID : String := ""
  SpaceGUID : String := ""
deriving DecidableEq

structure ListAppsMessage where
  Names : List String := []
  Guids : List String := []
  SpaceGuids : List String := []
deriving DecidableEq

/-- What a single-record operation returns, with the trace of its calls. -/
structure Outcome (α : Type) where
  value : α
  err : Option GoError
  trace : List Call

/-- Embeds `byName.Len`. -/
def byName.Len (a : List AppRecord) : Nat := a.length

/-- Embeds `byName.Less`; the sort only passes indices inside the slice. -/
def byName.Less (a : List AppRecord) (i j : Nat) : Bool :=
  match a[i]?, a[j]? with
  | some x, some y => stringLess x.Name y.Name
  | _, _ => false

/-- Embeds `byName.Swap`. -/
def byName.Swap (a : List AppRecord) (i j : Nat) : List AppRecord :=
  match a[i]?, a[j]? with
  | some x, some y => (a.set i y).set j x
  | _, _ => a

/-- The inner loop of the standard library's `insertionSort`:
`for j := i; j > 0 && data.Less(j, j-1); j-- { data.Swap(j, j-1) }`. -/
def insertionInner (data : List AppRecord) : Nat → List AppRecord
  | 0 => data
  | j + 1 =>
    if byName.Less data (j + 1) j then insertionInner (byName.Swap data (j + 1) j) j
    else data

/-- The outer loop of `insertionSort`, `for i := a + 1; i < b; i++`, with
`remaining = b - i` iterations left. -/
def insertionOuter (data : List AppRecord) (i : Nat) : Nat → List AppRecord
  | 0 => data
  | remaining + 1 => insertionOuter (insertionInner data i) (i + 1) remaining

/-- Embeds `sort.Sort(byName(a))`.  The standard library sorts through `Len`, `Less`
and `Swap` only; slices of at most twelve elements are sorted by its
`insertionSort(data, 0, n)`, which is the routine embedded here for every
length (longer slices go through a quicksort whose result obeys the same
contract: a rearrangement in `Less` order, not necessarily stable). -/
def sortSort (a : List AppRecord) : List AppRecord :=
  insertionOuter a 1 (byName.Len a - 1)

/-- Embeds `GenerateEnvSecretName`. -/
def GenerateEnvSecretName (appGUID : String) : String := appGUID ++ "-env"

/-- Embeds `CreateAppMessage.toCFApp`; `guid` is the value of `uuid.NewString()`. -/
def CreateAppMessage.toCFApp (m : CreateAppMessage) (guid : String) : CFApp :=
  { Name := guid
    Namespace := m.SpaceGUID
    Labels := m.Labels
    Annotations := m.Annotations
    Spec :=
      { DisplayName := m.Name
        DesiredState := m.State
        EnvSecretName := GenerateEnvSecretName guid
        Lifecycle :=
          { Type_ := m.Lifecycle.Type_
            Data :=
              { Buildpacks := m.Lifecycle.Data.Buildpacks
                Stack := m.Lifecycle.Data.Stack } } } }

/-- Embeds `cfAppToAppRecord`. -/
def cfAppToAppRecord (d : Deps) (cfApp : CFApp) : AppRecord :=
  let updatedAtTime := (d.getTimeLastUpdatedTimestamp cfApp.toObjectMeta).1
  { GUID := cfApp.Name
    EtcdUID := cfApp.UID
    Revision := d.getLabelOrAnnotation cfApp.Annotations d.CFAppRevisionKey
    Name := cfApp.Spec.DisplayName
    SpaceGUID := cfApp.Namespace
    DropletGUID := cfApp.Spec.CurrentDropletRef.Name
    Labels := cfApp.Labels
    Annotations := cfApp.Annotations
    State := cfApp.Spec.DesiredState
    Lifecycle :=
      { Type_ := cfApp.Spec.Lifecycle.Type_
        Data :=
          { Buildpacks := cfApp.Spec.Lifecycle.Data.Buildpacks
            Stack := cfApp.Spec.Lifecycle.Data.Stack } }
    CreatedAt := d.formatTimestamp cfApp.CreationTimestamp
    UpdatedAt := updatedAtTime
    IsStaged := IsStatusConditionTrue cfApp.Status.Conditions StatusConditionStaged
    envSecretName := cfApp.Spec.EnvSecretName
    vcapServiceSecretName := cfApp.Status.VCAPServicesSecretName }

/-- Embeds `appBelongsToSpace`. -/
def appBelongsToSpace (app : CFApp) (spaceGUID : String) : Bool :=
  app.Namespace = spaceGUID

/-- Embeds `appMatchesName`. -/
def appMatchesName (app : CFApp) (name : String) : Bool :=
  app.Spec.DisplayName = name

/-- Embeds `appMatchesGUID`. -/
def appMatchesGUID (app : CFApp) (guid : String) : Bool :=
  app.Name = guid

/-- Embeds `applyAppListFilter`.  Each `for ... range` loop is a left fold whose
accumulator is the slice `filtered`; the pair `scope` holds `appList` and
`filtered` after the statement `if len(filtered) > 0 { ... }`. -/
def applyAppListFilter (appList : List CFApp) (message : ListAppsMessage) : List CFApp :=
  let nameFilterSpecified := decide (message.Names.length > 0)
  let guidsFilterSpecified := decide (message.Guids.length > 0)
  let spaceGUIDFilterSpecified := decide (message.SpaceGuids.length > 0)
  let filtered : List CFApp :=
    if guidsFilterSpecified then
      appList.foldl (fun filtered app =>
        message.Guids.foldl (fun filtered guid =>
          if appMatchesGUID app guid then filtered ++ [app] else filtered) filtered) []
    else []
  if guidsFilterSpecified && filtered.length == 0 then
    filtered
  else
    let scope : List CFApp × List CFApp :=
      if filtered.length > 0 then (filtered, []) else (appList, filtered)
    if !nameFilterSpecified && !spaceGUIDFilterSpecified then
      scope.1
    else
      scope.1.foldl (fun filtered app =>
        if nameFilterSpecified && spaceGUIDFilterSpecified then
          message.Names.foldl (fun filtered name =>
            message.SpaceGuids.foldl (fun filtered spaceGUID =>
              if appBelongsToSpace app spaceGUID && appMatchesName app name then
                filtered ++ [app]
              else filtered) filtered) filtered
        else if nameFilterSpecified then
          message.Names.foldl (fun filtered name =>
            if appMatchesName app name then filtered ++ [app] else filtered) filtered
        else if spaceGUIDFilterSpecified then
          message.SpaceGuids.foldl (fun filtered spaceGUID =>
            if appBelongsToSpace app spaceGUID then filtered ++ [app] else filtered) filtered
        else filtered) scope.2

/-- Embeds `returnAppList`. -/
def returnAppList (d : Deps) (appList : List CFApp) : List AppRecord :=
  appList.foldl (fun appRecords app => appRecords ++ [cfAppToAppRecord d app]) []

/-- The loop `for ns := range nsList` of `ListApps` over the keys in visiting
order; `filteredApps` is the slice collected so far. -/
def listAppsInNamespaces (d : Deps) (userClient : UserClient) (message : ListAppsMessage) :
    List String → List CFApp → Except GoError (List CFApp)
  | [], filteredApps => .ok filteredApps
  | ns :: rest, filteredApps =>
    match userClient.ListApps ns with
    | .error err =>
      if IsForbidden err then
        listAppsInNamespaces d userClient message rest filteredApps
      else
        .error (.errorf "failed to list apps in namespace %s: %w" [ns]
          (d.FromK8sError (some err) AppResourceType))
    | .ok items =>
      listAppsInNamespaces d userClient message rest
        (filteredApps ++ applyAppListFilter items message)

/-- Embeds `AppRepo.ListApps`. -/
def ListApps (d : Deps) (authInfo : Info) (message : ListAppsMessage) : ListResult AppRecord :=
  match d.GetAuthorizedSpaceNamespaces authInfo with
  | .error err =>
    { records := none
      err := some (.errorf
        "failed to list namespaces for spaces with user role bindings: %w" [] (some err)) }
  | .ok nsList =>
    match d.BuildClient authInfo with
    | .error err =>
      { records := some []
        err := some (.errorf "failed to build user client: %w" [] (some err)) }
    | .ok userClient =>
      match listAppsInNamespaces d userClient message nsList.keys [] with
      | .error err => { records := some [], err := some err }
      | .ok filteredApps =>
        { records := some (sortSort (returnAppList d filteredApps)), err := none }

/-- The map assignment `m[k] = v`. -/
def GoMap.set {β : Type} : GoMap β → String → β → GoMap β
  | [], k, v => [(k, v)]
  | (k', v') :: rest, k, v =>
    if k' = k then (k', v) :: rest else (k', v') :: GoMap.set rest k v

/-- Embeds `strings.TrimSuffix`. -/
def TrimSuffix (s suffix : String) : String :=
  if suffix.data.isSuffixOf s.data then
    String.mk (s.data.take (s.data.length - suffix.data.length))
  else s

/-- Embeds `convertByteSliceValuesToStrings`; the conversion `string(v)` keeps the
bytes, and a `[]byte` value is held as the string of its bytes. -/
def convertByteSliceValuesToStrings (inputMap : GoMap String) : GoMap String :=
  inputMap.foldl (fun outputMap kv => GoMap.set outputMap kv.1 kv.2) []

/-- Embeds `appEnvVarsRecordToSecret`. -/
def appEnvVarsRecordToSecret (envVars : CreateOrPatchAppEnvVarsMessage) : Secret :=
  let labels : GoMap String := GoMap.set [] CFAppGUIDLabel envVars.AppGUID
  { Name := GenerateEnvSecretName envVars.AppGUID
    Namespace := envVars.SpaceGUID
    Labels := labels
    OwnerReferences :=
      [{ APIVersion := APIVersion
         Kind := Kind
         Name := envVars.AppGUID
         UID := envVars.AppEtcdUID }]
    StringData := envVars.EnvironmentVariables }

/-- Embeds `appEnvVarsSecretToRecord`. -/
def appEnvVarsSecretToRecord (envVars : Secret) : AppEnvVarsRecord :=
  let appGUID := TrimSuffix envVars.Name "-env"
  { Name := envVars.Name
    AppGUID := appGUID
    SpaceGUID := envVars.Namespace
    EnvironmentVariables := convertByteSliceValuesToStrings envVars.Data }

/-- Embeds `AppRepo.CreateOrPatchAppEnvVars`. -/
def CreateOrPatchAppEnvVars (d : Deps) (authInfo : Info)
    (envVariables : CreateOrPatchAppEnvVarsMessage) : Outcome AppEnvVarsRecord :=
  let secretObj := appEnvVarsRecordToSecret envVariables
  match d.BuildClient authInfo with
  | .error err =>
    { value := {}
      err := some (.errorf "failed to build user client: %w" [] (some err))
      trace := [.BuildClient] }
  | .ok userClient =>
    match userClient.CreateOrPatchSecret secretObj
        (fun secretObj => { secretObj with StringData := envVariables.EnvironmentVariables }) with
    | .error err =>
      { value := {}
        err := d.FromK8sError (some err) AppEnvResourceType
        trace := [.BuildClient, .CreateOrPatchSecret secretObj.Name] }
    | .ok stored =>
      { value := appEnvVarsSecretToRecord stored
        err := none
        trace := [.BuildClient, .CreateOrPatchSecret secretObj.Name] }

/-- Embeds `AppRepo.CreateApp`; `guid` is the value `uuid.NewString()` yields inside
`toCFApp`.  `Create` writes the stored object back into `cfApp`. -/
def CreateApp (d : Deps) (authInfo : Info) (guid : String)
    (appCreateMessage : CreateAppMessage) : Outcome AppRecord :=
  match d.BuildClient authInfo with
  | .error err =>
    { value := {}
      err := some (.errorf "failed to build user client: %w" [] (some err))
      trace := [.BuildClient] }
  | .ok userClient =>
    let cfApp := appCreateMessage.toCFApp guid
    match userClient.CreateApp cfApp with
    | .error err =>
      let validation := d.WebhookErrorToValidationError err
      if validation.2 && validation.1.Type_ = d.DuplicateNameErrorType then
        { value := {}
          err := some (d.NewUniquenessError err (d.GetMessage validation.1))
          trace := [.BuildClient, .Create cfApp.Name] }
      else
        { value := {}
          err := d.FromK8sError (some err) AppResourceType
          trace := [.BuildClient, .Create cfApp.Name] }
    | .ok cfApp =>
      let envVars := CreateOrPatchAppEnvVars d authInfo
        { AppGUID := cfApp.Name
          AppEtcdUID := cfApp.UID
          SpaceGUID := cfApp.Namespace
          EnvironmentVariables := appCreateMessage.EnvironmentVariables }
      let trace := [.BuildClient, .Create (appCreateMessage.toCFApp guid).Name] ++ envVars.trace
      match envVars.err with
      | some err => { value := {}, err := some err, trace := trace }
      | none => { value := cfAppToAppRecord d cfApp, err := none, trace := trace }

/-- The mutation `SetCurrentDroplet` hands to `PatchResource`:
`cfApp.Spec.CurrentDropletRef = corev1.LocalObjectReference{Name: message.DropletGUID}`. -/
def setCurrentDropletRef (message : SetCurrentDropletMessage) (cfApp : CFApp) : CFApp :=
  { cfApp with Spec := { cfApp.Spec with
      CurrentDropletRef := { Name := message.DropletGUID } } }

/-- Embeds `AppRepo.SetCurrentDroplet`.  `PatchResource` writes the patched object
back into `cfApp`. -/
def SetCurrentDroplet (d : Deps) (authInfo : Info) (message : SetCurrentDropletMessage) :
    Outcome CurrentDropletRecord :=
  match d.BuildClient authInfo with
  | .error err =>
    { value := {}
      err := some (.errorf "set-current-droplet: failed to create k8s user client: %w" []
        (some err))
      trace := [.BuildClient] }
  | .ok userClient =>
    let cfApp : CFApp := { Name := message.AppGUID, Namespace := message.SpaceGUID }
    match d.PatchResource userClient cfApp (setCurrentDropletRef message) with
    | .error err =>
      { value := {}
        err := some (.errorf "failed to set app droplet: %w" []
          (d.FromK8sError (some err) AppResourceType))
        trace := [.BuildClient, .PatchResource cfApp.Name] }
    | .ok patched =>
      match d.AwaitCondition userClient patched StatusConditionStaged with
      | .error err =>
        { value := {}
          err := some (.errorf "failed to await the app staged condition: %w" []
            (d.FromK8sError (some err) AppResourceType))
          trace := [.BuildClient, .PatchResource cfApp.Name,
            .AwaitCondition patched.Name StatusConditionStaged] }
      | .ok _ =>
        { value := { AppGUID := message.AppGUID, DropletGUID := message.DropletGUID }
          err := none
          trace := [.BuildClient, .PatchResource cfApp.Name,
            .AwaitCondition patched.Name StatusConditionStaged] }

/-! ## Vocabulary of the properties -/

/-- A delivered event carries a CFSpace whose condition Ready is true. -/
def isReadySpace (e : WatchEvent) : Bool :=
  match e.Object with
  | .cfSpace s => IsStatusConditionTrue s.Status.Conditions StatusConditionReady
  | .other _ => false

/-- The filtered apps of the visited namespaces, in visiting order: a
namespace whose list call is answered with an error contributes nothing. -/
def visitedFilteredApps (userClient : UserClient) (message : ListAppsMessage)
    (namespaces : List String) : List CFApp :=
  namespaces.flatMap fun ns =>
    match userClient.ListApps ns with
    | .ok items => applyAppListFilter items message
    | .error _ => []

/-- Records are in display-name order: no later record has a smaller name. -/
def SortedByName (records : List AppRecord) : Prop :=
  records.Pairwise fun x y => stringKey x.Name ≤ stringKey y.Name

/-! ## Sample collaborators

Concrete stores and helpers on which the statements below are exercised. -/

/-- A store that refuses every call. -/
def offlineClient : UserClient :=
  { CreateSpace := fun _ => .error (.plain "connection refused")
    WatchSpaces := fun _ _ => .error (.plain "connection refused")
    ListSpaces := fun _ => .error (.plain "connection refused")
    CreateApp := fun _ => .error (.plain "connection refused")
    GetApp := fun _ _ => .error (.plain "connection refused")
    ListApps := fun _ => .error (.plain "connection refused")
    CreateOrPatchSecret := fun _ _ => .error (.plain "connection refused") }

/-- Helpers that pass store errors through, recognise the status reason
`Invalid` as a duplicate-name veto, and hand out the given client. -/
def sampleDeps (userClient : UserClient) : Deps :=
  { FromK8sError := fun err _ => err
    NewUniquenessError := fun err detail => .errorf "CF-UniquenessError: %s: %w" [detail] (some err)
    NewNotFoundError := fun err resourceType =>
      .errorf "CF-ResourceNotFound: %s: %w" [resourceType] (some err)
    WebhookErrorToValidationError := fun err =>
      match err with
      | .status reason message =>
        if reason = "Invalid" then ({ Type_ := "DuplicateNameError", Message := message }, true)
        else ({}, false)
      | _ => ({}, false)
    GetMessage := fun v => v.Message
    DuplicateNameErrorType := "DuplicateNameError"
    PatchResource := fun _ obj modify => .ok (modify obj)
    AwaitCondition := fun _ obj _ => .ok obj
    BuildClient := fun _ => .ok userClient
    GetAuthorizedOrgNamespaces := fun _ => .ok [("org-1", true)]
    GetAuthorizedSpaceNamespaces := fun _ => .ok [("space-a", true), ("space-b", true)]
    matchesFilter := fun field filter => filter.isEmpty || filter.contains field
    getTimeLastUpdatedTimestamp := fun _ => ("", none)
    getLabelOrAnnotation := fun m k => GoMap.index "" m k
    formatTimestamp := fun t => toString t
    CFAppRevisionKey := "korifi.cloudfoundry.org/app-rev" }

/-- A space named `cf-space-1` of organization `org-1` with the given
conditions. -/
def sampleSpace (conditions : List Condition) : CFSpace :=
  { Name := "cf-space-1", Namespace := "org-1"
    Spec := { DisplayName := "dev" }
    Status := { Conditions := conditions } }

/-- A watch that delivers a status object, the space before it is ready, the
ready space, and one more update. -/
def readyEvents : List WatchEvent :=
  [ { Type_ := "ERROR", Object := .other "Status" },
    { Type_ := "ADDED", Object := .cfSpace (sampleSpace []) },
    { Type_ := "MODIFIED", Object := .cfSpace (sampleSpace [{ Type_ := "Ready", Status := "True" }]) },
    { Type_ := "MODIFIED", Object := .cfSpace (sampleSpace [{ Type_ := "Ready", Status := "False" }]) } ]

/-- A watch closed at the deadline before the space became ready. -/
def pendingEvents : List WatchEvent :=
  [ { Type_ := "ADDED", Object := .cfSpace (sampleSpace []) },
    { Type_ := "MODIFIED", Object := .cfSpace (sampleSpace [{ Type_ := "Ready", Status := "False" }]) } ]

/-- A store that accepts the space and delivers the given watch events. -/
def watchingClient (events : List WatchEvent) : UserClient :=
  { offlineClient with
    CreateSpace := fun space => .ok space
    WatchSpaces := fun _ _ => .ok events }

/-- A store that accepts the space and refuses the watch. -/
def unwatchableClient : UserClient :=
  { offlineClient with CreateSpace := fun space => .ok space }

/-- A store that answers Forbidden to every list call. -/
def forbiddenClient : UserClient :=
  { offlineClient with
    ListApps := fun ns => .error (.status "Forbidden" ("cfapps is forbidden in " ++ ns))
    ListSpaces := fun ns => .error (.status "Forbidden" ("cfspaces is forbidden in " ++ ns)) }

/-- The helpers `d` with the authorized space namespaces replaced. -/
def withSpaceNamespaces (d : Deps) (nsList : GoMap Bool) : Deps :=
  { d with GetAuthorizedSpaceNamespaces := fun _ => .ok nsList }

/-- The helpers `d` with the authorized organization namespaces replaced. -/
def withOrgNamespaces (d : Deps) (orgs : GoMap Bool) : Deps :=
  { d with GetAuthorizedOrgNamespaces := fun _ => .ok orgs }

/-- An app with the given display name, GUID and space. -/
def sampleApp (name guid ns : String) : CFApp :=
  { Name := guid, Namespace := ns, Spec := { DisplayName := name } }

/-- A store with two apps in `space-a`, one in `space-b`, and two ready
spaces and one unready space in `org-1`; every other namespace is
forbidden. -/
def listingClient : UserClient :=
  { offlineClient with
    ListApps := fun ns =>
      if ns = "space-a" then
        .ok [sampleApp "zeta" "guid-1" "space-a", sampleApp "alpha" "guid-2" "space-a"]
      else if ns = "space-b" then .ok [sampleApp "mid" "guid-3" "space-b"]
      else .error (.status "Forbidden" ("cfapps is forbidden in " ++ ns))
    ListSpaces := fun ns =>
      if ns = "org-1" then
        .ok [ { Name := "space-a", Namespace := "org-1", Spec := { DisplayName := "dev" }
                Status := { Conditions := [{ Type_ := "Ready", Status := "True" }] } },
              { Name := "space-z", Namespace := "org-1", Spec := { DisplayName := "hidden" }
                Status := { Conditions := [{ Type_ := "Ready", Status := "True" }] } },
              { Name := "space-b", Namespace := "org-1", Spec := { DisplayName := "staging" }
                Status := { Conditions := [{ Type_ := "Ready", Status := "False" }] } } ]
      else .error (.status "Forbidden" ("cfspaces is forbidden in " ++ ns)) }

/-- A store whose admission hook vetoes the app name. -/
def vetoingClient : UserClient :=
  { offlineClient with
    CreateApp := fun _ => .error (.status "Invalid" "App with the name 'my-app' already exists.") }

/-- Helpers whose `PatchResource` is refused by the store. -/
def unpatchableDeps : Deps :=
  { sampleDeps offlineClient with
    PatchResource := fun _ _ _ => .error (.status "NotFound" "cfapp not found") }

/-- Helpers whose permission lookups fail. -/
def unauthorizedDeps : Deps :=
  { sampleDeps listingClient with
    GetAuthorizedOrgNamespaces := fun _ => .error (.status "Unauthorized" "token expired")
    GetAuthorizedSpaceNamespaces := fun _ => .error (.status "Unauthorized" "token expired") }

/-- Helpers whose space-namespace lookup fails while the organization lookup
succeeds. -/
def lateUnauthorizedDeps : Deps :=
  { sampleDeps listingClient with
    GetAuthorizedSpaceNamespaces := fun _ => .error (.status "Unauthorized" "token expired") }

/-! ## UniquenessGuard -/

/-- Modelled from the spec: the admission check of the CFSpace validating webhook
(package `controllers/webhooks/workloads`; only its test is among the embedded
files).  A named, partitioned object as the guard sees it: its identity, its
parent partition and its name. -/
structure GuardedObject where
  Identity : String
  ParentPartition : String
  Name : String
deriving DecidableEq

/-- Modelled from the spec: what the UniquenessGuard observes at decision
time (the webhook's store is not among the embedded files): the partitions
that correspond to a live parent entity, and the live objects. -/
structure AdmissionState where
  liveParents : List String
  live : List GuardedObject
deriving DecidableEq

/-- Modelled from the spec: the rejections of the UniquenessGuard (spec 4.6
and 7), each with the message the webhook test expects. -/
inductive GuardRejection where
  | DuplicateName (message : String)
  | OrphanedReference (message : String)
deriving DecidableEq

/-- Modelled from the spec: case folding of a name (spec 3, UniquenessKey);
the webhook's normalisation is not among the embedded files.  Letters A to Z
fold to a to z. -/
def caseFold (name : String) : String :=
  String.mk (name.data.map Char.toLower)

/-- Modelled from the spec: the duplicate-name message of the CFSpace webhook;
the webhook test expects the parts `Space '<name>' already exists.` and
`Name must be unique per organization`. -/
def duplicateSpaceNameErrorMessage (name : String) : String :=
  "Space '" ++ name ++ "' already exists. Name must be unique per organization."

/-- Modelled from the spec: the orphaned-reference message of the CFSpace
webhook, as the webhook test expects it. -/
def orgDoesNotExistErrorMessage (org name : String) : String :=
  "Organization '" ++ org ++ "' does not exist for Space '" ++ name ++ "'"

/-- Modelled from the spec: the live siblings of a partition that the
UniquenessGuard lists (spec 4.6), leaving out the object with the given
identity when one is being renamed. -/
def UniquenessGuard.siblings (st : AdmissionState) (partition : String)
    (renamed : Option String) : List GuardedObject :=
  st.live.filter fun s => s.ParentPartition = partition ∧ some s.Identity ≠ renamed

/-- Modelled from the spec: some sibling's case-folded name equals the
case-folded proposed name (spec 4.6). -/
def UniquenessGuard.collides (siblings : List GuardedObject) (name : String) : Bool :=
  siblings.any fun s => caseFold s.Name = caseFold name

/-- Modelled from the spec: the UniquenessGuard on create (spec 4.6): reject
with `OrphanedReference` when the declared parent partition has no live
parent entity, and with `DuplicateName` when a live sibling collides.  The
spec leaves the order of the two checks open; the parent check comes first
here. -/
def UniquenessGuard.validateCreate (st : AdmissionState) (obj : GuardedObject) :
    Option GuardRejection :=
  if obj.ParentPartition ∈ st.liveParents then
    if UniquenessGuard.collides (UniquenessGuard.siblings st obj.ParentPartition none)
        obj.Name then
      some (.DuplicateName (duplicateSpaceNameErrorMessage obj.Name))
    else none
  else
    some (.OrphanedReference (orgDoesNotExistErrorMessage obj.ParentPartition obj.Name))

/-- Modelled from the spec: the UniquenessGuard on rename (spec 4.6): the
proposed name is compared with the live siblings other than the object being
renamed, which is matched by identity. -/
def UniquenessGuard.validateRename (st : AdmissionState) (obj : GuardedObject)
    (newName : String) : Option GuardRejection :=
  if UniquenessGuard.collides
      (UniquenessGuard.siblings st obj.ParentPartition (some obj.Identity)) newName then
    some (.DuplicateName (duplicateSpaceNameErrorMessage newName))
  else none

/-- Modelled from the spec: synchronous admission of a create (spec 6, item
3): the guard runs before the object is persisted, and an admitted object
becomes live. -/
def UniquenessGuard.admitCreate (st : AdmissionState) (obj : GuardedObject) :
    Except GuardRejection AdmissionState :=
  match UniquenessGuard.validateCreate st obj with
  | some rejection => .error rejection
  | none => .ok { st with live := st.live ++ [obj] }

/-- Modelled from the spec: synchronous admission of a rename (spec 6, item
3): an admitted rename changes the name of the object with that identity. -/
def UniquenessGuard.admitRename (st : AdmissionState) (obj : GuardedObject)
    (newName : String) : Except GuardRejection AdmissionState :=
  match UniquenessGuard.validateRename st obj newName with
  | some rejection => .error rejection
  | none =>
    .ok { st with live := st.live.map fun s =>
            if s.Identity = obj.Identity then { s with Name := newName } else s }

/-! ## Authentication middleware -/

/-- Modelled from the spec: the caller identity an IdentityResolver yields
(spec 3; package `authorization` is not among the embedded files). -/
structure Identity where
  Name : String := ""
  Kind : String := ""
deriving DecidableEq

/-- Modelled from the spec: an error of the API error taxonomy as it is
rendered to the client (package `apierrors` is not among the embedded files;
the fields are the ones the middleware test reads from the response). -/
structure ApiError where
  Title : String
  Detail : String
  Code : Nat
  HttpStatus : Nat
deriving DecidableEq

/-- Modelled from the spec: an error returned by the header parser or the
identity provider: a recognised API error with its cause, or any other error
(spec 7, `UnknownFailure`). -/
inductive AuthError where
  | api (apiError : ApiError) (cause : Option GoError)
  | other (err : GoError)

/-- Modelled from the spec: the invalid-credential error (spec 7), rendered as
the middleware test expects: 401, `CF-InvalidAuthToken`, code 1000. -/
def NewInvalidAuthError (cause : Option GoError) : AuthError :=
  .api { Title := "CF-InvalidAuthToken", Detail := "Invalid Auth Token", Code := 1000,
         HttpStatus := 401 } cause

/-- Modelled from the spec: one entry of the `errors` list of an error
response body. -/
structure PresentedError where
  Title : String
  Detail : String
  Code : Nat
deriving DecidableEq

/-- Modelled from the spec: the body of a response: the error list written by
the middleware, or whatever a downstream handler wrote. -/
inductive ResponseBody where
  | errors (list : List PresentedError)
  | content (text : String)
deriving DecidableEq

/-- Modelled from the spec: an HTTP response, status and body. -/
structure HTTPResponse where
  Status : Nat
  Body : ResponseBody
deriving DecidableEq

/-- Modelled from the spec: an inbound request: its path, the raw value of its
Authorization header, and the caller credential placed in its request-scoped
context (spec 2), if any. -/
structure Request where
  Path : String
  Authorization : String
  Context : Option Info := none
deriving DecidableEq

/-- Modelled from the spec: `authorization.InfoFromContext`, the reader of
the request-scoped credential the middleware test uses. -/
def InfoFromContext (ctx : Option Info) : Info × Bool :=
  match ctx with
  | some info => (info, true)
  | none => ({}, false)

/-- Modelled from the spec: the collaborators of the authentication
middleware, as the middleware test constructs them: the header parser
(CredentialParser), the identity provider (IdentityResolver behind its cache)
and the registry of endpoints that need no authentication. -/
structure AuthenticationMiddleware where
  Parse : String → Except AuthError Info
  GetIdentity : Info → Except AuthError Identity
  IsUnauthenticatedEndpoint : String → Bool

/-- Modelled from the spec: the calls the authentication middleware makes, as
recorded in a trace. -/
inductive MiddlewareCall where
  | IsUnauthenticatedEndpoint (path : String)
  | Parse (header : String)
  | GetIdentity (info : Info)
  | Next (request : Request)
deriving DecidableEq

/-- Modelled from the spec: the rendering of a failure (spec 7): a recognised
API error is answered with its own status and a one-entry error list, any
other error with the generic 500 response that carries none of its detail. -/
def presentError : AuthError → HTTPResponse
  | .api apiError _ =>
    { Status := apiError.HttpStatus
      Body := .errors [{ Title := apiError.Title, Detail := apiError.Detail,
                         Code := apiError.Code }] }
  | .other _ =>
    { Status := 500
      Body := .errors [{ Title := "UnknownError", Detail := "An unknown error occurred.",
                         Code := 10001 }] }

/-- Modelled from the spec: the authentication middleware around the handler
`next` (spec 2, control flow; `api/handlers/authentication_middleware.go` is
not among the embedded files): endpoints of the registry pass through; the
Authorization header is parsed; the parsed credential is placed in the request
context; the identity is resolved; then the next handler serves the request.
A failure of the parser or of the identity provider is rendered and ends the
request.  The result is the response and the trace of the calls. -/
def AuthenticationMiddleware.Middleware (a : AuthenticationMiddleware)
    (next : Request → HTTPResponse) (r : Request) : HTTPResponse × List MiddlewareCall :=
  if a.IsUnauthenticatedEndpoint r.Path then
    (next r, [.IsUnauthenticatedEndpoint r.Path, .Next r])
  else
    match a.Parse r.Authorization with
    | .error err =>
      (presentError err, [.IsUnauthenticatedEndpoint r.Path, .Parse r.Authorization])
    | .ok authInfo =>
      let r' : Request := { r with Context := some authInfo }
      match a.GetIdentity authInfo with
      | .error err =>
        (presentError err,
          [.IsUnauthenticatedEndpoint r.Path, .Parse r.Authorization, .GetIdentity authInfo])
      | .ok _ =>
        (next r',
          [.IsUnauthenticatedEndpoint r.Path, .Parse r.Authorization, .GetIdentity authInfo,
            .Next r'])

/-! ## Caching identity provider -/

/-- Modelled from the spec: an IdentityCacheEntry (spec 3): the credential,
the identity it resolved to, and the instant the entry expires. -/
structure IdentityCacheEntry where
  Credential : Info
  Identity : Identity
  ExpiresAt : Int
deriving DecidableEq

/-- Modelled from the spec: the lookup of the IdentityCache: the entry of the
credential, if there is one. -/
def IdentityCache.find (cache : List IdentityCacheEntry) (credential : Info) :
    Option IdentityCacheEntry :=
  List.find? (fun e => e.Credential = credential) cache

/-- Modelled from the spec: storing a resolution in the IdentityCache: the
entry of the credential is replaced. -/
def IdentityCache.store (cache : List IdentityCacheEntry) (entry : IdentityCacheEntry) :
    List IdentityCacheEntry :=
  entry :: cache.filter fun e => e.Credential ≠ entry.Credential

/-- Modelled from the spec: what one resolution through the caching identity
provider yields (spec 4.3): the result, the cache afterwards, and the
credentials handed to the wrapped provider. -/
structure Resolution where
  result : Except AuthError Identity
  cache : List IdentityCacheEntry
  invoked : List Info

/-- Modelled from the spec: `authorization.NewCachingIdentityProvider` (spec
4.3; the package is not among the embedded files, `main.go` only constructs
it): on a hit with an unexpired entry return it without invoking the
resolver; otherwise invoke the resolver, store its result with the fixed TTL
and return it; propagate resolver errors unchanged.  `now` is the reading of
the clock; an entry is unexpired while the clock has not passed its expiry. -/
def CachingIdentityProvider.GetIdentity (ttl : Int)
    (resolver : Info → Except AuthError Identity) (now : Int)
    (cache : List IdentityCacheEntry) (credential : Info) : Resolution :=
  match IdentityCache.find cache credential with
  | some entry =>
    if now ≤ entry.ExpiresAt then
      { result := .ok entry.Identity, cache := cache, invoked := [] }
    else
      match resolver credential with
      | .ok identity =>
        { result := .ok identity
          cache := IdentityCache.store cache
            { Credential := credential, Identity := identity, ExpiresAt := now + ttl }
          invoked := [credential] }
      | .error err => { result := .error err, cache := cache, invoked := [credential] }
  | none =>
    match resolver credential with
    | .ok identity =>
      { result := .ok identity
        cache := IdentityCache.store cache
          { Credential := credential, Identity := identity, ExpiresAt := now + ttl }
        invoked := [credential] }
    | .error err => { result := .error err, cache := cache, invoked := [credential] }

/-- Modelled from the spec: a sequence of resolutions through one caching
identity provider, each at its own clock reading, in order; the results in
order, the final cache, and all credentials handed to the wrapped provider. -/
def CachingIdentityProvider.resolveAll (ttl : Int)
    (resolver : Info → Except AuthError Identity) :
    List (Int × Info) → List IdentityCacheEntry →
      List (Except AuthError Identity) × List IdentityCacheEntry × List Info
  | [], cache => ([], cache, [])
  | (now, credential) :: rest, cache =>
    let first := CachingIdentityProvider.GetIdentity ttl resolver now cache credential
    let others := CachingIdentityProvider.resolveAll ttl resolver rest first.cache
    (first.result :: others.1, others.2.1, first.invoked ++ others.2.2)

/-! ## Partition permission resolver -/

/-- Modelled from the spec: the scope of a partition enumeration (spec 4.4). -/
inductive Scope where
  | Organization
  | Space
deriving DecidableEq

/-- Modelled from the spec: the loop of `AuthorizedPartitions` over the
candidate partitions (spec 4.4): the access probe runs with the caller's own
credential; a Forbidden answer excludes the partition, any other error aborts
the call with that error, a success records the partition as authorized. -/
def probePartitions (probe : String → Option GoError) :
    List String → GoMap Bool → Except GoError (GoMap Bool)
  | [], authorized => .ok authorized
  | partition :: rest, authorized =>
    match probe partition with
    | none => probePartitions probe rest (GoMap.set authorized partition true)
    | some err =>
      if IsForbidden err then probePartitions probe rest authorized
      else .error err

/-- Modelled from the spec: `AuthorizedPartitions(identity, scope)` (spec 4.4;
`authorization.NamespacePermissions` is not among the embedded files,
`main.go` only constructs it): list the candidate partitions with the
privileged credential, then probe each with the caller's credential. -/
def AuthorizedPartitions (candidates : Scope → Except GoError (List String))
    (probe : Identity → Scope → String → Option GoError)
    (identity : Identity) (scope : Scope) : Except GoError (GoMap Bool) :=
  match candidates scope with
  | .error err => .error err
  | .ok partitions => probePartitions (probe identity scope) partitions []

/-! ## Sample admissions, requests and resolutions -/

/-- An organization `org-1` with one live space named `my-space`. -/
def sampleAdmission : AdmissionState :=
  { liveParents := ["org-1"]
    live := [{ Identity := "space-1", ParentPartition := "org-1", Name := "my-space" }] }

/-- An organization `org-1` with two live spaces. -/
def crowdedAdmission : AdmissionState :=
  { liveParents := ["org-1"]
    live := [{ Identity := "space-1", ParentPartition := "org-1", Name := "my-space" },
             { Identity := "space-2", ParentPartition := "org-1", Name := "another-space" }] }

/-- The request of the middleware test. -/
def sampleRequest : Request :=
  { Path := "/v3/apps", Authorization := "Authorization: something" }

/-- The next handler of the middleware test: it answers 418. -/
def teapotHandler (_r : Request) : HTTPResponse :=
  { Status := 418, Body := .content "" }

/-- The middleware of the test: the parser yields the token `the-token`, the
identity provider succeeds, every endpoint needs authentication. -/
def sampleMiddleware : AuthenticationMiddleware :=
  { Parse := fun _ => .ok { Token := "the-token" }
    GetIdentity := fun _ => .ok {}
    IsUnauthenticatedEndpoint := fun _ => false }

/-- A token reviewer that accepts the token `the-token` only. -/
def sampleResolver (credential : Info) : Except AuthError Identity :=
  if credential.Token = "the-token" then .ok { Name := "alice", Kind := "User" }
  else .error (NewInvalidAuthError none)

/-- Candidates `space-A` and `space-B` at either scope. -/
def sampleCandidates (_scope : Scope) : Except GoError (List String) :=
  .ok ["space-A", "space-B"]

/-- A caller with a role binding in `space-A` only: every other probe is
answered Forbidden. -/
def sampleProbe (_identity : Identity) (_scope : Scope) (partition : String) :
    Option GoError :=
  if partition = "space-A" then none
  else some (.status "Forbidden" ("rolebindings is forbidden in " ++ partition))

/-! ## `app_repository.go`, continued -/

/-- The lookup `v, ok := m[k]`: the value of the first entry with the key. -/
def GoMap.lookup {β : Type} : GoMap β → String → Option β
  | [], _ => none
  | (k', v) :: rest, k => if k' = k then some v else GoMap.lookup rest k

/-- The builtin `delete(m, k)`. -/
def GoMap.delete {β : Type} (m : GoMap β) (k : String) : GoMap β :=
  m.filter fun entry => entry.1 ≠ k

structure PatchAppMessage where
  Name : String := ""
  AppGUID : String := ""
  SpaceGUID : String := ""
  Labels : GoMap String := []
  Annotations : GoMap String := []
  State : String := ""
  Lifecycle : Lifecycle := {}
  EnvironmentVariables : GoMap String := []
deriving DecidableEq

/-- Embeds `PatchAppEnvVarsMessage`; a nil `*string` value is `none`. -/
structure PatchAppEnvVarsMessage where
  AppGUID : String := ""
  SpaceGUID : String := ""
  EnvironmentVariables : GoMap (Option String) := []
deriving DecidableEq

/-- Embeds `PatchAppMessage.toCFApp`. -/
def PatchAppMessage.toCFApp (m : PatchAppMessage) : CFApp :=
  { Name := m.AppGUID
    Namespace := m.SpaceGUID
    Labels := m.Labels
    Annotations := m.Annotations
    Spec :=
      { DisplayName := m.Name
        DesiredState := m.State
        Lifecycle :=
          { Type_ := m.Lifecycle.Type_
            Data :=
              { Buildpacks := m.Lifecycle.Data.Buildpacks
                Stack := m.Lifecycle.Data.Stack } } } }

/-- The loop of `GetAppByNameAndSpace` that collects `matchingApps`. -/
def matchingApps (items : List CFApp) (appName : String) : List CFApp :=
  items.foldl (fun matchingApps app =>
    if app.Spec.DisplayName = appName then matchingApps ++ [app] else matchingApps) []

/-- Embeds `AppRepo.GetAppByNameAndSpace`. -/
def GetAppByNameAndSpace (d : Deps) (authInfo : Info) (appName : String)
    (spaceGUID : String) : Outcome AppRecord :=
  match d.BuildClient authInfo with
  | .error err =>
    { value := {}
      err := some (.errorf "get-app failed to build user client: %w" [] (some err))
      trace := [.BuildClient] }
  | .ok userClient =>
    match userClient.ListApps spaceGUID with
    | .error err =>
      { value := {}
        err := d.FromK8sError
          (some (.errorf "get app: failed to list apps: %w" [] (some err))) SpaceResourceType
        trace := [.BuildClient, .List spaceGUID] }
    | .ok items =>
      match matchingApps items appName with
      | [] =>
        { value := {}
          err := some (d.NewNotFoundError
            (.errorf "app %q in space %q not found" [appName, spaceGUID] none)
            AppResourceType)
          trace := [.BuildClient, .List spaceGUID] }
      | [app] =>
        { value := cfAppToAppRecord d app
          err := none
          trace := [.BuildClient, .List spaceGUID] }
      | _ :: _ :: _ =>
        { value := {}
          err := some (.errorf "duplicate instances of app %q in space %q"
            [appName, spaceGUID] none)
          trace := [.BuildClient, .List spaceGUID] }

/-- The mutation `PatchApp` hands to `PatchResource`:
`app.Spec.Lifecycle = cfApp.Spec.Lifecycle`. -/
def setLifecycle (cfApp : CFApp) (app : CFApp) : CFApp :=
  { app with Spec := { app.Spec with Lifecycle := cfApp.Spec.Lifecycle } }

/-- Embeds `AppRepo.PatchApp`.  `PatchResource` writes the patched object back
into `app`. -/
def PatchApp (d : Deps) (authInfo : Info) (appPatchMessage : PatchAppMessage) :
    Outcome AppRecord :=
  match d.BuildClient authInfo with
  | .error err =>
    { value := {}
      err := some (.errorf "failed to build user client: %w" [] (some err))
      trace := [.BuildClient] }
  | .ok userClient =>
    match userClient.GetApp appPatchMessage.SpaceGUID appPatchMessage.AppGUID with
    | .error err =>
      { value := {}
        err := d.FromK8sError (some err) AppResourceType
        trace := [.BuildClient, .Get appPatchMessage.AppGUID] }
    | .ok app =>
      let cfApp := appPatchMessage.toCFApp
      match d.PatchResource userClient app (setLifecycle cfApp) with
      | .error err =>
        { value := {}
          err := d.FromK8sError (some err) AppResourceType
          trace := [.BuildClient, .Get appPatchMessage.AppGUID, .PatchResource app.Name] }
      | .ok patched =>
        let envVars := CreateOrPatchAppEnvVars d authInfo
          { AppGUID := patched.Name
            AppEtcdUID := patched.UID
            SpaceGUID := patched.Namespace
            EnvironmentVariables := appPatchMessage.EnvironmentVariables }
        let trace := [.BuildClient, .Get appPatchMessage.AppGUID, .PatchResource app.Name] ++
          envVars.trace
        match envVars.err with
        | some err => { value := {}, err := some err, trace := trace }
        | none => { value := cfAppToAppRecord d patched, err := none, trace := trace }

/-- The mutation `PatchAppEnvVars` hands to `CreateOrPatch`: `StringData` is
reset, then for each entry of the patch a nil value deletes the key from
`Data` and any other value is written to `StringData`. -/
def patchEnvVars (message : PatchAppEnvVarsMessage) (secretObj : Secret) : Secret :=
  message.EnvironmentVariables.foldl (fun secretObj kv =>
    match kv.2 with
    | none => { secretObj with Data := GoMap.delete secretObj.Data kv.1 }
    | some v => { secretObj with StringData := GoMap.set secretObj.StringData kv.1 v })
    { secretObj with StringData := [] }

/-- Embeds `AppRepo.PatchAppEnvVars`. -/
def PatchAppEnvVars (d : Deps) (authInfo : Info) (message : PatchAppEnvVarsMessage) :
    Outcome AppEnvVarsRecord :=
  let secretObj : Secret :=
    { Name := GenerateEnvSecretName message.AppGUID, Namespace := message.SpaceGUID }
  match d.BuildClient authInfo with
  | .error err =>
    { value := {}
      err := some (.errorf "failed to build user client: %w" [] (some err))
      trace := [.BuildClient] }
  | .ok userClient =>
    match userClient.CreateOrPatchSecret secretObj (patchEnvVars message) with
    | .error err =>
      { value := {}
        err := d.FromK8sError (some err) AppEnvResourceType
        trace := [.BuildClient, .CreateOrPatchSecret secretObj.Name] }
    | .ok stored =>
      { value := appEnvVarsSecretToRecord stored
        err := none
        trace := [.BuildClient, .CreateOrPatchSecret secretObj.Name] }

/-- The secret `CreateApp` and `PatchApp` hand to `CreateOrPatch` for the
stored app `app`: the value `CreateOrPatchAppEnvVars` builds from the message
they pass it. -/
def envSecretFor (app : CFApp) (environmentVariables : GoMap String) : Secret :=
  appEnvVarsRecordToSecret
    { AppGUID := app.Name, AppEtcdUID := app.UID, SpaceGUID := app.Namespace
      EnvironmentVariables := environmentVariables }

/-! ## `org_handler.go` -/

/-- The largest `time.Duration`, a 64-bit count of nanoseconds. -/
def maxDuration : Int := 2 ^ 63 - 1

/-- The smallest `time.Duration`. -/
def minDuration : Int := -(2 ^ 63)

/-- Embeds `time.Until(t)` with the clock reading `now`: the difference
`t.Sub(now)`, which the standard library clamps to the range of
`time.Duration`.  Instants and durations are counts of nanoseconds. -/
def Until (now t : Int) : Int :=
  if t - now > maxDuration then maxDuration
  else if t - now < minDuration then minDuration
  else t - now

/-- The standard-library functions `orgListHandler` and `decodePEMNotAfter`
call, and the helpers of packages `handlers`, `presenter` and `apierrors`
declared outside the embedded files.  `pemDecode` yields the bytes of the
first PEM block (none when the data holds no block), `ParseCertificate` the
`NotAfter` instant of the certificate. -/
structure HandlerDeps where
  pemDecode : String → Option String
  ParseCertificate : String → Except GoError Int
  parseCommaSeparatedList : String → List String
  ForOrgList : List String → String → String → String
  LogAndReturn : GoError → String → GoError
  Sprintf : String → List String → String
  formatRFC3339 : Int → String
  formatDuration : Int → String

/-- Modelled from the spec: the response builder of package `handlers`
(`HandlerResponse`, `NewHandlerResponse`, `WithBody`, `WithHeader`; declared
outside the embedded files): a status, a body and headers. -/
structure HandlerResponse where
  httpStatus : Nat
  body : Option String := none
  headers : GoMap String := []
deriving DecidableEq

/-- Modelled from the spec: `NewHandlerResponse(status)` of package
`handlers`. -/
def NewHandlerResponse (httpStatus : Nat) : HandlerResponse :=
  { httpStatus := httpStatus }

/-- Modelled from the spec: `HandlerResponse.WithBody` of package `handlers`:
sets the body and nothing else. -/
def HandlerResponse.WithBody (r : HandlerResponse) (body : String) : HandlerResponse :=
  { r with body := some body }

/-- Modelled from the spec: `HandlerResponse.WithHeader` of package
`handlers`: sets one header and nothing else. -/
def HandlerResponse.WithHeader (r : HandlerResponse) (key value : String) :
    HandlerResponse :=
  { r with headers := GoMap.set r.headers key value }

/-- Embeds `decodePEMNotAfter`; `now` is the reading of `time.Now()`. -/
def decodePEMNotAfter (h : HandlerDeps) (now : Int) (certPEM : String) : Int × Bool :=
  match h.pemDecode certPEM with
  | none => (now, false)
  | some certBlock =>
    match h.ParseCertificate certBlock with
    | .error _ => (now, false)
    | .ok notAfter => (notAfter, true)

/-- Embeds `isExpirationValid`; `now` is the reading of the clock inside
`time.Until`. -/
def isExpirationValid (now : Int) (notAfter : Int) (maxDuration : Int)
    (certParsed : Bool) : Bool :=
  (certParsed && decide (Until now notAfter < maxDuration)) || !certParsed

/-- The format string of the certificate warning of `orgListHandler`. -/
def certWarningMsg : String :=
  "Warning: The client certificate you provided for user authentication expires at %s, which exceeds the recommended validity duration of %s. Ask your platform provider to issue you a short-lived certificate credential or to configure your authentication to generate short-lived credentials automatically."

/-- The fields of `OrgHandler` that `orgListHandler` reads.  An org record is
held as its name; `ListOrgs` is the org repository. -/
structure OrgHandler where
  apiBaseURL : String
  ListOrgs : Info → List String → Except GoError (List String)
  userCertificateExpirationWarningDuration : Int

/-- The request as `orgListHandler` reads it: its URL and the value of the
query parameter `names`. -/
structure OrgListRequest where
  URL : String
  names : String

/-- Embeds `OrgHandler.orgListHandler`.  `decodeClock` is the reading of
`time.Now()` inside `decodePEMNotAfter`, `checkClock` the one inside
`time.Until`. -/
def orgListHandler (deps : HandlerDeps) (h : OrgHandler) (decodeClock checkClock : Int)
    (authInfo : Info) (r : OrgListRequest) : Option HandlerResponse × Option GoError :=
  let names := deps.parseCommaSeparatedList r.names
  match h.ListOrgs authInfo names with
  | .error err => (none, some (deps.LogAndReturn err "failed to fetch orgs"))
  | .ok orgs =>
    let resp := (NewHandlerResponse 200).WithBody (deps.ForOrgList orgs h.apiBaseURL r.URL)
    let decoded := decodePEMNotAfter deps decodeClock authInfo.CertData
    if !isExpirationValid checkClock decoded.1 h.userCertificateExpirationWarningDuration
        decoded.2 then
      (some (resp.WithHeader "X-Cf-Warnings"
        (deps.Sprintf certWarningMsg
          [deps.formatRFC3339 decoded.1,
            deps.formatDuration h.userCertificateExpirationWarningDuration])), none)
    else
      (some resp, none)

/-! ## Vocabulary of the properties, continued -/

/-- The entries `patchEnvVars` writes to `StringData`: the entries of the patch
whose value is not nil, with the value dereferenced. -/
def setEntries (patch : GoMap (Option String)) : GoMap String :=
  patch.filterMap fun kv => kv.2.map fun v => (kv.1, v)

/-- The number of times the first loop of `applyAppListFilter` appends `app`. -/
def guidHits (message : ListAppsMessage) (app : CFApp) : Nat :=
  message.Guids.countP fun guid => appMatchesGUID app guid

/-- The number of times the second loop of `applyAppListFilter` appends `app`. -/
def nameSpaceHits (message : ListAppsMessage) (app : CFApp) : Nat :=
  if message.Names.length > 0 ∧ message.SpaceGuids.length > 0 then
    (message.Names.map fun name =>
      message.SpaceGuids.countP fun spaceGUID =>
        appBelongsToSpace app spaceGUID && appMatchesName app name).sum
  else if message.Names.length > 0 then
    message.Names.countP fun name => appMatchesName app name
  else if message.SpaceGuids.length > 0 then
    message.SpaceGuids.countP fun spaceGUID => appBelongsToSpace app spaceGUID
  else 0

/-- Some visited namespace is answered with an error that is not Forbidden. -/
def listFails (userClient : UserClient) (namespaces : List String) : Bool :=
  namespaces.any fun ns =>
    match userClient.ListApps ns with
    | .ok _ => false
    | .error err => !IsForbidden err

/-! ## Sample handlers, stores and patches -/

/-- Helpers for the org handler on which a certificate is held as a word: the
PEM decoder finds a block in every non-empty text, the block `long-lived`
parses to a certificate that expires at instant 500, `short-lived` to one that
expires at instant 50, and any other block does not parse. -/
def sampleHandlerDeps : HandlerDeps :=
  { pemDecode := fun certPEM => if certPEM = "" then none else some certPEM
    ParseCertificate := fun certBlock =>
      if certBlock = "long-lived" then .ok 500
      else if certBlock = "short-lived" then .ok 50
      else .error (.plain "x509: malformed certificate")
    parseCommaSeparatedList := fun names => if names = "" then [] else [names]
    ForOrgList := fun orgs apiBaseURL url =>
      apiBaseURL ++ url ++ " " ++ String.intercalate "," orgs
    LogAndReturn := fun err _ => err
    Sprintf := fun format args => format ++ " " ++ String.intercalate "," args
    formatRFC3339 := fun t => toString t
    formatDuration := fun d => toString d }

/-- An org handler over a repository with the single org `org-1`, warning
about certificates valid for 100 or more. -/
def sampleOrgHandler : OrgHandler :=
  { apiBaseURL := "https://api.example.org"
    ListOrgs := fun _ _ => .ok ["org-1"]
    userCertificateExpirationWarningDuration := 100 }

/-- The app `guid-1` named `alpha` as the store holds it. -/
def storedApp (ns : String) : CFApp :=
  { Name := "guid-1", Namespace := ns, UID := "uid-1"
    Labels := [("team", "payments")]
    Spec :=
      { DisplayName := "alpha", DesiredState := "STARTED", EnvSecretName := "guid-1-env"
        Lifecycle := { Type_ := "buildpack", Data := { Stack := "cflinuxfs3" } }
        CurrentDropletRef := { Name := "droplet-1" } } }

/-- A store that lists as `listingClient` does, accepts every app and secret
write, assigns the UID `uid-1` to a created app and holds the app `guid-1` in
every space. -/
def acceptingClient : UserClient :=
  { listingClient with
    CreateApp := fun app => .ok { app with UID := "uid-1" }
    GetApp := fun ns name =>
      if name = "guid-1" then .ok (storedApp ns)
      else .error (.status "NotFound" "cfapp not found")
    CreateOrPatchSecret := fun secretObj mutate => .ok (mutate secretObj) }

/-- A patch request that names another display name, state and labels besides
the new lifecycle. -/
def samplePatch : PatchAppMessage :=
  { Name := "renamed", AppGUID := "guid-1", SpaceGUID := "space-a"
    Labels := [("team", "search")]
    State := "STOPPED"
    Lifecycle := { Type_ := "docker", Data := { Buildpacks := ["go"], Stack := "cflinuxfs4" } }
    EnvironmentVariables := [("PORT", "8080")] }

/-- An env patch that sets `PORT` and `MODE` and deletes `DEBUG`. -/
def sampleEnvPatch : PatchAppEnvVarsMessage :=
  { AppGUID := "guid-1", SpaceGUID := "space-a"
    EnvironmentVariables := [("PORT", some "8080"), ("DEBUG", none), ("MODE", some "")] }

/-- The env secret of `guid-1` holding `DEBUG` and `REGION`, with a stale
`StringData` entry. -/
def sampleEnvSecret : Secret :=
  { Name := "guid-1-env", Namespace := "space-a"
    Data := [("DEBUG", "1"), ("REGION", "eu")]
    StringData := [("STALE", "x")] }

/-- A store that holds `sampleEnvSecret` under its name: a create-or-patch of
that name applies the mutation to the held secret, and of any other name to
the object it is given. -/
def secretHoldingClient : UserClient :=
  { offlineClient with
    CreateOrPatchSecret := fun secretObj mutate =>
      if secretObj.Name = sampleEnvSecret.Name ∧ secretObj.Namespace = sampleEnvSecret.Namespace
      then .ok (mutate sampleEnvSecret)
      else .ok (mutate secretObj) }

/-- A create request for the app `alpha` in `space-a` with one environment
variable. -/
def sampleCreateMessage : CreateAppMessage :=
  { Name := "alpha", SpaceGUID := "space-a"
    EnvironmentVariables := [("PORT", "8080")] }

/-- The env secret of the app whose GUID is `app-env`. -/
def suffixedEnvSecret : Secret :=
  { Name := "app-env-env", Namespace := "space-a"
    Data := [("PORT", "8080"), ("REGION", "eu")] }

/-! ## Theorems -/

theorem consumeEvents_none_ready (events : List WatchEvent) :
    ∀ st : AwaitState, (∀ e ∈ events, isReadySpace e = false) →
      (consumeEvents events st).conditionReady = st.conditionReady ∧
      (consumeEvents events st).trace = st.trace ++ List.replicate events.length Call.Recv := by
  induction events with
  | nil => intro st _; simp [consumeEvents]
  | cons ev rest ih =>
    intro st h
    have hev : isReadySpace ev = false := h ev (List.mem_cons_self _ _)
    have hrest : ∀ e ∈ rest, isReadySpace e = false := fun e he => h e (List.mem_cons_of_mem _ he)
    cases hobj : ev.Object with
    | cfSpace s =>
      have hs : IsStatusConditionTrue s.Status.Conditions StatusConditionReady = false := by
        simpa [isReadySpace, hobj] using hev
      have := ih { st with trace := st.trace ++ [Call.Recv], createdSpace := some s } hrest
      simp [consumeEvents, hobj, hs, this, List.replicate_succ]
    | other k =>
      have := ih { st with trace := st.trace ++ [Call.Recv], createdSpace := none } hrest
      simp [consumeEvents, hobj, this, List.replicate_succ]

theorem consumeEvents_first_ready (pre : List WatchEvent) (ev : WatchEvent) (post : List WatchEvent)
    (s : CFSpace) (hobj : ev.Object = .cfSpace s)
    (hs : IsStatusConditionTrue s.Status.Conditions StatusConditionReady = true) :
    ∀ st : AwaitState, (∀ e ∈ pre, isReadySpace e = false) →
      (consumeEvents (pre ++ ev :: post) st).conditionReady = true ∧
      (consumeEvents (pre ++ ev :: post) st).createdSpace = some s ∧
      (consumeEvents (pre ++ ev :: post) st).trace =
        st.trace ++ List.replicate (pre.length + 1) Call.Recv ++ [Call.Stop] := by
  induction pre with
  | nil => intro st _; simp [consumeEvents, hobj, hs]
  | cons e rest ih =>
    intro st h
    have hev : isReadySpace e = false := h e (List.mem_cons_self _ _)
    have hrest : ∀ x ∈ rest, isReadySpace x = false := fun x hx => h x (List.mem_cons_of_mem _ hx)
    cases hobj' : e.Object with
    | cfSpace s' =>
      have hs' : IsStatusConditionTrue s'.Status.Conditions StatusConditionReady = false := by
        simpa [isReadySpace, hobj'] using hev
      have := ih { st with trace := st.trace ++ [Call.Recv], createdSpace := some s' } hrest
      simp [consumeEvents, hobj', hs', this, List.replicate_succ]
    | other k =>
      have := ih { st with trace := st.trace ++ [Call.Recv], createdSpace := none } hrest
      simp [consumeEvents, hobj', this, List.replicate_succ]

theorem exists_first_ready (events : List WatchEvent) (h : ∃ e ∈ events, isReadySpace e = true) :
    ∃ pre ev post, events = pre ++ ev :: post ∧ isReadySpace ev = true ∧
      ∀ e ∈ pre, isReadySpace e = false := by
  induction events with
  | nil => simp at h
  | cons x rest ih =>
    by_cases hx : isReadySpace x = true
    · exact ⟨[], x, rest, rfl, hx, by simp⟩
    · have hr : ∃ e ∈ rest, isReadySpace e = true := by
        obtain ⟨e, he, hre⟩ := h
        rcases List.mem_cons.mp he with rfl | he
        · exact absurd hre hx
        · exact ⟨e, he, hre⟩
      obtain ⟨pre, ev, post, hsplit, hev, hpre⟩ := ih hr
      refine ⟨x :: pre, ev, post, by simp [hsplit], hev, ?_⟩
      intro e he
      rcases List.mem_cons.mp he with rfl | he
      · simpa using hx
      · exact hpre e he

theorem createSpaceCR_watching (d : Deps) (timeout : Int) (userClient : UserClient)
    (space created : CFSpace) (events : List WatchEvent)
    (hcreate : userClient.CreateSpace space = .ok created)
    (hwatch : userClient.WatchSpaces created.Namespace created.Name = .ok events) :
    createSpaceCR d timeout userClient space =
      if !(consumeEvents events {}).conditionReady then
        { space := none
          err := some (.errorf
            "cf space did not get Condition `Ready`: 'True' within timeout period %d ms"
            [toString (Milliseconds timeout)] none)
          trace := [.Create created.Name, .WithTimeout timeout,
            .Watch .timeout created.Namespace created.Name] ++
              (consumeEvents events {}).trace ++ [.CancelFn] }
      else
        { space := (consumeEvents events {}).createdSpace
          err := none
          trace := [.Create created.Name, .WithTimeout timeout,
            .Watch .timeout created.Namespace created.Name] ++
              (consumeEvents events {}).trace ++ [.CancelFn] } := by
  simp only [createSpaceCR, hcreate, hwatch]

/-- Claim C1: once the create succeeded and the watch was established,
`createSpaceCR` returns a space `s` without error exactly when the delivered
events split as `pre ++ ev :: post` where `ev` carries `s`, `s` has condition
Ready true, no event of `pre` is a ready space, and exactly `pre.length + 1`
events were received (none after `ev`); and it returns an object without
error if and only if some delivered event is a ready space. -/
theorem createSpaceCR_returns_first_ready (d : Deps) (timeout : Int) (userClient : UserClient)
    (space created : CFSpace) (events : List WatchEvent)
    (hcreate : userClient.CreateSpace space = .ok created)
    (hwatch : userClient.WatchSpaces created.Namespace created.Name = .ok events) :
    (∀ s : CFSpace,
      ((createSpaceCR d timeout userClient space).space = some s ∧
        (createSpaceCR d timeout userClient space).err = none) ↔
      ∃ pre ev post, events = pre ++ ev :: post ∧ ev.Object = .cfSpace s ∧
        IsStatusConditionTrue s.Status.Conditions StatusConditionReady = true ∧
        (∀ e ∈ pre, isReadySpace e = false) ∧
        (createSpaceCR d timeout userClient space).trace.count Call.Recv = pre.length + 1) ∧
    (((createSpaceCR d timeout userClient space).space ≠ none ∧
        (createSpaceCR d timeout userClient space).err = none) ↔
      ∃ e ∈ events, isReadySpace e = true) := by
  have hrun := createSpaceCR_watching d timeout userClient space created events hcreate hwatch
  have hsplit : ∀ pre ev post s, events = pre ++ ev :: post → ev.Object = .cfSpace s →
      IsStatusConditionTrue s.Status.Conditions StatusConditionReady = true →
      (∀ e ∈ pre, isReadySpace e = false) →
      (createSpaceCR d timeout userClient space).space = some s ∧
      (createSpaceCR d timeout userClient space).err = none ∧
      (createSpaceCR d timeout userClient space).trace.count Call.Recv = pre.length + 1 := by
    intro pre ev post s hev hobj hs hpre
    obtain ⟨h1, h2, h3⟩ := consumeEvents_first_ready pre ev post s hobj hs {} hpre
    rw [← hev] at h1 h2 h3
    rw [hrun]
    simp [h1, h2, h3, List.count_append, List.count_replicate, List.count_cons]
  have hnone : (¬ ∃ e ∈ events, isReadySpace e = true) →
      (createSpaceCR d timeout userClient space).space = none ∧
      (createSpaceCR d timeout userClient space).err ≠ none := by
    intro hno
    have hall : ∀ e ∈ events, isReadySpace e = false := by
      intro e he
      cases hr : isReadySpace e with
      | false => rfl
      | true => exact absurd ⟨e, he, hr⟩ hno
    obtain ⟨h1, _⟩ := consumeEvents_none_ready events {} hall
    rw [hrun]
    simp [h1]
  have hready : ∀ ev : WatchEvent, isReadySpace ev = true →
      ∃ s, ev.Object = .cfSpace s ∧
        IsStatusConditionTrue s.Status.Conditions StatusConditionReady = true := by
    intro ev hev
    cases hobj : ev.Object with
    | cfSpace s => exact ⟨s, rfl, by simpa [isReadySpace, hobj] using hev⟩
    | other k => simp [isReadySpace, hobj] at hev
  refine ⟨fun s => ⟨?_, ?_⟩, ⟨?_, ?_⟩⟩
  · rintro ⟨hsp, herr⟩
    by_cases hex : ∃ e ∈ events, isReadySpace e = true
    · obtain ⟨pre, ev, post, hev, hr, hpre⟩ := exists_first_ready events hex
      obtain ⟨s', hobj, hs'⟩ := hready ev hr
      obtain ⟨h1, _, h3⟩ := hsplit pre ev post s' hev hobj hs' hpre
      have hss : s' = s := by
        rw [h1] at hsp
        exact Option.some.inj hsp
      subst hss
      exact ⟨pre, ev, post, hev, hobj, hs', hpre, h3⟩
    · exact absurd herr (hnone hex).2
  · rintro ⟨pre, ev, post, hev, hobj, hs, hpre, _⟩
    obtain ⟨h1, h2, _⟩ := hsplit pre ev post s hev hobj hs hpre
    exact ⟨h1, h2⟩
  · rintro ⟨_, herr⟩
    by_contra hex
    exact (hnone hex).2 herr
  · intro hex
    obtain ⟨pre, ev, post, hev, hr, hpre⟩ := exists_first_ready events hex
    obtain ⟨s', hobj, hs'⟩ := hready ev hr
    obtain ⟨h1, h2, _⟩ := hsplit pre ev post s' hev hobj hs' hpre
    exact ⟨by simp [h1], h2⟩

/-- Claim C2: when the event stream ends without any delivered space having
Ready true, `createSpaceCR` returns no space and the timeout error whose
operand is the configured timeout in milliseconds, after receiving every
delivered event. -/
theorem createSpaceCR_timeout (d : Deps) (timeout : Int) (userClient : UserClient)
    (space created : CFSpace) (events : List WatchEvent)
    (hcreate : userClient.CreateSpace space = .ok created)
    (hwatch : userClient.WatchSpaces created.Namespace created.Name = .ok events)
    (hnever : ∀ e ∈ events, isReadySpace e = false) :
    (createSpaceCR d timeout userClient space).space = none ∧
    (createSpaceCR d timeout userClient space).err = some (.errorf
      "cf space did not get Condition `Ready`: 'True' within timeout period %d ms"
      [toString (Milliseconds timeout)] none) ∧
    (createSpaceCR d timeout userClient space).trace.count Call.Recv = events.length := by
  obtain ⟨h1, h2⟩ := consumeEvents_none_ready events {} hnever
  rw [createSpaceCR_watching d timeout userClient space created events hcreate hwatch]
  simp [h1, h2, List.count_append, List.count_replicate, List.count_cons]

theorem isReadySpace_object (ev : WatchEvent) (hev : isReadySpace ev = true) :
    ∃ s, ev.Object = .cfSpace s ∧
      IsStatusConditionTrue s.Status.Conditions StatusConditionReady = true := by
  cases hobj : ev.Object with
  | cfSpace s => exact ⟨s, rfl, by simpa [isReadySpace, hobj] using hev⟩
  | other k => simp [isReadySpace, hobj] at hev


/-- Claim C3: if the initial create fails, `createSpaceCR` returns no space
and an error, opens no watch and receives nothing; if the watch cannot be
established, it returns no space and the watch-setup error, and never
receives from a result channel. -/
theorem createSpaceCR_setup_failure (d : Deps) (timeout : Int) (userClient : UserClient)
    (space : CFSpace) :
    (∀ err, userClient.CreateSpace space = .error err →
      (createSpaceCR d timeout userClient space).space = none ∧
      (createSpaceCR d timeout userClient space).err =
        some (.errorf "failed to create cf space: %w" []
          (d.FromK8sError (some err) SpaceResourceType)) ∧
      (∀ c ns n, Call.Watch c ns n ∉ (createSpaceCR d timeout userClient space).trace) ∧
      Call.Recv ∉ (createSpaceCR d timeout userClient space).trace) ∧
    (∀ created err, userClient.CreateSpace space = .ok created →
      userClient.WatchSpaces created.Namespace created.Name = .error err →
      (createSpaceCR d timeout userClient space).space = none ∧
      (createSpaceCR d timeout userClient space).err =
        some (.errorf "failed to set up watch on cf space: %w" []
          (d.FromK8sError (some err) SpaceResourceType)) ∧
      Call.Recv ∉ (createSpaceCR d timeout userClient space).trace) := by
  refine ⟨?_, ?_⟩
  · intro err hcreate
    simp [createSpaceCR, hcreate]
  · intro created err hcreate hwatch
    simp [createSpaceCR, hcreate, hwatch]

/-- Claim C4: whenever `createSpaceCR` returns after the watch was
established, the last call before it returns is the cancel function of the
timeout context, which is the context the watch was opened with; on success
`watch.Stop` was called right after the last receive, and on the timeout path
every delivered event was received before the cancellation. -/
theorem createSpaceCR_releases_subscription (d : Deps) (timeout : Int) (userClient : UserClient)
    (space created : CFSpace) (events : List WatchEvent)
    (hcreate : userClient.CreateSpace space = .ok created)
    (hwatch : userClient.WatchSpaces created.Namespace created.Name = .ok events) :
    (createSpaceCR d timeout userClient space).trace.getLast? = some Call.CancelFn ∧
    (∀ c ns n, Call.Watch c ns n ∈ (createSpaceCR d timeout userClient space).trace →
      c = Ctx.timeout) ∧
    ((createSpaceCR d timeout userClient space).err = none →
      ∃ n, (createSpaceCR d timeout userClient space).trace =
        [Call.Create created.Name, Call.WithTimeout timeout,
          Call.Watch Ctx.timeout created.Namespace created.Name] ++
        List.replicate n Call.Recv ++ [Call.Stop, Call.CancelFn]) ∧
    ((createSpaceCR d timeout userClient space).err ≠ none →
      (createSpaceCR d timeout userClient space).trace =
        [Call.Create created.Name, Call.WithTimeout timeout,
          Call.Watch Ctx.timeout created.Namespace created.Name] ++
        List.replicate events.length Call.Recv ++ [Call.CancelFn]) := by
  have hrun := createSpaceCR_watching d timeout userClient space created events hcreate hwatch
  have hlast : (createSpaceCR d timeout userClient space).trace.getLast? =
      some Call.CancelFn := by
    rw [hrun]
    split <;> exact List.getLast?_concat _
  refine ⟨hlast, ?_⟩
  by_cases hex : ∃ e ∈ events, isReadySpace e = true
  · obtain ⟨pre, ev, post, hev, hr, hpre⟩ := exists_first_ready events hex
    obtain ⟨s, hobj, hs⟩ := isReadySpace_object ev hr
    obtain ⟨h1, h2, h3⟩ := consumeEvents_first_ready pre ev post s hobj hs {} hpre
    rw [← hev] at h1 h2 h3
    rw [hrun]
    simp only [h1, h2, h3]
    refine ⟨?_, ?_, by simp⟩
    · intro c ns n hmem
      simp [List.mem_replicate] at hmem
      exact hmem.1
    · intro _
      exact ⟨pre.length + 1, by simp⟩
  · have hall : ∀ e ∈ events, isReadySpace e = false := by
      intro e he
      cases hr : isReadySpace e with
      | false => rfl
      | true => exact absurd ⟨e, he, hr⟩ hex
    obtain ⟨h1, h2⟩ := consumeEvents_none_ready events {} hall
    rw [hrun]
    simp only [h1, h2]
    refine ⟨?_, by simp, by simp⟩
    intro c ns n hmem
    simp [List.mem_replicate] at hmem
    exact hmem.1


/-- Claim C5: `SetCurrentDroplet` returns without error exactly when the
client was built, the patch of `CurrentDropletRef` succeeded and the await of
the Staged condition succeeded, and then the record carries the message's app
and droplet GUIDs; on any error the record is empty; if the patch fails the
awaiter is never invoked and the error is non-nil; if the await fails the
error is non-nil. -/
theorem SetCurrentDroplet_synchronous (d : Deps) (authInfo : Info)
    (message : SetCurrentDropletMessage) :
    ((SetCurrentDroplet d authInfo message).err = none ↔
      ∃ userClient patched awaited,
        d.BuildClient authInfo = .ok userClient ∧
        d.PatchResource userClient
          { Name := message.AppGUID, Namespace := message.SpaceGUID }
          (setCurrentDropletRef message) = .ok patched ∧
        d.AwaitCondition userClient patched StatusConditionStaged = .ok awaited) ∧
    ((SetCurrentDroplet d authInfo message).err = none →
      (SetCurrentDroplet d authInfo message).value =
        { AppGUID := message.AppGUID, DropletGUID := message.DropletGUID }) ∧
    ((SetCurrentDroplet d authInfo message).err ≠ none →
      (SetCurrentDroplet d authInfo message).value = {}) ∧
    (∀ userClient err, d.BuildClient authInfo = .ok userClient →
      d.PatchResource userClient
        { Name := message.AppGUID, Namespace := message.SpaceGUID }
        (setCurrentDropletRef message) = .error err →
      (SetCurrentDroplet d authInfo message).err ≠ none ∧
      ∀ n c, Call.AwaitCondition n c ∉ (SetCurrentDroplet d authInfo message).trace) ∧
    (∀ userClient patched err, d.BuildClient authInfo = .ok userClient →
      d.PatchResource userClient
        { Name := message.AppGUID, Namespace := message.SpaceGUID }
        (setCurrentDropletRef message) = .ok patched →
      d.AwaitCondition userClient patched StatusConditionStaged = .error err →
      (SetCurrentDroplet d authInfo message).err ≠ none) ∧
    (∀ cfApp : CFApp,
      (setCurrentDropletRef message cfApp).Spec.CurrentDropletRef.Name = message.DropletGUID) := by
  refine ⟨?_, ?_, ?_, ?_, ?_, fun _ => rfl⟩
  · unfold SetCurrentDroplet
    cases hb : d.BuildClient authInfo with
    | error e => simp
    | ok userClient =>
      simp only []
      cases hp : d.PatchResource userClient
          { Name := message.AppGUID, Namespace := message.SpaceGUID }
          (setCurrentDropletRef message) with
      | error e => simp [hp]
      | ok patched =>
        simp only []
        cases ha : d.AwaitCondition userClient patched StatusConditionStaged with
        | error e => simp [hp, ha]
        | ok awaited => simp [hp, ha]
  · unfold SetCurrentDroplet
    cases hb : d.BuildClient authInfo with
    | error e => simp
    | ok userClient =>
      simp only []
      cases hp : d.PatchResource userClient
          { Name := message.AppGUID, Namespace := message.SpaceGUID }
          (setCurrentDropletRef message) with
      | error e => simp
      | ok patched =>
        simp only []
        cases ha : d.AwaitCondition userClient patched StatusConditionStaged with
        | error e => simp
        | ok awaited => simp
  · unfold SetCurrentDroplet
    cases hb : d.BuildClient authInfo with
    | error e => simp
    | ok userClient =>
      simp only []
      cases hp : d.PatchResource userClient
          { Name := message.AppGUID, Namespace := message.SpaceGUID }
          (setCurrentDropletRef message) with
      | error e => simp
      | ok patched =>
        simp only []
        cases ha : d.AwaitCondition userClient patched StatusConditionStaged with
        | error e => simp
        | ok awaited => simp
  · intro userClient err hb hp
    simp [SetCurrentDroplet, hb, hp]
  · intro userClient patched err hb hp ha
    simp [SetCurrentDroplet, hb, hp, ha]

/-- Claim C6: when the create is rejected, `CreateApp` returns the empty
record; if the error is recognised as a validation error of the duplicate-name
type the error is the uniqueness error carrying the validation message,
otherwise it is the generic `FromK8sError` mapping of the create error; in
both cases no env-var secret is created or patched. -/
theorem CreateApp_admission_veto (d : Deps) (authInfo : Info) (guid : String)
    (appCreateMessage : CreateAppMessage) (userClient : UserClient) (err : GoError)
    (hbuild : d.BuildClient authInfo = .ok userClient)
    (hcreate : userClient.CreateApp (appCreateMessage.toCFApp guid) = .error err) :
    (CreateApp d authInfo guid appCreateMessage).value = {} ∧
    (((d.WebhookErrorToValidationError err).2 = true ∧
        (d.WebhookErrorToValidationError err).1.Type_ = d.DuplicateNameErrorType) →
      (CreateApp d authInfo guid appCreateMessage).err =
        some (d.NewUniquenessError err (d.GetMessage (d.WebhookErrorToValidationError err).1))) ∧
    (¬ ((d.WebhookErrorToValidationError err).2 = true ∧
        (d.WebhookErrorToValidationError err).1.Type_ = d.DuplicateNameErrorType) →
      (CreateApp d authInfo guid appCreateMessage).err =
        d.FromK8sError (some err) AppResourceType) ∧
    (∀ n, Call.CreateOrPatchSecret n ∉ (CreateApp d authInfo guid appCreateMessage).trace) := by
  by_cases hdup : (d.WebhookErrorToValidationError err).2 = true ∧
      (d.WebhookErrorToValidationError err).1.Type_ = d.DuplicateNameErrorType
  · simp [CreateApp, hbuild, hcreate, hdup]
  · have hcond : ((d.WebhookErrorToValidationError err).2 &&
        decide ((d.WebhookErrorToValidationError err).1.Type_ = d.DuplicateNameErrorType)) =
        false := by
      cases h2 : (d.WebhookErrorToValidationError err).2 with
      | false => simp
      | true =>
        have : ¬ (d.WebhookErrorToValidationError err).1.Type_ = d.DuplicateNameErrorType :=
          fun h => hdup ⟨h2, h⟩
        simp [this]
    refine ⟨?_, fun h => absurd h hdup, fun _ => ?_, ?_⟩ <;>
      simp [CreateApp, hbuild, hcreate, hcond]

/-- Claim C7: when the authorized-namespace lookup fails, `ListApps`
returns a nil record list and a non-nil error; when either lookup of
`ListSpaces` fails (the second one after the spaces were already collected
from the store), `ListSpaces` returns a nil record list and that error. -/
theorem listing_aborts_on_permission_error (d : Deps) (authInfo : Info) :
    (∀ (message : ListAppsMessage) (err : GoError),
      d.GetAuthorizedSpaceNamespaces authInfo = .error err →
      (ListApps d authInfo message).records = none ∧
      (ListApps d authInfo message).err = some (.errorf
        "failed to list namespaces for spaces with user role bindings: %w" [] (some err))) ∧
    (∀ (message : ListSpacesMessage) (userClient : UserClient) (err : GoError),
      d.BuildClient authInfo = .ok userClient →
      d.GetAuthorizedOrgNamespaces authInfo = .error err →
      (ListSpaces d authInfo message).records = none ∧
      (ListSpaces d authInfo message).err = some err) ∧
    (∀ (message : ListSpacesMessage) (userClient : UserClient) (orgs : GoMap Bool)
        (cfSpaces : List CFSpace) (err : GoError),
      d.BuildClient authInfo = .ok userClient →
      d.GetAuthorizedOrgNamespaces authInfo = .ok orgs →
      listSpacesInOrgs d userClient orgs.keys [] = .ok cfSpaces →
      d.GetAuthorizedSpaceNamespaces authInfo = .error err →
      (ListSpaces d authInfo message).records = none ∧
      (ListSpaces d authInfo message).err = some err) := by
  refine ⟨?_, ?_, ?_⟩
  · intro message err h
    simp [ListApps, h]
  · intro message userClient err hb h
    simp [ListSpaces, hb, h]
  · intro message userClient orgs cfSpaces err hb ho hl h
    simp [ListSpaces, hb, ho, hl, h]



theorem GoMap.index_true_mem (m : GoMap Bool) (k : String)
    (h : GoMap.index false m k = true) : (k, true) ∈ m := by
  induction m with
  | nil => simp [GoMap.index] at h
  | cons kv rest ih =>
    obtain ⟨k', v⟩ := kv
    by_cases hk : k' = k
    · simp [GoMap.index, hk] at h
      simp [hk, h]
    · simp [GoMap.index, hk] at h
      exact List.mem_cons_of_mem _ (ih h)

theorem selectSpaces_mem (d : Deps) (message : ListSpacesMessage) (auth : GoMap Bool)
    (cfSpaces : List CFSpace) :
    ∀ (records : Slice SpaceRecord) (r : SpaceRecord),
      r ∈ (selectSpaces d message auth cfSpaces records).elems →
      r ∈ records.elems ∨
      ∃ cfSpace ∈ cfSpaces, r = cfSpaceToSpaceRecord cfSpace ∧
        IsStatusConditionTrue cfSpace.Status.Conditions StatusConditionReady = true ∧
        GoMap.index false auth cfSpace.Name = true := by
  induction cfSpaces with
  | nil => intro records r h; exact Or.inl (by simpa [selectSpaces] using h)
  | cons s rest ih =>
    intro records r h
    have lift : (r ∈ records.elems ∨
        ∃ cfSpace ∈ rest, r = cfSpaceToSpaceRecord cfSpace ∧
          IsStatusConditionTrue cfSpace.Status.Conditions StatusConditionReady = true ∧
          GoMap.index false auth cfSpace.Name = true) →
        (r ∈ records.elems ∨
        ∃ cfSpace ∈ s :: rest, r = cfSpaceToSpaceRecord cfSpace ∧
          IsStatusConditionTrue cfSpace.Status.Conditions StatusConditionReady = true ∧
          GoMap.index false auth cfSpace.Name = true) := by
      rintro (h | ⟨c, hc, hrest⟩)
      · exact Or.inl h
      · exact Or.inr ⟨c, List.mem_cons_of_mem _ hc, hrest⟩
    unfold selectSpaces at h
    split at h
    · exact lift (ih _ _ h)
    · split at h
      · exact lift (ih _ _ h)
      · split at h
        · exact lift (ih _ _ h)
        · split at h
          · exact lift (ih _ _ h)
          · split at h
            · exact lift (ih _ _ h)
            · rename_i hready _ _ _ hauth
              rcases ih _ _ h with h' | ⟨c, hc, hrest⟩
              · simp only [Slice.push, Slice.elems, List.mem_append, List.mem_singleton] at h'
                rcases h' with h' | h'
                · exact Or.inl h'
                · refine Or.inr ⟨s, List.mem_cons_self _ _, h', ?_, ?_⟩
                  · simpa using hready
                  · simpa using hauth
              · exact Or.inr ⟨c, List.mem_cons_of_mem _ hc, hrest⟩

theorem listSpacesInOrgs_mem (d : Deps) (userClient : UserClient) (orgs : List String) :
    ∀ (cfSpaces result : List CFSpace),
      listSpacesInOrgs d userClient orgs cfSpaces = .ok result →
      ∀ s ∈ result, s ∈ cfSpaces ∨
        ∃ org ∈ orgs, ∃ items, userClient.ListSpaces org = .ok items ∧ s ∈ items := by
  induction orgs with
  | nil =>
    intro cfSpaces result h s hs
    simp only [listSpacesInOrgs, Except.ok.injEq] at h
    exact Or.inl (h ▸ hs)
  | cons org rest ih =>
    intro cfSpaces result h s hs
    unfold listSpacesInOrgs at h
    cases hl : userClient.ListSpaces org with
    | error err =>
      rw [hl] at h
      simp only [] at h
      by_cases hf : IsForbidden err = true
      · simp only [hf, if_true] at h
        rcases ih _ _ h s hs with h' | ⟨o, ho, items, hi, hm⟩
        · exact Or.inl h'
        · exact Or.inr ⟨o, List.mem_cons_of_mem _ ho, items, hi, hm⟩
      · simp [hf] at h
    | ok items =>
      rw [hl] at h
      simp only [] at h
      rcases ih _ _ h s hs with h' | ⟨o, ho, items', hi, hm⟩
      · rcases List.mem_append.mp h' with hitem | hitem
        · exact Or.inl hitem
        · exact Or.inr ⟨org, List.mem_cons_self _ _, items, hl, hitem⟩
      · exact Or.inr ⟨o, List.mem_cons_of_mem _ ho, items', hi, hm⟩

/-- Claim C8: every record `ListSpaces` returns is the record of a CFSpace
that was listed in a namespace of the authorized organization set, has
condition Ready true, and whose GUID indexes to true in the authorized space
set (so a GUID that is absent or mapped to false is never returned). -/
theorem ListSpaces_visible_only (d : Deps) (info : Info) (message : ListSpacesMessage)
    (r : SpaceRecord) (hr : r ∈ (ListSpaces d info message).records.elems) :
    ∃ userClient orgs spaces org items cfSpace,
      d.BuildClient info = .ok userClient ∧
      d.GetAuthorizedOrgNamespaces info = .ok orgs ∧
      d.GetAuthorizedSpaceNamespaces info = .ok spaces ∧
      org ∈ orgs.keys ∧
      userClient.ListSpaces org = .ok items ∧
      cfSpace ∈ items ∧
      r = cfSpaceToSpaceRecord cfSpace ∧
      IsStatusConditionTrue cfSpace.Status.Conditions StatusConditionReady = true ∧
      GoMap.index false spaces r.GUID = true ∧
      (r.GUID, true) ∈ spaces := by
  unfold ListSpaces at hr
  cases hb : d.BuildClient info with
  | error e => rw [hb] at hr; simp [Slice.elems] at hr
  | ok userClient =>
    rw [hb] at hr
    simp only [] at hr
    cases ho : d.GetAuthorizedOrgNamespaces info with
    | error e => rw [ho] at hr; simp [Slice.elems] at hr
    | ok orgs =>
      rw [ho] at hr
      simp only [] at hr
      cases hl : listSpacesInOrgs d userClient orgs.keys [] with
      | error e => rw [hl] at hr; simp [Slice.elems] at hr
      | ok cfSpaces =>
        rw [hl] at hr
        simp only [] at hr
        cases hs : d.GetAuthorizedSpaceNamespaces info with
        | error e => rw [hs] at hr; simp [Slice.elems] at hr
        | ok spaces =>
          rw [hs] at hr
          simp only [] at hr
          rcases selectSpaces_mem d message spaces cfSpaces none r hr with h | ⟨c, hc, hrec, hready, hauth⟩
          · simp [Slice.elems] at h
          · rcases listSpacesInOrgs_mem d userClient orgs.keys [] cfSpaces hl c hc with h | ⟨org, horg, items, hi, hm⟩
            · simp at h
            · have hguid : r.GUID = c.Name := by rw [hrec]; rfl
              exact ⟨userClient, orgs, spaces, org, items, c, rfl, rfl, rfl, horg, hi, hm, hrec,
                hready, by rw [hguid]; exact hauth,
                by rw [hguid]; exact GoMap.index_true_mem _ _ hauth⟩

theorem listAppsInNamespaces_skip_forbidden (d : Deps) (userClient : UserClient)
    (message : ListAppsMessage) (ns : String) (err : GoError)
    (hlist : userClient.ListApps ns = .error err) (hforbidden : IsForbidden err = true)
    (pre post : List String) :
    ∀ filteredApps, listAppsInNamespaces d userClient message (pre ++ ns :: post) filteredApps =
      listAppsInNamespaces d userClient message (pre ++ post) filteredApps := by
  induction pre with
  | nil => intro acc; simp [listAppsInNamespaces, hlist, hforbidden]
  | cons p rest ih =>
    intro acc
    simp only [List.cons_append, listAppsInNamespaces]
    cases userClient.ListApps p with
    | error e => simp only []; split <;> simp [ih]
    | ok items => simp [ih]

theorem listSpacesInOrgs_skip_forbidden (d : Deps) (userClient : UserClient)
    (org : String) (err : GoError)
    (hlist : userClient.ListSpaces org = .error err) (hforbidden : IsForbidden err = true)
    (pre post : List String) :
    ∀ cfSpaces, listSpacesInOrgs d userClient (pre ++ org :: post) cfSpaces =
      listSpacesInOrgs d userClient (pre ++ post) cfSpaces := by
  induction pre with
  | nil => intro acc; simp [listSpacesInOrgs, hlist, hforbidden]
  | cons p rest ih =>
    intro acc
    simp only [List.cons_append, listSpacesInOrgs]
    cases userClient.ListSpaces p with
    | error e => simp only []; split <;> simp [ih]
    | ok items => simp [ih]

theorem listAppsInNamespaces_surfaces (d : Deps) (userClient : UserClient)
    (message : ListAppsMessage) (ns : String) (err : GoError)
    (hlist : userClient.ListApps ns = .error err) (hother : IsForbidden err = false)
    (namespaces : List String) (hmem : ns ∈ namespaces) :
    ∀ filteredApps, ∃ e, listAppsInNamespaces d userClient message namespaces filteredApps =
      .error e := by
  induction namespaces with
  | nil => simp at hmem
  | cons p rest ih =>
    intro acc
    by_cases hp : p = ns
    · subst hp
      refine ⟨.errorf "failed to list apps in namespace %s: %w" [p]
        (d.FromK8sError (some err) AppResourceType), ?_⟩
      simp [listAppsInNamespaces, hlist, hother]
    · have hrest : ns ∈ rest := by
        rcases List.mem_cons.mp hmem with h | h
        · exact absurd h.symm hp
        · exact h
      simp only [listAppsInNamespaces]
      cases userClient.ListApps p with
      | error e =>
        simp only []
        split
        · exact ih hrest acc
        · exact ⟨_, rfl⟩
      | ok items => exact ih hrest _

theorem listAppsInNamespaces_withSpaceNamespaces (d : Deps) (nsList : GoMap Bool)
    (userClient : UserClient) (message : ListAppsMessage) (namespaces : List String) :
    ∀ filteredApps,
      listAppsInNamespaces (withSpaceNamespaces d nsList) userClient message namespaces
        filteredApps =
      listAppsInNamespaces d userClient message namespaces filteredApps := by
  induction namespaces with
  | nil => intro acc; rfl
  | cons p rest ih =>
    intro acc
    simp only [listAppsInNamespaces]
    cases userClient.ListApps p with
    | error e =>
      simp only []
      split
      · exact ih acc
      · rfl
    | ok items => exact ih _

theorem listSpacesInOrgs_withOrgNamespaces (d : Deps) (orgs : GoMap Bool)
    (userClient : UserClient) (namespaces : List String) :
    ∀ cfSpaces,
      listSpacesInOrgs (withOrgNamespaces d orgs) userClient namespaces cfSpaces =
      listSpacesInOrgs d userClient namespaces cfSpaces := by
  induction namespaces with
  | nil => intro acc; rfl
  | cons p rest ih =>
    intro acc
    simp only [listSpacesInOrgs]
    cases userClient.ListSpaces p with
    | error e =>
      simp only []
      split
      · exact ih acc
      · rfl
    | ok items => exact ih _

theorem selectSpaces_withOrgNamespaces (d : Deps) (orgs : GoMap Bool)
    (message : ListSpacesMessage) (auth : GoMap Bool) (cfSpaces : List CFSpace) :
    ∀ records,
      selectSpaces (withOrgNamespaces d orgs) message auth cfSpaces records =
      selectSpaces d message auth cfSpaces records := by
  induction cfSpaces with
  | nil => intro records; rfl
  | cons s rest ih =>
    intro records
    simp only [selectSpaces, ih]
    rfl

theorem returnAppList_withSpaceNamespaces (d : Deps) (nsList : GoMap Bool)
    (appList : List CFApp) :
    returnAppList (withSpaceNamespaces d nsList) appList = returnAppList d appList := rfl

/-- Claim C9, refuted as stated: against a store that answers Forbidden to
every per-namespace list call, `ListApps` and `ListSpaces` both return without
error. -/
theorem forbidden_list_answer_not_surfaced :
    (∀ ns, ∃ err, forbiddenClient.ListApps ns = .error err ∧ IsForbidden err = true) ∧
    (∀ ns, ∃ err, forbiddenClient.ListSpaces ns = .error err ∧ IsForbidden err = true) ∧
    (ListApps (sampleDeps forbiddenClient) {} {}).err = none ∧
    (ListSpaces (sampleDeps forbiddenClient) {} {}).err = none :=
  ⟨fun _ => ⟨_, rfl, rfl⟩, fun _ => ⟨_, rfl, rfl⟩, rfl, rfl⟩

/-- Claim C9, amended: when the store answers Forbidden to the list call of
an authorized namespace, `ListApps` and `ListSpaces` return what they return
when that namespace is not in the authorized set; a list error of `ListApps`
that is not Forbidden is surfaced as an error. -/
theorem forbidden_list_answer_excludes_namespace (d : Deps) (authInfo : Info)
    (userClient : UserClient) (pre post : GoMap Bool) (ns : String) (b : Bool) (err : GoError)
    (hbuild : d.BuildClient authInfo = .ok userClient) :
    (∀ message : ListAppsMessage,
      d.GetAuthorizedSpaceNamespaces authInfo = .ok (pre ++ (ns, b) :: post) →
      userClient.ListApps ns = .error err →
      (IsForbidden err = true →
        ListApps d authInfo message =
          ListApps (withSpaceNamespaces d (pre ++ post)) authInfo message) ∧
      (IsForbidden err = false → (ListApps d authInfo message).err ≠ none)) ∧
    (∀ message : ListSpacesMessage,
      d.GetAuthorizedOrgNamespaces authInfo = .ok (pre ++ (ns, b) :: post) →
      userClient.ListSpaces ns = .error err →
      IsForbidden err = true →
      ListSpaces d authInfo message =
        ListSpaces (withOrgNamespaces d (pre ++ post)) authInfo message) := by
  have hkeys : GoMap.keys (pre ++ (ns, b) :: post) = pre.keys ++ ns :: post.keys := by
    simp [GoMap.keys]
  have hkeys' : GoMap.keys (pre ++ post) = pre.keys ++ post.keys := by
    simp [GoMap.keys]
  refine ⟨?_, ?_⟩
  · intro message hauth hlist
    refine ⟨?_, ?_⟩
    · intro hforbidden
      have hskip := listAppsInNamespaces_skip_forbidden d userClient message ns err hlist
        hforbidden pre.keys post.keys []
      have hauth' : (withSpaceNamespaces d (pre ++ post)).GetAuthorizedSpaceNamespaces authInfo =
          .ok (pre ++ post) := rfl
      have hbuild' : (withSpaceNamespaces d (pre ++ post)).BuildClient authInfo =
          .ok userClient := hbuild
      simp only [ListApps, hauth, hbuild, hauth', hbuild', hkeys, hkeys', hskip,
        listAppsInNamespaces_withSpaceNamespaces, returnAppList_withSpaceNamespaces]
    · intro hother
      have hmem : ns ∈ GoMap.keys (pre ++ (ns, b) :: post) := by simp [GoMap.keys]
      obtain ⟨e, he⟩ := listAppsInNamespaces_surfaces d userClient message ns err hlist hother
        _ hmem []
      simp [ListApps, hauth, hbuild, he]
  · intro message hauth hlist hforbidden
    have hskip := listSpacesInOrgs_skip_forbidden d userClient ns err hlist
      hforbidden pre.keys post.keys []
    have hauth' : (withOrgNamespaces d (pre ++ post)).GetAuthorizedOrgNamespaces authInfo =
        .ok (pre ++ post) := rfl
    have hbuild' : (withOrgNamespaces d (pre ++ post)).BuildClient authInfo =
        .ok userClient := hbuild
    have hspaces : (withOrgNamespaces d (pre ++ post)).GetAuthorizedSpaceNamespaces authInfo =
        d.GetAuthorizedSpaceNamespaces authInfo := rfl
    simp only [ListSpaces, hauth, hbuild, hauth', hbuild', hspaces, hkeys, hkeys', hskip,
      listSpacesInOrgs_withOrgNamespaces, selectSpaces_withOrgNamespaces]


theorem foldl_append_singleton {α β : Type} (f : α → β) (l : List α) :
    ∀ acc : List β, l.foldl (fun acc x => acc ++ [f x]) acc = acc ++ l.map f := by
  induction l with
  | nil => intro acc; simp
  | cons x rest ih => intro acc; simp [ih]

theorem returnAppList_eq_map (d : Deps) (appList : List CFApp) :
    returnAppList d appList = appList.map (cfAppToAppRecord d) := by
  simp [returnAppList, foldl_append_singleton]

theorem listAppsInNamespaces_ok (d : Deps) (userClient : UserClient) (message : ListAppsMessage)
    (namespaces : List String) :
    ∀ filteredApps result,
      listAppsInNamespaces d userClient message namespaces filteredApps = .ok result →
      result = filteredApps ++ visitedFilteredApps userClient message namespaces := by
  induction namespaces with
  | nil =>
    intro acc result h
    simp only [listAppsInNamespaces, Except.ok.injEq] at h
    simp [visitedFilteredApps, h]
  | cons ns rest ih =>
    intro acc result h
    unfold listAppsInNamespaces at h
    cases hl : userClient.ListApps ns with
    | error err =>
      rw [hl] at h
      simp only [] at h
      by_cases hf : IsForbidden err = true
      · simp only [hf, if_true] at h
        have := ih _ _ h
        simpa [visitedFilteredApps, hl] using this
      · simp [hf] at h
    | ok items =>
      rw [hl] at h
      simp only [] at h
      have := ih _ _ h
      simpa [visitedFilteredApps, hl] using this

theorem getElem?_adjacent (pre : List AppRecord) (y x : AppRecord) (post : List AppRecord) :
    (pre ++ y :: x :: post)[pre.length]? = some y ∧
    (pre ++ y :: x :: post)[pre.length + 1]? = some x := by
  induction pre with
  | nil => simp
  | cons p rest ih => simpa using ih

theorem set_adjacent (pre : List AppRecord) (y x : AppRecord) (post : List AppRecord) :
    ((pre ++ y :: x :: post).set (pre.length + 1) y).set pre.length x =
      pre ++ x :: y :: post := by
  induction pre with
  | nil => simp
  | cons p rest ih => simp [ih]

theorem byName_Less_adjacent (pre : List AppRecord) (y x : AppRecord) (post : List AppRecord) :
    byName.Less (pre ++ y :: x :: post) (pre.length + 1) pre.length =
      stringLess x.Name y.Name := by
  obtain ⟨h1, h2⟩ := getElem?_adjacent pre y x post
  simp only [byName.Less, h1, h2]

theorem byName_Swap_adjacent (pre : List AppRecord) (y x : AppRecord) (post : List AppRecord) :
    byName.Swap (pre ++ y :: x :: post) (pre.length + 1) pre.length =
      pre ++ x :: y :: post := by
  obtain ⟨h1, h2⟩ := getElem?_adjacent pre y x post
  simp only [byName.Swap, h1, h2, set_adjacent]

theorem insertionInner_spec (pre : List AppRecord) :
    ∀ (x : AppRecord) (post : List AppRecord), SortedByName pre →
      ∃ l, insertionInner (pre ++ x :: post) pre.length = l ++ post ∧
        l.Perm (pre ++ [x]) ∧ SortedByName l := by
  induction pre using List.reverseRecOn with
  | nil =>
    intro x post _
    exact ⟨[x], by simp [insertionInner], List.Perm.refl _, by simp [SortedByName]⟩
  | append_singleton pre y ih =>
    intro x post hsorted
    have hpre : SortedByName pre := by
      unfold SortedByName at hsorted ⊢
      exact (List.pairwise_append.mp hsorted).1
    have hle : ∀ a ∈ pre, stringKey a.Name ≤ stringKey y.Name := by
      intro a ha
      unfold SortedByName at hsorted
      exact (List.pairwise_append.mp hsorted).2.2 a ha y (by simp)
    have hshape : pre ++ [y] ++ x :: post = pre ++ y :: x :: post := by simp
    rw [hshape, List.length_append, List.length_singleton]
    unfold insertionInner
    rw [byName_Less_adjacent, byName_Swap_adjacent]
    by_cases hlt : stringLess x.Name y.Name = true
    · simp only [hlt, if_true]
      obtain ⟨l, hl, hperm, hs⟩ := ih x (y :: post) hpre
      refine ⟨l ++ [y], by simp [hl], ?_, ?_⟩
      · have h1 : (l ++ [y]).Perm (pre ++ [x] ++ [y]) := List.Perm.append_right _ hperm
        refine h1.trans ?_
        simp only [List.append_assoc]
        exact List.Perm.append_left _ (List.Perm.swap _ _ _)
      · unfold SortedByName at hs ⊢
        refine List.pairwise_append.mpr ⟨hs, by simp, ?_⟩
        intro a ha b hb
        have hb' : b = y := by simpa using hb
        subst hb'
        have ha' : a ∈ pre ++ [x] := hperm.subset ha
        rcases List.mem_append.mp ha' with h | h
        · exact hle a h
        · have hax : a = x := by simpa using h
          subst hax
          simp only [stringLess, decide_eq_true_eq] at hlt
          exact le_of_lt hlt
    · simp only [hlt]
      have hge : stringKey y.Name ≤ stringKey x.Name := by
        simp only [stringLess, decide_eq_true_eq, not_lt] at hlt
        exact hlt
      refine ⟨pre ++ [y] ++ [x], by simp, List.Perm.refl _, ?_⟩
      unfold SortedByName at hsorted ⊢
      refine List.pairwise_append.mpr ⟨hsorted, by simp, ?_⟩
      intro a ha b hb
      have hb' : b = x := by simpa using hb
      subst hb'
      rcases List.mem_append.mp ha with h | h
      · exact le_trans (hle a h) hge
      · have hay : a = y := by simpa using h
        subst hay
        exact hge

theorem insertionOuter_spec (post : List AppRecord) :
    ∀ pre : List AppRecord, SortedByName pre →
      (insertionOuter (pre ++ post) pre.length post.length).Perm (pre ++ post) ∧
      SortedByName (insertionOuter (pre ++ post) pre.length post.length) := by
  induction post with
  | nil => intro pre hs; simpa [insertionOuter] using hs
  | cons x rest ih =>
    intro pre hs
    obtain ⟨l, hl, hperm, hsl⟩ := insertionInner_spec pre x rest hs
    have hlen : l.length = pre.length + 1 := by simpa using hperm.length_eq
    simp only [List.length_cons, insertionOuter, hl]
    rw [← hlen]
    obtain ⟨h1, h2⟩ := ih l hsl
    refine ⟨h1.trans ?_, h2⟩
    have : (l ++ rest).Perm (pre ++ [x] ++ rest) := List.Perm.append_right _ hperm
    simpa using this

theorem sortSort_spec (a : List AppRecord) :
    (sortSort a).Perm a ∧ SortedByName (sortSort a) := by
  cases a with
  | nil => simp [sortSort, byName.Len, insertionOuter, SortedByName]
  | cons x rest =>
    have := insertionOuter_spec rest [x] (by simp [SortedByName])
    simpa [sortSort, byName.Len] using this

/-- Claim C10: on a successful `ListApps`, for all positions `i < j` of the
result the name at `i` is at most the name at `j`, and the result is a
permutation of the records converted from the filtered apps of the visited
namespaces. -/
theorem ListApps_sorted_by_name (d : Deps) (authInfo : Info) (message : ListAppsMessage)
    (records : List AppRecord)
    (hrecords : (ListApps d authInfo message).records = some records)
    (herr : (ListApps d authInfo message).err = none) :
    (∀ (i j : Nat) (x y : AppRecord), i < j → records[i]? = some x → records[j]? = some y →
      stringKey x.Name ≤ stringKey y.Name) ∧
    ∃ userClient nsList,
      d.BuildClient authInfo = .ok userClient ∧
      d.GetAuthorizedSpaceNamespaces authInfo = .ok nsList ∧
      records.Perm
        ((visitedFilteredApps userClient message nsList.keys).map (cfAppToAppRecord d)) := by
  unfold ListApps at hrecords herr
  cases ha : d.GetAuthorizedSpaceNamespaces authInfo with
  | error e => rw [ha] at herr; simp at herr
  | ok nsList =>
    rw [ha] at hrecords herr
    simp only [] at hrecords herr
    cases hb : d.BuildClient authInfo with
    | error e => rw [hb] at herr; simp at herr
    | ok userClient =>
      rw [hb] at hrecords herr
      simp only [] at hrecords herr
      cases hl : listAppsInNamespaces d userClient message nsList.keys [] with
      | error e => rw [hl] at herr; simp at herr
      | ok filteredApps =>
        rw [hl] at hrecords
        simp only [Option.some.injEq] at hrecords
        have hfiltered := listAppsInNamespaces_ok d userClient message nsList.keys [] _ hl
        simp only [List.nil_append] at hfiltered
        obtain ⟨hperm, hsorted⟩ := sortSort_spec (returnAppList d filteredApps)
        rw [hrecords, returnAppList_eq_map, hfiltered] at hperm
        rw [hrecords] at hsorted
        refine ⟨?_, userClient, nsList, rfl, rfl, hperm⟩
        intro i j x y hij hx hy
        unfold SortedByName at hsorted
        obtain ⟨hi, hxi⟩ := List.getElem?_eq_some_iff.mp hx
        obtain ⟨hj, hyj⟩ := List.getElem?_eq_some_iff.mp hy
        have := List.pairwise_iff_getElem.mp hsorted i j hi hj hij
        rw [hxi, hyj] at this
        exact this

/-- Claim C1 at a concrete run. -/
theorem createSpaceCR_returns_first_ready_witness :
    (watchingClient readyEvents).CreateSpace (sampleSpace []) = .ok (sampleSpace []) ∧
    (watchingClient readyEvents).WatchSpaces "org-1" "cf-space-1" = .ok readyEvents ∧
    (((createSpaceCR (sampleDeps offlineClient) 5000000000 (watchingClient readyEvents)
          (sampleSpace [])).space ≠ none ∧
        (createSpaceCR (sampleDeps offlineClient) 5000000000 (watchingClient readyEvents)
          (sampleSpace [])).err = none) ↔
      ∃ e ∈ readyEvents, isReadySpace e = true) :=
  ⟨rfl, rfl,
    (createSpaceCR_returns_first_ready (sampleDeps offlineClient) 5000000000
      (watchingClient readyEvents) (sampleSpace []) (sampleSpace []) readyEvents rfl rfl).2⟩

/-- Claim C2 at a concrete run. -/
theorem createSpaceCR_timeout_witness :
    (∀ e ∈ pendingEvents, isReadySpace e = false) ∧
    (createSpaceCR (sampleDeps offlineClient) 5000000000 (watchingClient pendingEvents)
      (sampleSpace [])).err = some (.errorf
        "cf space did not get Condition `Ready`: 'True' within timeout period %d ms"
        ["5000"] none) :=
  ⟨by decide,
    (createSpaceCR_timeout (sampleDeps offlineClient) 5000000000 (watchingClient pendingEvents)
      (sampleSpace []) (sampleSpace []) pendingEvents rfl rfl (by decide)).2.1⟩

/-- Claim C3 at a concrete run. -/
theorem createSpaceCR_setup_failure_witness :
    unwatchableClient.CreateSpace (sampleSpace []) = .ok (sampleSpace []) ∧
    unwatchableClient.WatchSpaces "org-1" "cf-space-1" = .error (.plain "connection refused") ∧
    (createSpaceCR (sampleDeps offlineClient) 5000000000 unwatchableClient
      (sampleSpace [])).space = none ∧
    (createSpaceCR (sampleDeps offlineClient) 5000000000 unwatchableClient
      (sampleSpace [])).err = some (.errorf "failed to set up watch on cf space: %w" []
        (some (.plain "connection refused"))) ∧
    Call.Recv ∉ (createSpaceCR (sampleDeps offlineClient) 5000000000 unwatchableClient
      (sampleSpace [])).trace :=
  ⟨rfl, rfl,
    (createSpaceCR_setup_failure (sampleDeps offlineClient) 5000000000 unwatchableClient
      (sampleSpace [])).2 (sampleSpace []) (.plain "connection refused") rfl rfl⟩

/-- Claim C4 at a concrete run. -/
theorem createSpaceCR_releases_subscription_witness :
    (watchingClient pendingEvents).CreateSpace (sampleSpace []) = .ok (sampleSpace []) ∧
    (watchingClient pendingEvents).WatchSpaces "org-1" "cf-space-1" = .ok pendingEvents ∧
    (createSpaceCR (sampleDeps offlineClient) 5000000000 (watchingClient pendingEvents)
      (sampleSpace [])).trace.getLast? = some Call.CancelFn :=
  ⟨rfl, rfl,
    (createSpaceCR_releases_subscription (sampleDeps offlineClient) 5000000000
      (watchingClient pendingEvents) (sampleSpace []) (sampleSpace []) pendingEvents rfl rfl).1⟩

/-- Claim C5 at a concrete run. -/
theorem SetCurrentDroplet_synchronous_witness :
    unpatchableDeps.BuildClient {} = .ok offlineClient ∧
    unpatchableDeps.PatchResource offlineClient { Name := "guid-1", Namespace := "space-a" }
      (setCurrentDropletRef
        { AppGUID := "guid-1", DropletGUID := "droplet-1", SpaceGUID := "space-a" }) =
      .error (.status "NotFound" "cfapp not found") ∧
    (SetCurrentDroplet unpatchableDeps {}
      { AppGUID := "guid-1", DropletGUID := "droplet-1", SpaceGUID := "space-a" }).err ≠ none ∧
    (∀ n c, Call.AwaitCondition n c ∉ (SetCurrentDroplet unpatchableDeps {}
      { AppGUID := "guid-1", DropletGUID := "droplet-1", SpaceGUID := "space-a" }).trace) :=
  ⟨rfl, rfl,
    (SetCurrentDroplet_synchronous unpatchableDeps {}
      { AppGUID := "guid-1", DropletGUID := "droplet-1", SpaceGUID := "space-a" }).2.2.2.1
      offlineClient (.status "NotFound" "cfapp not found") rfl rfl⟩

/-- Claim C6 at a concrete run. -/
theorem CreateApp_admission_veto_witness :
    (sampleDeps vetoingClient).BuildClient {} = .ok vetoingClient ∧
    vetoingClient.CreateApp (CreateAppMessage.toCFApp { Name := "my-app", SpaceGUID := "space-a" }
      "guid-9") = .error (.status "Invalid" "App with the name 'my-app' already exists.") ∧
    (CreateApp (sampleDeps vetoingClient) {} "guid-9"
      { Name := "my-app", SpaceGUID := "space-a" }).err =
      some (.errorf "CF-UniquenessError: %s: %w" ["App with the name 'my-app' already exists."]
        (some (.status "Invalid" "App with the name 'my-app' already exists."))) ∧
    (∀ n, Call.CreateOrPatchSecret n ∉ (CreateApp (sampleDeps vetoingClient) {} "guid-9"
      { Name := "my-app", SpaceGUID := "space-a" }).trace) :=
  ⟨rfl, rfl,
    (CreateApp_admission_veto (sampleDeps vetoingClient) {} "guid-9"
      { Name := "my-app", SpaceGUID := "space-a" } vetoingClient
      (.status "Invalid" "App with the name 'my-app' already exists.") rfl rfl).2.1
      ⟨rfl, rfl⟩,
    (CreateApp_admission_veto (sampleDeps vetoingClient) {} "guid-9"
      { Name := "my-app", SpaceGUID := "space-a" } vetoingClient
      (.status "Invalid" "App with the name 'my-app' already exists.") rfl rfl).2.2.2⟩

/-- Claim C7 at a concrete run. -/
theorem listing_aborts_on_permission_error_witness :
    unauthorizedDeps.GetAuthorizedSpaceNamespaces {} =
      .error (.status "Unauthorized" "token expired") ∧
    (ListApps unauthorizedDeps {} {}).records = none ∧
    (ListApps unauthorizedDeps {} {}).err = some (.errorf
      "failed to list namespaces for spaces with user role bindings: %w" []
      (some (.status "Unauthorized" "token expired"))) ∧
    unauthorizedDeps.BuildClient {} = .ok listingClient ∧
    unauthorizedDeps.GetAuthorizedOrgNamespaces {} =
      .error (.status "Unauthorized" "token expired") ∧
    (ListSpaces unauthorizedDeps {} {}).records = none ∧
    (ListSpaces unauthorizedDeps {} {}).err = some (.status "Unauthorized" "token expired") ∧
    (∃ cfSpaces, cfSpaces ≠ [] ∧
      listSpacesInOrgs lateUnauthorizedDeps listingClient (GoMap.keys [("org-1", true)]) [] =
        .ok cfSpaces) ∧
    (ListSpaces lateUnauthorizedDeps {} {}).records = none ∧
    (ListSpaces lateUnauthorizedDeps {} {}).err =
      some (.status "Unauthorized" "token expired") :=
  ⟨rfl,
    ((listing_aborts_on_permission_error unauthorizedDeps {}).1 {}
      (.status "Unauthorized" "token expired") rfl).1,
    ((listing_aborts_on_permission_error unauthorizedDeps {}).1 {}
      (.status "Unauthorized" "token expired") rfl).2,
    rfl, rfl,
    ((listing_aborts_on_permission_error unauthorizedDeps {}).2.1 {} listingClient
      (.status "Unauthorized" "token expired") rfl rfl).1,
    ((listing_aborts_on_permission_error unauthorizedDeps {}).2.1 {} listingClient
      (.status "Unauthorized" "token expired") rfl rfl).2,
    ⟨_, List.cons_ne_nil _ _, rfl⟩,
    ((listing_aborts_on_permission_error lateUnauthorizedDeps {}).2.2 {} listingClient
      [("org-1", true)] _ (.status "Unauthorized" "token expired") rfl rfl rfl rfl).1,
    ((listing_aborts_on_permission_error lateUnauthorizedDeps {}).2.2 {} listingClient
      [("org-1", true)] _ (.status "Unauthorized" "token expired") rfl rfl rfl rfl).2⟩

/-- Claim C8 at a concrete run. -/
theorem ListSpaces_visible_only_witness :
    (ListSpaces (sampleDeps listingClient) {} {}).records.elems.map (fun r => r.GUID) =
      ["space-a"] ∧
    ∃ userClient orgs spaces org items cfSpace,
      (sampleDeps listingClient).BuildClient {} = .ok userClient ∧
      (sampleDeps listingClient).GetAuthorizedOrgNamespaces {} = .ok orgs ∧
      (sampleDeps listingClient).GetAuthorizedSpaceNamespaces {} = .ok spaces ∧
      org ∈ orgs.keys ∧
      userClient.ListSpaces org = .ok items ∧
      cfSpace ∈ items ∧
      ({ Name := "dev", GUID := "space-a", OrganizationGUID := "org-1" } : SpaceRecord) =
        cfSpaceToSpaceRecord cfSpace ∧
      IsStatusConditionTrue cfSpace.Status.Conditions StatusConditionReady = true ∧
      GoMap.index false spaces "space-a" = true ∧
      ("space-a", true) ∈ spaces :=
  ⟨by decide,
    ListSpaces_visible_only (sampleDeps listingClient) {} {}
      { Name := "dev", GUID := "space-a", OrganizationGUID := "org-1" } (by decide)⟩

/-- Claim C9 at a concrete run. -/
theorem forbidden_list_answer_excludes_namespace_witness :
    (sampleDeps listingClient).BuildClient {} = .ok listingClient ∧
    (withSpaceNamespaces (sampleDeps listingClient)
      [("space-a", true), ("space-x", true), ("space-b", true)]).GetAuthorizedSpaceNamespaces {} =
      .ok ([("space-a", true)] ++ ("space-x", true) :: [("space-b", true)]) ∧
    listingClient.ListApps "space-x" =
      .error (.status "Forbidden" "cfapps is forbidden in space-x") ∧
    IsForbidden (.status "Forbidden" "cfapps is forbidden in space-x") = true ∧
    ListApps (withSpaceNamespaces (sampleDeps listingClient)
        [("space-a", true), ("space-x", true), ("space-b", true)]) {} {} =
      ListApps (withSpaceNamespaces (withSpaceNamespaces (sampleDeps listingClient)
        [("space-a", true), ("space-x", true), ("space-b", true)])
        ([("space-a", true)] ++ [("space-b", true)])) {} {} :=
  ⟨rfl, rfl, rfl, rfl,
    ((forbidden_list_answer_excludes_namespace
      (withSpaceNamespaces (sampleDeps listingClient)
        [("space-a", true), ("space-x", true), ("space-b", true)]) {} listingClient
      [("space-a", true)] [("space-b", true)] "space-x" true
      (.status "Forbidden" "cfapps is forbidden in space-x") rfl).1 {} rfl rfl).1 rfl⟩

/-- Claim C10 at a concrete run. -/
theorem ListApps_sorted_by_name_witness :
    (ListApps (sampleDeps listingClient) {} {}).records =
      some (ListApps (sampleDeps listingClient) {} {}).records.elems ∧
    (ListApps (sampleDeps listingClient) {} {}).err = none ∧
    (ListApps (sampleDeps listingClient) {} {}).records.elems.map (fun r => r.Name) =
      ["alpha", "mid", "zeta"] ∧
    (∀ (i j : Nat) (x y : AppRecord), i < j →
      (ListApps (sampleDeps listingClient) {} {}).records.elems[i]? = some x →
      (ListApps (sampleDeps listingClient) {} {}).records.elems[j]? = some y →
      stringKey x.Name ≤ stringKey y.Name) :=
  ⟨rfl, rfl, by decide,
    (ListApps_sorted_by_name (sampleDeps listingClient) {} {}
      (ListApps (sampleDeps listingClient) {} {}).records.elems rfl rfl).1⟩

theorem UniquenessGuard.collides_iff (siblings : List GuardedObject) (name : String) :
    UniquenessGuard.collides siblings name = true ↔
      ∃ s ∈ siblings, caseFold s.Name = caseFold name := by
  simp [UniquenessGuard.collides]

theorem UniquenessGuard.mem_siblings (st : AdmissionState) (partition : String)
    (renamed : Option String) (s : GuardedObject) :
    s ∈ UniquenessGuard.siblings st partition renamed ↔
      s ∈ st.live ∧ s.ParentPartition = partition ∧ some s.Identity ≠ renamed := by
  simp [UniquenessGuard.siblings]

theorem UniquenessGuard.validateCreate_duplicate (st : AdmissionState) (obj s : GuardedObject)
    (hparent : obj.ParentPartition ∈ st.liveParents) (hlive : s ∈ st.live)
    (hpartition : s.ParentPartition = obj.ParentPartition)
    (hfold : caseFold s.Name = caseFold obj.Name) :
    UniquenessGuard.validateCreate st obj =
      some (.DuplicateName (duplicateSpaceNameErrorMessage obj.Name)) := by
  have hcollides : UniquenessGuard.collides
      (UniquenessGuard.siblings st obj.ParentPartition none) obj.Name = true :=
    (UniquenessGuard.collides_iff _ _).mpr
      ⟨s, (UniquenessGuard.mem_siblings _ _ _ _).mpr ⟨hlive, hpartition, by simp⟩, hfold⟩
  simp [UniquenessGuard.validateCreate, hparent, hcollides]

/-- Claim C11: in an organization partition with a live parent, for names
`first` and `second` with equal case-folded forms: once a space named `first`
is live in the partition, creating a space named `second` there is rejected
with the duplicate-name error; and if creating `first` is admitted, creating
`second` right after it is rejected, so at most one of the two is accepted
under sequential admission. -/
theorem UniquenessGuard_rejects_case_variant (st : AdmissionState) (partition : String)
    (first second firstIdentity secondIdentity : String)
    (hparent : partition ∈ st.liveParents)
    (hfold : caseFold first = caseFold second) :
    (∀ s ∈ st.live, s.ParentPartition = partition → s.Name = first →
      UniquenessGuard.admitCreate st
        { Identity := secondIdentity, ParentPartition := partition, Name := second } =
        .error (.DuplicateName (duplicateSpaceNameErrorMessage second))) ∧
    (∀ st', UniquenessGuard.admitCreate st
        { Identity := firstIdentity, ParentPartition := partition, Name := first } = .ok st' →
      UniquenessGuard.admitCreate st'
        { Identity := secondIdentity, ParentPartition := partition, Name := second } =
        .error (.DuplicateName (duplicateSpaceNameErrorMessage second))) := by
  refine ⟨?_, ?_⟩
  · intro s hlive hpartition hname
    have := UniquenessGuard.validateCreate_duplicate st
      { Identity := secondIdentity, ParentPartition := partition, Name := second } s hparent hlive
      hpartition (by rw [hname]; exact hfold)
    simp [UniquenessGuard.admitCreate, this]
  · intro st' hadmit
    unfold UniquenessGuard.admitCreate at hadmit
    cases hv : UniquenessGuard.validateCreate st
        { Identity := firstIdentity, ParentPartition := partition, Name := first } with
    | some rejection => rw [hv] at hadmit; simp at hadmit
    | none =>
      rw [hv] at hadmit
      simp only [Except.ok.injEq] at hadmit
      subst hadmit
      have := UniquenessGuard.validateCreate_duplicate
        { st with live := st.live ++
            [{ Identity := firstIdentity, ParentPartition := partition, Name := first }] }
        { Identity := secondIdentity, ParentPartition := partition, Name := second }
        { Identity := firstIdentity, ParentPartition := partition, Name := first }
        hparent (by simp) rfl hfold
      simp [UniquenessGuard.admitCreate, this]

/-- Claim C12: creating a space in a partition that has no live parent entity
is rejected with the error `Organization '<ns>' does not exist for Space
'<name>'`; creating a space whose case-folded name no live sibling holds, in a
partition with a live parent, is admitted and the space becomes live. -/
theorem UniquenessGuard_rejects_orphaned_reference (st : AdmissionState)
    (obj : GuardedObject) :
    (obj.ParentPartition ∉ st.liveParents →
      UniquenessGuard.admitCreate st obj =
        .error (.OrphanedReference
          ("Organization '" ++ obj.ParentPartition ++ "' does not exist for Space '" ++
            obj.Name ++ "'"))) ∧
    (obj.ParentPartition ∈ st.liveParents →
      (∀ s ∈ st.live, s.ParentPartition = obj.ParentPartition →
        caseFold s.Name ≠ caseFold obj.Name) →
      UniquenessGuard.admitCreate st obj = .ok { st with live := st.live ++ [obj] }) := by
  refine ⟨?_, ?_⟩
  · intro horphan
    simp [UniquenessGuard.admitCreate, UniquenessGuard.validateCreate, horphan,
      orgDoesNotExistErrorMessage]
  · intro hparent hunique
    have hcollides : UniquenessGuard.collides
        (UniquenessGuard.siblings st obj.ParentPartition none) obj.Name = false := by
      rw [Bool.eq_false_iff]
      intro h
      obtain ⟨s, hs, hfold⟩ := (UniquenessGuard.collides_iff _ _).mp h
      obtain ⟨hlive, hpartition, _⟩ := (UniquenessGuard.mem_siblings _ _ _ _).mp hs
      exact hunique s hlive hpartition hfold
    simp [UniquenessGuard.admitCreate, UniquenessGuard.validateCreate, hparent, hcollides]

/-- Claim C13: a rename is admitted exactly when no live sibling with another
identity in the same partition holds the case-folded new name (the object
being renamed is left out by identity, whatever its name); an admitted rename
changes the name of that object, and a new name held by a different live
sibling is rejected with the duplicate-name error. -/
theorem UniquenessGuard_rename_excludes_self (st : AdmissionState) (obj : GuardedObject)
    (newName : String) :
    (UniquenessGuard.validateRename st obj newName = none ↔
      ∀ s ∈ st.live, s.ParentPartition = obj.ParentPartition → s.Identity ≠ obj.Identity →
        caseFold s.Name ≠ caseFold newName) ∧
    ((∀ s ∈ st.live, s.ParentPartition = obj.ParentPartition → s.Identity ≠ obj.Identity →
        caseFold s.Name ≠ caseFold newName) →
      UniquenessGuard.admitRename st obj newName =
        .ok { st with live := st.live.map fun s =>
                if s.Identity = obj.Identity then { s with Name := newName } else s }) ∧
    (∀ other ∈ st.live, other.ParentPartition = obj.ParentPartition →
      other.Identity ≠ obj.Identity → caseFold other.Name = caseFold newName →
      UniquenessGuard.admitRename st obj newName =
        .error (.DuplicateName (duplicateSpaceNameErrorMessage newName))) := by
  have hiff : UniquenessGuard.collides
      (UniquenessGuard.siblings st obj.ParentPartition (some obj.Identity)) newName = true ↔
      ∃ s ∈ st.live, s.ParentPartition = obj.ParentPartition ∧ s.Identity ≠ obj.Identity ∧
        caseFold s.Name = caseFold newName := by
    rw [UniquenessGuard.collides_iff]
    constructor
    · rintro ⟨s, hs, hfold⟩
      obtain ⟨hlive, hpartition, hid⟩ := (UniquenessGuard.mem_siblings _ _ _ _).mp hs
      exact ⟨s, hlive, hpartition, by simpa using hid, hfold⟩
    · rintro ⟨s, hlive, hpartition, hid, hfold⟩
      exact ⟨s, (UniquenessGuard.mem_siblings _ _ _ _).mpr ⟨hlive, hpartition, by simpa using hid⟩,
        hfold⟩
  have hfree : (∀ s ∈ st.live, s.ParentPartition = obj.ParentPartition →
      s.Identity ≠ obj.Identity → caseFold s.Name ≠ caseFold newName) →
      UniquenessGuard.validateRename st obj newName = none := by
    intro h
    have hc : UniquenessGuard.collides
        (UniquenessGuard.siblings st obj.ParentPartition (some obj.Identity)) newName =
        false := by
      rw [Bool.eq_false_iff]
      intro hcol
      obtain ⟨s, hlive, hpartition, hid, hfold⟩ := hiff.mp hcol
      exact h s hlive hpartition hid hfold
    simp [UniquenessGuard.validateRename, hc]
  have htaken : ∀ other ∈ st.live, other.ParentPartition = obj.ParentPartition →
      other.Identity ≠ obj.Identity → caseFold other.Name = caseFold newName →
      UniquenessGuard.validateRename st obj newName =
        some (.DuplicateName (duplicateSpaceNameErrorMessage newName)) := by
    intro other hlive hpartition hid hfold
    have hc := hiff.mpr ⟨other, hlive, hpartition, hid, hfold⟩
    simp [UniquenessGuard.validateRename, hc]
  refine ⟨⟨?_, hfree⟩, ?_, ?_⟩
  · intro hnone s hlive hpartition hid hfold
    rw [htaken s hlive hpartition hid hfold] at hnone
    simp at hnone
  · intro h
    unfold UniquenessGuard.admitRename
    rw [hfree h]
  · intro other hlive hpartition hid hfold
    simp [UniquenessGuard.admitRename, htaken other hlive hpartition hid hfold]


/-- Claim C14: on an authenticated endpoint, when the header parser fails
with the invalid-auth error the middleware answers 401 with the single error
`CF-InvalidAuthToken` / `Invalid Auth Token` / 1000 and calls neither the
identity provider nor the next handler; when the identity provider fails with
the invalid-auth error it gives the same answer and does not call the next
handler. -/
theorem Middleware_rejects_invalid_auth (a : AuthenticationMiddleware)
    (next : Request → HTTPResponse) (r : Request)
    (hauth : a.IsUnauthenticatedEndpoint r.Path = false) :
    (∀ cause, a.Parse r.Authorization = .error (NewInvalidAuthError cause) →
      (a.Middleware next r).1 =
        { Status := 401
          Body := .errors [{ Title := "CF-InvalidAuthToken", Detail := "Invalid Auth Token",
                             Code := 1000 }] } ∧
      (∀ q, MiddlewareCall.Next q ∉ (a.Middleware next r).2) ∧
      (∀ info, MiddlewareCall.GetIdentity info ∉ (a.Middleware next r).2)) ∧
    (∀ info cause, a.Parse r.Authorization = .ok info →
      a.GetIdentity info = .error (NewInvalidAuthError cause) →
      (a.Middleware next r).1 =
        { Status := 401
          Body := .errors [{ Title := "CF-InvalidAuthToken", Detail := "Invalid Auth Token",
                             Code := 1000 }] } ∧
      (∀ q, MiddlewareCall.Next q ∉ (a.Middleware next r).2)) := by
  refine ⟨?_, ?_⟩
  · intro cause hparse
    simp [AuthenticationMiddleware.Middleware, hauth, hparse, presentError, NewInvalidAuthError]
  · intro info cause hparse hidentity
    simp [AuthenticationMiddleware.Middleware, hauth, hparse, hidentity, presentError,
      NewInvalidAuthError]

/-- Claim C15: on an authenticated endpoint whose header parses and whose
identity resolves, the middleware calls the parser once, with the raw header
value, the identity provider once, with the parsed credential, hands the next
handler the request whose context holds that credential (`InfoFromContext`
yields it with `ok = true`), and answers with the next handler's response. -/
theorem Middleware_passes_credential_through (a : AuthenticationMiddleware)
    (next : Request → HTTPResponse) (r : Request) (info : Info) (identity : Identity)
    (hauth : a.IsUnauthenticatedEndpoint r.Path = false)
    (hparse : a.Parse r.Authorization = .ok info)
    (hidentity : a.GetIdentity info = .ok identity) :
    (a.Middleware next r).2 =
      [.IsUnauthenticatedEndpoint r.Path, .Parse r.Authorization, .GetIdentity info,
        .Next { r with Context := some info }] ∧
    (∀ header, ((a.Middleware next r).2.count (.Parse header) =
      if header = r.Authorization then 1 else 0)) ∧
    (∀ i, ((a.Middleware next r).2.count (.GetIdentity i) = if i = info then 1 else 0)) ∧
    (∀ q, MiddlewareCall.Next q ∈ (a.Middleware next r).2 →
      InfoFromContext q.Context = (info, true)) ∧
    (a.Middleware next r).1 = next { r with Context := some info } := by
  have htrace : (a.Middleware next r).2 =
      [.IsUnauthenticatedEndpoint r.Path, .Parse r.Authorization, .GetIdentity info,
        .Next { r with Context := some info }] := by
    simp [AuthenticationMiddleware.Middleware, hauth, hparse, hidentity]
  refine ⟨htrace, ?_, ?_, ?_, ?_⟩
  · intro header
    rw [htrace]
    by_cases h : header = r.Authorization
    · simp [List.count_cons, h]
    · have h' : ¬ r.Authorization = header := fun e => h e.symm
      simp [List.count_cons, h, h']
  · intro i
    rw [htrace]
    by_cases h : i = info
    · simp [List.count_cons, h]
    · have h' : ¬ info = i := fun e => h e.symm
      simp [List.count_cons, h, h']
  · intro q hq
    rw [htrace] at hq
    simp at hq
    subst hq
    rfl
  · simp [AuthenticationMiddleware.Middleware, hauth, hparse, hidentity]

/-- Claim C16: for a path the registry reports as needing no authentication,
the middleware calls neither the header parser nor the identity provider and
answers with the response of the next handler on the unchanged request. -/
theorem Middleware_skips_unauthenticated_endpoints (a : AuthenticationMiddleware)
    (next : Request → HTTPResponse) (r : Request)
    (hopen : a.IsUnauthenticatedEndpoint r.Path = true) :
    (a.Middleware next r).1 = next r ∧
    (a.Middleware next r).2 = [.IsUnauthenticatedEndpoint r.Path, .Next r] ∧
    (∀ header, MiddlewareCall.Parse header ∉ (a.Middleware next r).2) ∧
    (∀ info, MiddlewareCall.GetIdentity info ∉ (a.Middleware next r).2) := by
  simp [AuthenticationMiddleware.Middleware, hopen]

/-- Claim C17: when the header parser fails with an error that is not a
recognised API error, the middleware answers 500 with the single generic error
`UnknownError` / `An unknown error occurred.` / 10001; the response is the
same whatever the underlying error, request or next handler, and neither the
identity provider nor the next handler is called. -/
theorem Middleware_hides_unknown_failure (a : AuthenticationMiddleware)
    (next : Request → HTTPResponse) (r : Request) (err : GoError)
    (hauth : a.IsUnauthenticatedEndpoint r.Path = false)
    (hparse : a.Parse r.Authorization = .error (.other err)) :
    (a.Middleware next r).1 =
      { Status := 500
        Body := .errors [{ Title := "UnknownError", Detail := "An unknown error occurred.",
                           Code := 10001 }] } ∧
    (∀ (a' : AuthenticationMiddleware) (next' : Request → HTTPResponse) (r' : Request)
        (err' : GoError),
      a'.IsUnauthenticatedEndpoint r'.Path = false →
      a'.Parse r'.Authorization = .error (.other err') →
      (a'.Middleware next' r').1 = (a.Middleware next r).1) ∧
    (∀ q, MiddlewareCall.Next q ∉ (a.Middleware next r).2) ∧
    (∀ info, MiddlewareCall.GetIdentity info ∉ (a.Middleware next r).2) := by
  refine ⟨?_, ?_, ?_, ?_⟩
  · simp [AuthenticationMiddleware.Middleware, hauth, hparse, presentError]
  · intro a' next' r' err' hauth' hparse'
    simp [AuthenticationMiddleware.Middleware, hauth, hparse, hauth', hparse', presentError]
  · simp [AuthenticationMiddleware.Middleware, hauth, hparse]
  · simp [AuthenticationMiddleware.Middleware, hauth, hparse]

/-- Claim C20: the record of the CFApp built from a create message has the
message's name, space, state, lifecycle, labels and annotations, its GUID is
the generated object name (non-empty as the generated identifier is), its
droplet GUID is empty and it is not staged. -/
theorem created_app_reported_as_requested (d : Deps) (m : CreateAppMessage) (guid : String) :
    (cfAppToAppRecord d (m.toCFApp guid)).Name = m.Name ∧
    (cfAppToAppRecord d (m.toCFApp guid)).SpaceGUID = m.SpaceGUID ∧
    (cfAppToAppRecord d (m.toCFApp guid)).State = m.State ∧
    (cfAppToAppRecord d (m.toCFApp guid)).Lifecycle = m.Lifecycle ∧
    (cfAppToAppRecord d (m.toCFApp guid)).Labels = m.Labels ∧
    (cfAppToAppRecord d (m.toCFApp guid)).Annotations = m.Annotations ∧
    (cfAppToAppRecord d (m.toCFApp guid)).GUID = (m.toCFApp guid).Name ∧
    (cfAppToAppRecord d (m.toCFApp guid)).GUID = guid ∧
    (guid ≠ "" → (cfAppToAppRecord d (m.toCFApp guid)).GUID ≠ "") ∧
    (cfAppToAppRecord d (m.toCFApp guid)).DropletGUID = "" ∧
    (cfAppToAppRecord d (m.toCFApp guid)).IsStaged = false :=
  ⟨rfl, rfl, rfl, rfl, rfl, rfl, rfl, rfl, fun h => h, rfl, rfl⟩


theorem IdentityCache.find_store_same (cache : List IdentityCacheEntry)
    (entry : IdentityCacheEntry) :
    IdentityCache.find (IdentityCache.store cache entry) entry.Credential = some entry := by
  simp [IdentityCache.find, IdentityCache.store]

theorem IdentityCache.find_filter_other (cache : List IdentityCacheEntry)
    (other credential : Info) (hne : other ≠ credential) :
    List.find? (fun e => decide (e.Credential = credential))
        (cache.filter fun e => decide (e.Credential ≠ other)) =
      List.find? (fun e => decide (e.Credential = credential)) cache := by
  induction cache with
  | nil => rfl
  | cons e rest ih =>
    by_cases h1 : e.Credential = other
    · have h2 : ¬ e.Credential = credential := fun h => hne (h1.symm.trans h)
      rw [List.filter_cons_of_neg (by simpa using h1),
        List.find?_cons_of_neg _ (by simpa using h2)]
      exact ih
    · rw [List.filter_cons_of_pos (by simpa using h1)]
      by_cases h2 : e.Credential = credential
      · rw [List.find?_cons_of_pos _ (by simpa using h2),
          List.find?_cons_of_pos _ (by simpa using h2)]
      · rw [List.find?_cons_of_neg _ (by simpa using h2),
          List.find?_cons_of_neg _ (by simpa using h2)]
        exact ih

theorem IdentityCache.find_store_other (cache : List IdentityCacheEntry)
    (entry : IdentityCacheEntry) (credential : Info) (hne : entry.Credential ≠ credential) :
    IdentityCache.find (IdentityCache.store cache entry) credential =
      IdentityCache.find cache credential := by
  unfold IdentityCache.find IdentityCache.store
  rw [List.find?_cons_of_neg _ (by simpa using hne)]
  exact IdentityCache.find_filter_other cache entry.Credential credential hne

theorem CachingIdentityProvider.GetIdentity_hit (ttl : Int)
    (resolver : Info → Except AuthError Identity) (now : Int)
    (cache : List IdentityCacheEntry) (credential : Info) (entry : IdentityCacheEntry)
    (hfind : IdentityCache.find cache credential = some entry)
    (hfresh : now ≤ entry.ExpiresAt) :
    CachingIdentityProvider.GetIdentity ttl resolver now cache credential =
      { result := .ok entry.Identity, cache := cache, invoked := [] } := by
  simp [CachingIdentityProvider.GetIdentity, hfind, hfresh]

theorem CachingIdentityProvider.GetIdentity_miss (ttl : Int)
    (resolver : Info → Except AuthError Identity) (now : Int)
    (cache : List IdentityCacheEntry) (credential : Info)
    (hmiss : ∀ entry, IdentityCache.find cache credential = some entry →
      entry.ExpiresAt < now) :
    CachingIdentityProvider.GetIdentity ttl resolver now cache credential =
      match resolver credential with
      | .ok identity =>
        { result := .ok identity
          cache := IdentityCache.store cache
            { Credential := credential, Identity := identity, ExpiresAt := now + ttl }
          invoked := [credential] }
      | .error err => { result := .error err, cache := cache, invoked := [credential] } := by
  unfold CachingIdentityProvider.GetIdentity
  cases hfind : IdentityCache.find cache credential with
  | none => rfl
  | some entry =>
    have hexpired : ¬ now ≤ entry.ExpiresAt := not_le.mpr (hmiss entry hfind)
    cases resolver credential <;> simp [hexpired]

theorem CachingIdentityProvider.GetIdentity_other (ttl : Int)
    (resolver : Info → Except AuthError Identity) (now : Int)
    (cache : List IdentityCacheEntry) (other credential : Info) (hne : other ≠ credential) :
    IdentityCache.find
        (CachingIdentityProvider.GetIdentity ttl resolver now cache other).cache credential =
      IdentityCache.find cache credential ∧
    credential ∉ (CachingIdentityProvider.GetIdentity ttl resolver now cache other).invoked := by
  have hne' : ¬ credential = other := fun h => hne h.symm
  unfold CachingIdentityProvider.GetIdentity
  cases IdentityCache.find cache other with
  | none =>
    simp only []
    cases resolver other with
    | ok identity =>
      exact ⟨IdentityCache.find_store_other cache _ credential hne, by simp [hne']⟩
    | error err => exact ⟨rfl, by simp [hne']⟩
  | some entry =>
    simp only []
    split
    · exact ⟨rfl, by simp⟩
    · cases resolver other with
      | ok identity =>
        exact ⟨IdentityCache.find_store_other cache _ credential hne, by simp [hne']⟩
      | error err => exact ⟨rfl, by simp [hne']⟩

theorem CachingIdentityProvider.resolveAll_cached (ttl : Int)
    (resolver : Info → Except AuthError Identity) (credential : Info)
    (entry : IdentityCacheEntry) (requests : List (Int × Info)) :
    ∀ cache : List IdentityCacheEntry,
      IdentityCache.find cache credential = some entry →
      (∀ q ∈ requests, q.2 = credential → q.1 ≤ entry.ExpiresAt) →
      credential ∉ (CachingIdentityProvider.resolveAll ttl resolver requests cache).2.2 ∧
      (∀ p ∈ List.zip requests
          (CachingIdentityProvider.resolveAll ttl resolver requests cache).1,
        p.1.2 = credential → p.2 = .ok entry.Identity) ∧
      IdentityCache.find
        (CachingIdentityProvider.resolveAll ttl resolver requests cache).2.1 credential =
        some entry := by
  induction requests with
  | nil => intro cache hfind _; simp [CachingIdentityProvider.resolveAll, hfind]
  | cons q rest ih =>
    intro cache hfind hwithin
    obtain ⟨now, other⟩ := q
    have hrest : ∀ q ∈ rest, q.2 = credential → q.1 ≤ entry.ExpiresAt :=
      fun q hq => hwithin q (List.mem_cons_of_mem _ hq)
    by_cases hsame : other = credential
    · subst hsame
      have hhit := CachingIdentityProvider.GetIdentity_hit ttl resolver now cache other entry
        hfind (hwithin (now, other) (List.mem_cons_self _ _) rfl)
      obtain ⟨h1, h2, h3⟩ := ih cache hfind hrest
      simp only [CachingIdentityProvider.resolveAll, hhit, List.nil_append, List.zip_cons_cons,
        List.mem_cons]
      refine ⟨h1, ?_, h3⟩
      rintro p (rfl | hp) hp2
      · rfl
      · exact h2 p hp hp2
    · obtain ⟨hkeep, hnot⟩ :=
        CachingIdentityProvider.GetIdentity_other ttl resolver now cache other credential hsame
      obtain ⟨h1, h2, h3⟩ := ih _ (hkeep.trans hfind) hrest
      simp only [CachingIdentityProvider.resolveAll, List.zip_cons_cons, List.mem_cons,
        List.mem_append]
      refine ⟨fun h => h.elim hnot h1, ?_, h3⟩
      rintro p (rfl | hp) hp2
      · exact absurd hp2 hsame
      · exact h2 p hp hp2

theorem CachingIdentityProvider.resolveAll_append (ttl : Int)
    (resolver : Info → Except AuthError Identity) (requests later : List (Int × Info)) :
    ∀ cache : List IdentityCacheEntry,
      CachingIdentityProvider.resolveAll ttl resolver (requests ++ later) cache =
        ((CachingIdentityProvider.resolveAll ttl resolver requests cache).1 ++
          (CachingIdentityProvider.resolveAll ttl resolver later
            (CachingIdentityProvider.resolveAll ttl resolver requests cache).2.1).1,
          (CachingIdentityProvider.resolveAll ttl resolver later
            (CachingIdentityProvider.resolveAll ttl resolver requests cache).2.1).2.1,
          (CachingIdentityProvider.resolveAll ttl resolver requests cache).2.2 ++
            (CachingIdentityProvider.resolveAll ttl resolver later
              (CachingIdentityProvider.resolveAll ttl resolver requests cache).2.1).2.2) := by
  induction requests with
  | nil => intro cache; simp [CachingIdentityProvider.resolveAll]
  | cons q rest ih =>
    intro cache
    obtain ⟨now, credential⟩ := q
    simp only [List.cons_append, CachingIdentityProvider.resolveAll, List.append_eq]
    rw [ih]
    simp

/-- Claim C18: for a credential the wrapped provider accepts and that has no
unexpired entry at `now`, a resolution at `now` followed by any resolutions in
which that credential is only resolved up to `now + ttl` hands the credential
to the wrapped provider once and answers every resolution of it with the same
identity; the entry stored by the resolution at `now` expires at `now + ttl`,
and one more resolution of the credential at any instant after `now + ttl`
hands it to the wrapped provider a second time; a resolution of a credential
whose entry is past its expiry invokes the wrapped provider; an answer given
without invoking the wrapped provider comes from an entry that is not past its
expiry; and a resolver error is returned unchanged and leaves the cache as it
was. -/
theorem CachingIdentityProvider_memoizes (ttl : Int)
    (resolver : Info → Except AuthError Identity) (cache : List IdentityCacheEntry)
    (credential : Info) (now : Int) :
    (∀ identity requests, resolver credential = .ok identity →
      (∀ entry, IdentityCache.find cache credential = some entry → entry.ExpiresAt < now) →
      (∀ q ∈ requests, q.2 = credential → q.1 ≤ now + ttl) →
      (CachingIdentityProvider.resolveAll ttl resolver ((now, credential) :: requests)
        cache).2.2.count credential = 1 ∧
      ∀ p ∈ List.zip ((now, credential) :: requests)
          (CachingIdentityProvider.resolveAll ttl resolver ((now, credential) :: requests)
            cache).1,
        p.1.2 = credential → p.2 = .ok identity) ∧
    (∀ identity requests later, resolver credential = .ok identity →
      (∀ entry, IdentityCache.find cache credential = some entry → entry.ExpiresAt < now) →
      (∀ q ∈ requests, q.2 = credential → q.1 ≤ now + ttl) →
      now + ttl < later →
      IdentityCache.find
          (CachingIdentityProvider.GetIdentity ttl resolver now cache credential).cache
          credential =
        some { Credential := credential, Identity := identity, ExpiresAt := now + ttl } ∧
      (CachingIdentityProvider.resolveAll ttl resolver
        ((now, credential) :: (requests ++ [(later, credential)]))
        cache).2.2.count credential = 2) ∧
    (∀ entry, IdentityCache.find cache credential = some entry → entry.ExpiresAt < now →
      (CachingIdentityProvider.GetIdentity ttl resolver now cache credential).invoked =
        [credential]) ∧
    ((CachingIdentityProvider.GetIdentity ttl resolver now cache credential).invoked = [] →
      ∃ entry, IdentityCache.find cache credential = some entry ∧ now ≤ entry.ExpiresAt ∧
        (CachingIdentityProvider.GetIdentity ttl resolver now cache credential).result =
          .ok entry.Identity) ∧
    (∀ err, resolver credential = .error err →
      (CachingIdentityProvider.GetIdentity ttl resolver now cache credential).cache = cache ∧
      ((CachingIdentityProvider.GetIdentity ttl resolver now cache credential).invoked =
          [credential] →
        (CachingIdentityProvider.GetIdentity ttl resolver now cache credential).result =
          .error err)) := by
  refine ⟨?_, ?_, ?_, ?_, ?_⟩
  · intro identity requests hvalid hmiss hwithin
    have hfirst := CachingIdentityProvider.GetIdentity_miss ttl resolver now cache credential
      hmiss
    rw [hvalid] at hfirst
    simp only [] at hfirst
    obtain ⟨h1, h2, _⟩ := CachingIdentityProvider.resolveAll_cached ttl resolver credential
      { Credential := credential, Identity := identity, ExpiresAt := now + ttl } requests
      (IdentityCache.store cache
        { Credential := credential, Identity := identity, ExpiresAt := now + ttl })
      (IdentityCache.find_store_same cache _) hwithin
    simp only [CachingIdentityProvider.resolveAll, hfirst, List.zip_cons_cons, List.mem_cons]
    refine ⟨?_, ?_⟩
    · simp [List.count_cons, List.count_eq_zero_of_not_mem h1]
    · rintro p (rfl | hp) hp2
      · rfl
      · exact h2 p hp hp2
  · intro identity requests later hvalid hmiss hwithin hlater
    have hfirst := CachingIdentityProvider.GetIdentity_miss ttl resolver now cache credential
      hmiss
    rw [hvalid] at hfirst
    simp only [] at hfirst
    obtain ⟨h1, _, h3⟩ := CachingIdentityProvider.resolveAll_cached ttl resolver credential
      { Credential := credential, Identity := identity, ExpiresAt := now + ttl } requests
      (IdentityCache.store cache
        { Credential := credential, Identity := identity, ExpiresAt := now + ttl })
      (IdentityCache.find_store_same cache _) hwithin
    have hexpired : ∀ e, IdentityCache.find
        (CachingIdentityProvider.resolveAll ttl resolver requests
          (IdentityCache.store cache
            { Credential := credential, Identity := identity,
              ExpiresAt := now + ttl })).2.1 credential = some e → e.ExpiresAt < later := by
      intro e he
      rw [h3] at he
      cases he
      exact hlater
    have hlast := CachingIdentityProvider.GetIdentity_miss ttl resolver later _ credential
      hexpired
    rw [hvalid] at hlast
    simp only [] at hlast
    refine ⟨?_, ?_⟩
    · rw [hfirst]
      exact IdentityCache.find_store_same cache _
    · simp only [CachingIdentityProvider.resolveAll, hfirst,
        CachingIdentityProvider.resolveAll_append, hlast, List.append_nil]
      simp [List.count_cons, List.count_append, List.count_eq_zero_of_not_mem h1]
  · intro entry hfind hexpired
    have hmiss : ∀ e, IdentityCache.find cache credential = some e → e.ExpiresAt < now := by
      intro e he
      rw [hfind] at he
      cases he
      exact hexpired
    rw [CachingIdentityProvider.GetIdentity_miss ttl resolver now cache credential hmiss]
    cases resolver credential <;> rfl
  · intro hquiet
    unfold CachingIdentityProvider.GetIdentity at hquiet ⊢
    cases hfind : IdentityCache.find cache credential with
    | none =>
      rw [hfind] at hquiet
      simp only [] at hquiet
      cases hres : resolver credential <;> rw [hres] at hquiet <;> simp at hquiet
    | some entry =>
      rw [hfind] at hquiet
      simp only [] at hquiet ⊢
      by_cases hfresh : now ≤ entry.ExpiresAt
      · exact ⟨entry, rfl, hfresh, by simp [hfresh]⟩
      · simp only [hfresh, if_false] at hquiet
        cases hres : resolver credential <;> rw [hres] at hquiet <;> simp at hquiet
  · intro err hfail
    unfold CachingIdentityProvider.GetIdentity
    cases IdentityCache.find cache credential with
    | none => simp [hfail]
    | some entry =>
      simp only []
      by_cases hfresh : now ≤ entry.ExpiresAt
      · simp [hfresh]
      · simp [hfresh, hfail]


theorem GoMap.mem_set {β : Type} (m : GoMap β) (k0 : String) (v0 : β) (k : String) (v : β)
    (h : (k, v) ∈ GoMap.set m k0 v0) : (k, v) ∈ m ∨ (k = k0 ∧ v = v0) := by
  induction m with
  | nil =>
    simp only [GoMap.set, List.mem_singleton, Prod.mk.injEq] at h
    exact Or.inr h
  | cons e rest ih =>
    obtain ⟨k', v'⟩ := e
    by_cases hk : k' = k0
    · simp only [GoMap.set, hk, if_true, List.mem_cons, Prod.mk.injEq] at h
      rcases h with h | h
      · exact Or.inr h
      · exact Or.inl (List.mem_cons_of_mem _ h)
    · simp only [GoMap.set, hk, if_false, List.mem_cons, Prod.mk.injEq] at h
      rcases h with h | h
      · exact Or.inl (by simp [h.1, h.2])
      · rcases ih h with h' | h'
        · exact Or.inl (List.mem_cons_of_mem _ h')
        · exact Or.inr h'

theorem GoMap.set_mem_self {β : Type} (m : GoMap β) (k0 : String) (v0 : β) :
    (k0, v0) ∈ GoMap.set m k0 v0 := by
  induction m with
  | nil => simp [GoMap.set]
  | cons e rest ih =>
    obtain ⟨k', v'⟩ := e
    by_cases hk : k' = k0
    · simp [GoMap.set, hk]
    · simp only [GoMap.set, hk, if_false]
      exact List.mem_cons_of_mem _ ih

theorem GoMap.set_true_keeps (m : GoMap Bool) (k0 k : String) (h : (k, true) ∈ m) :
    (k, true) ∈ GoMap.set m k0 true := by
  induction m with
  | nil => simp at h
  | cons e rest ih =>
    obtain ⟨k', v'⟩ := e
    by_cases hk : k' = k0
    · simp only [GoMap.set, hk, if_true]
      rcases List.mem_cons.mp h with h | h
      · simp only [Prod.mk.injEq] at h
        rw [← hk, ← h.1]
        exact List.mem_cons_self _ _
      · exact List.mem_cons_of_mem _ h
    · simp only [GoMap.set, hk, if_false]
      rcases List.mem_cons.mp h with h | h
      · rw [h]; exact List.mem_cons_self _ _
      · exact List.mem_cons_of_mem _ (ih h)

theorem GoMap.index_set_self (m : GoMap Bool) (k0 : String) :
    GoMap.index false (GoMap.set m k0 true) k0 = true := by
  induction m with
  | nil => simp [GoMap.set, GoMap.index]
  | cons e rest ih =>
    obtain ⟨k', v'⟩ := e
    by_cases hk : k' = k0
    · simp [GoMap.set, GoMap.index, hk]
    · simp [GoMap.set, GoMap.index, hk, ih]

theorem GoMap.index_set_keeps (m : GoMap Bool) (k0 k : String)
    (h : GoMap.index false m k = true) :
    GoMap.index false (GoMap.set m k0 true) k = true := by
  induction m with
  | nil => simp [GoMap.index] at h
  | cons e rest ih =>
    obtain ⟨k', v'⟩ := e
    by_cases hk : k' = k0
    · by_cases hk2 : k' = k
      · simp [GoMap.set, GoMap.index, hk, hk2.symm.trans hk]
      · have hk3 : ¬ k0 = k := fun e => hk2 (hk.trans e)
        simp only [GoMap.index, hk2, if_false] at h
        simp [GoMap.set, GoMap.index, hk, hk3, h]
    · by_cases hk2 : k' = k
      · subst hk2
        simp only [GoMap.index, if_true] at h
        simp [GoMap.set, GoMap.index, hk, h]
      · simp only [GoMap.index, hk2, if_false] at h
        simp [GoMap.set, GoMap.index, hk, hk2, ih h]

theorem probePartitions_ok (probe : String → Option GoError) (partitions : List String) :
    ∀ (authorized result : GoMap Bool),
      probePartitions probe partitions authorized = .ok result →
      (∀ k v, (k, v) ∈ result →
        (k, v) ∈ authorized ∨ (v = true ∧ k ∈ partitions ∧ probe k = none)) ∧
      (∀ k ∈ partitions, probe k = none →
        (k, true) ∈ result ∧ GoMap.index false result k = true) ∧
      (∀ k, (k, true) ∈ authorized → (k, true) ∈ result) ∧
      (∀ k, GoMap.index false authorized k = true → GoMap.index false result k = true) := by
  induction partitions with
  | nil =>
    intro authorized result h
    simp only [probePartitions, Except.ok.injEq] at h
    subst h
    exact ⟨fun k v hkv => Or.inl hkv, by simp, fun k hk => hk, fun k hk => hk⟩
  | cons p rest ih =>
    intro authorized result h
    unfold probePartitions at h
    cases hp : probe p with
    | none =>
      rw [hp] at h
      simp only [] at h
      obtain ⟨h1, h2, h3, h4⟩ := ih _ _ h
      refine ⟨?_, ?_, ?_, ?_⟩
      · intro k v hkv
        rcases h1 k v hkv with hm | ⟨hv, hk, hpk⟩
        · rcases GoMap.mem_set authorized p true k v hm with hm' | ⟨rfl, rfl⟩
          · exact Or.inl hm'
          · exact Or.inr ⟨rfl, List.mem_cons_self _ _, hp⟩
        · exact Or.inr ⟨hv, List.mem_cons_of_mem _ hk, hpk⟩
      · intro k hk hpk
        rcases List.mem_cons.mp hk with rfl | hk
        · exact ⟨h3 k (GoMap.set_mem_self authorized k true),
            h4 k (GoMap.index_set_self authorized k)⟩
        · exact h2 k hk hpk
      · intro k hk
        exact h3 k (GoMap.set_true_keeps authorized p k hk)
      · intro k hk
        exact h4 k (GoMap.index_set_keeps authorized p k hk)
    | some err =>
      rw [hp] at h
      simp only [] at h
      by_cases hf : IsForbidden err = true
      · simp only [hf, if_true] at h
        obtain ⟨h1, h2, h3, h4⟩ := ih _ _ h
        refine ⟨?_, ?_, h3, h4⟩
        · intro k v hkv
          rcases h1 k v hkv with hm | ⟨hv, hk, hpk⟩
          · exact Or.inl hm
          · exact Or.inr ⟨hv, List.mem_cons_of_mem _ hk, hpk⟩
        · intro k hk hpk
          rcases List.mem_cons.mp hk with rfl | hk
          · rw [hp] at hpk; simp at hpk
          · exact h2 k hk hpk
      · simp [hf] at h

theorem probePartitions_total (probe : String → Option GoError) (partitions : List String)
    (hforbidden : ∀ k ∈ partitions, ∀ err, probe k = some err → IsForbidden err = true) :
    ∀ authorized, ∃ result, probePartitions probe partitions authorized = .ok result := by
  induction partitions with
  | nil => intro authorized; exact ⟨authorized, rfl⟩
  | cons p rest ih =>
    intro authorized
    have hrest : ∀ k ∈ rest, ∀ err, probe k = some err → IsForbidden err = true :=
      fun k hk => hforbidden k (List.mem_cons_of_mem _ hk)
    unfold probePartitions
    cases hp : probe p with
    | none => exact ih hrest _
    | some err =>
      simp only [hforbidden p (List.mem_cons_self _ _) err hp, if_true]
      exact ih hrest _

theorem probePartitions_aborts (probe : String → Option GoError) (partitions : List String)
    (k : String) (err : GoError) (hk : k ∈ partitions) (hprobe : probe k = some err)
    (hother : IsForbidden err = false) :
    ∀ authorized, ∃ k' ∈ partitions, ∃ err', probe k' = some err' ∧
      IsForbidden err' = false ∧ probePartitions probe partitions authorized = .error err' := by
  induction partitions with
  | nil => simp at hk
  | cons p rest ih =>
    intro authorized
    unfold probePartitions
    cases hp : probe p with
    | none =>
      have hrest : k ∈ rest := by
        rcases List.mem_cons.mp hk with rfl | h
        · rw [hp] at hprobe; simp at hprobe
        · exact h
      obtain ⟨k', hk', err', h1, h2, h3⟩ := ih hrest (GoMap.set authorized p true)
      exact ⟨k', List.mem_cons_of_mem _ hk', err', h1, h2, h3⟩
    | some e =>
      by_cases hf : IsForbidden e = true
      · have hrest : k ∈ rest := by
          rcases List.mem_cons.mp hk with rfl | h
          · rw [hp] at hprobe
            cases hprobe
            rw [hf] at hother
            simp at hother
          · exact h
        obtain ⟨k', hk', err', h1, h2, h3⟩ := ih hrest authorized
        refine ⟨k', List.mem_cons_of_mem _ hk', err', h1, h2, ?_⟩
        simp only [hf, if_true]
        exact h3
      · refine ⟨p, List.mem_cons_self _ _, e, hp, by simpa using hf, ?_⟩
        simp [hf]

/-- Claim C19: when `AuthorizedPartitions` succeeds, every entry of the result
has value true and is a candidate whose probe succeeded, every candidate whose
probe succeeded is present with value true, and a candidate whose probe
returned an error is not a key of the result; the call succeeds when every
probe error is Forbidden, and a probe error other than Forbidden aborts the
call with such a probe error. -/
theorem AuthorizedPartitions_exact (candidates : Scope → Except GoError (List String))
    (probe : Identity → Scope → String → Option GoError)
    (identity : Identity) (scope : Scope) (partitions : List String)
    (hcandidates : candidates scope = .ok partitions) :
    (∀ authorized, AuthorizedPartitions candidates probe identity scope = .ok authorized →
      (∀ k v, (k, v) ∈ authorized →
        v = true ∧ k ∈ partitions ∧ probe identity scope k = none) ∧
      (∀ k ∈ partitions, probe identity scope k = none →
        (k, true) ∈ authorized ∧ GoMap.index false authorized k = true) ∧
      (∀ k ∈ partitions, ∀ err, probe identity scope k = some err →
        k ∉ GoMap.keys authorized)) ∧
    ((∀ k ∈ partitions, ∀ err, probe identity scope k = some err → IsForbidden err = true) →
      ∃ authorized, AuthorizedPartitions candidates probe identity scope = .ok authorized) ∧
    (∀ k ∈ partitions, ∀ err, probe identity scope k = some err → IsForbidden err = false →
      ∃ k' ∈ partitions, ∃ err', probe identity scope k' = some err' ∧
        IsForbidden err' = false ∧
        AuthorizedPartitions candidates probe identity scope = .error err') := by
  have hrun : AuthorizedPartitions candidates probe identity scope =
      probePartitions (probe identity scope) partitions [] := by
    simp [AuthorizedPartitions, hcandidates]
  rw [hrun]
  refine ⟨?_, ?_, ?_⟩
  · intro authorized hok
    obtain ⟨h1, h2, _, _⟩ := probePartitions_ok (probe identity scope) partitions [] authorized hok
    have hmem : ∀ k v, (k, v) ∈ authorized →
        v = true ∧ k ∈ partitions ∧ probe identity scope k = none := by
      intro k v hkv
      rcases h1 k v hkv with h | h
      · simp at h
      · exact h
    refine ⟨hmem, h2, ?_⟩
    intro k _ err hprobe hkey
    simp only [GoMap.keys, List.mem_map] at hkey
    obtain ⟨⟨k', v⟩, hkv, rfl⟩ := hkey
    have := (hmem k' v hkv).2.2
    rw [hprobe] at this
    simp at this
  · intro hforbidden
    exact probePartitions_total (probe identity scope) partitions hforbidden []
  · intro k hk err hprobe hother
    exact probePartitions_aborts (probe identity scope) partitions k err hk hprobe hother []

/-- Claim C11 at a concrete run. -/
theorem UniquenessGuard_rejects_case_variant_witness :
    "org-1" ∈ sampleAdmission.liveParents ∧
    caseFold "my-space" = caseFold "My-Space" ∧
    UniquenessGuard.admitCreate sampleAdmission
      { Identity := "space-2", ParentPartition := "org-1", Name := "My-Space" } =
      .error (.DuplicateName
        "Space 'My-Space' already exists. Name must be unique per organization.") :=
  ⟨by decide, by decide,
    (UniquenessGuard_rejects_case_variant sampleAdmission "org-1" "my-space" "My-Space"
      "space-1" "space-2" (by decide) (by decide)).1
      { Identity := "space-1", ParentPartition := "org-1", Name := "my-space" }
      (by decide) rfl rfl⟩

/-- Claim C12 at a concrete run. -/
theorem UniquenessGuard_rejects_orphaned_reference_witness :
    "not-an-org" ∉ sampleAdmission.liveParents ∧
    UniquenessGuard.admitCreate sampleAdmission
      { Identity := "space-2", ParentPartition := "not-an-org", Name := "my-space" } =
      .error (.OrphanedReference
        "Organization 'not-an-org' does not exist for Space 'my-space'") :=
  ⟨by decide,
    (UniquenessGuard_rejects_orphaned_reference sampleAdmission
      { Identity := "space-2", ParentPartition := "not-an-org", Name := "my-space" }).1
      (by decide)⟩

/-- Claim C13 at a concrete run. -/
theorem UniquenessGuard_rename_excludes_self_witness :
    ({ Identity := "space-2", ParentPartition := "org-1", Name := "another-space" } :
      GuardedObject) ∈ crowdedAdmission.live ∧
    caseFold "another-space" = caseFold "Another-Space" ∧
    UniquenessGuard.admitRename crowdedAdmission
      { Identity := "space-1", ParentPartition := "org-1", Name := "my-space" }
      "Another-Space" =
      .error (.DuplicateName
        "Space 'Another-Space' already exists. Name must be unique per organization.") :=
  ⟨by decide, by decide,
    (UniquenessGuard_rename_excludes_self crowdedAdmission
      { Identity := "space-1", ParentPartition := "org-1", Name := "my-space" }
      "Another-Space").2.2
      { Identity := "space-2", ParentPartition := "org-1", Name := "another-space" }
      (by decide) rfl (by decide) (by decide)⟩

/-- Claim C14 at a concrete run. -/
theorem Middleware_rejects_invalid_auth_witness :
    ({ sampleMiddleware with Parse := fun _ => .error (NewInvalidAuthError none) } :
      AuthenticationMiddleware).IsUnauthenticatedEndpoint sampleRequest.Path = false ∧
    (({ sampleMiddleware with Parse := fun _ => .error (NewInvalidAuthError none) } :
      AuthenticationMiddleware).Middleware teapotHandler sampleRequest).1.Status = 401 ∧
    (∀ q, MiddlewareCall.Next q ∉
      (({ sampleMiddleware with Parse := fun _ => .error (NewInvalidAuthError none) } :
        AuthenticationMiddleware).Middleware teapotHandler sampleRequest).2) :=
  ⟨rfl,
    congrArg HTTPResponse.Status
      ((Middleware_rejects_invalid_auth
        { sampleMiddleware with Parse := fun _ => .error (NewInvalidAuthError none) }
        teapotHandler sampleRequest rfl).1 none rfl).1,
    ((Middleware_rejects_invalid_auth
      { sampleMiddleware with Parse := fun _ => .error (NewInvalidAuthError none) }
      teapotHandler sampleRequest rfl).1 none rfl).2.1⟩

/-- Claim C15 at a concrete run. -/
theorem Middleware_passes_credential_through_witness :
    sampleMiddleware.IsUnauthenticatedEndpoint sampleRequest.Path = false ∧
    sampleMiddleware.Parse sampleRequest.Authorization = .ok { Token := "the-token" } ∧
    sampleMiddleware.GetIdentity { Token := "the-token" } = .ok {} ∧
    (sampleMiddleware.Middleware teapotHandler sampleRequest).1.Status = 418 ∧
    (sampleMiddleware.Middleware teapotHandler sampleRequest).2 =
      [.IsUnauthenticatedEndpoint "/v3/apps", .Parse "Authorization: something",
        .GetIdentity { Token := "the-token" },
        .Next { sampleRequest with Context := some { Token := "the-token" } }] :=
  ⟨rfl, rfl, rfl,
    congrArg HTTPResponse.Status
      (Middleware_passes_credential_through sampleMiddleware teapotHandler sampleRequest
        { Token := "the-token" } {} rfl rfl rfl).2.2.2.2,
    (Middleware_passes_credential_through sampleMiddleware teapotHandler sampleRequest
      { Token := "the-token" } {} rfl rfl rfl).1⟩

/-- Claim C16 at a concrete run. -/
theorem Middleware_skips_unauthenticated_endpoints_witness :
    ({ sampleMiddleware with IsUnauthenticatedEndpoint := fun _ => true } :
      AuthenticationMiddleware).IsUnauthenticatedEndpoint sampleRequest.Path = true ∧
    (({ sampleMiddleware with IsUnauthenticatedEndpoint := fun _ => true } :
      AuthenticationMiddleware).Middleware teapotHandler sampleRequest).1 =
      teapotHandler sampleRequest ∧
    (∀ header, MiddlewareCall.Parse header ∉
      (({ sampleMiddleware with IsUnauthenticatedEndpoint := fun _ => true } :
        AuthenticationMiddleware).Middleware teapotHandler sampleRequest).2) :=
  ⟨rfl,
    (Middleware_skips_unauthenticated_endpoints
      { sampleMiddleware with IsUnauthenticatedEndpoint := fun _ => true }
      teapotHandler sampleRequest rfl).1,
    (Middleware_skips_unauthenticated_endpoints
      { sampleMiddleware with IsUnauthenticatedEndpoint := fun _ => true }
      teapotHandler sampleRequest rfl).2.2.1⟩

/-- Claim C17 at a concrete run. -/
theorem Middleware_hides_unknown_failure_witness :
    ({ sampleMiddleware with Parse := fun _ => .error (.other (.plain "what happened?")) } :
      AuthenticationMiddleware).IsUnauthenticatedEndpoint sampleRequest.Path = false ∧
    (({ sampleMiddleware with Parse := fun _ => .error (.other (.plain "what happened?")) } :
      AuthenticationMiddleware).Middleware teapotHandler sampleRequest).1 =
      { Status := 500
        Body := .errors [{ Title := "UnknownError", Detail := "An unknown error occurred.",
                           Code := 10001 }] } :=
  ⟨rfl,
    (Middleware_hides_unknown_failure
      { sampleMiddleware with Parse := fun _ => .error (.other (.plain "what happened?")) }
      teapotHandler sampleRequest (.plain "what happened?") rfl rfl).1⟩

/-- Claim C18 at a concrete run. -/
theorem CachingIdentityProvider_memoizes_witness :
    sampleResolver { Token := "the-token" } = .ok { Name := "alice", Kind := "User" } ∧
    (CachingIdentityProvider.resolveAll 300 sampleResolver
      [(0, { Token := "the-token" }), (60, { Token := "the-token" })] []).2.2.count
        { Token := "the-token" } = 1 ∧
    (CachingIdentityProvider.resolveAll 300 sampleResolver
      [(0, { Token := "the-token" }), (60, { Token := "the-token" }),
        (310, { Token := "the-token" })] []).2.2.count { Token := "the-token" } = 2 ∧
    (CachingIdentityProvider.resolveAll 300 sampleResolver
      ((0, { Token := "the-token" }) ::
        ([(300, { Token := "the-token" })] ++ [(301, { Token := "the-token" })]))
      []).2.2.count { Token := "the-token" } = 2 :=
  ⟨rfl,
    ((CachingIdentityProvider_memoizes 300 sampleResolver [] { Token := "the-token" } 0).1
      { Name := "alice", Kind := "User" } [(60, { Token := "the-token" })] rfl
      (by intro entry h; simp [IdentityCache.find] at h) (by decide)).1,
    by decide,
    ((CachingIdentityProvider_memoizes 300 sampleResolver [] { Token := "the-token" } 0).2.1
      { Name := "alice", Kind := "User" } [(300, { Token := "the-token" })] 301 rfl
      (by intro entry h; simp [IdentityCache.find] at h) (by decide) (by decide)).2⟩

/-- Claim C19 at a concrete run. -/
theorem AuthorizedPartitions_exact_witness :
    sampleCandidates Scope.Space = .ok ["space-A", "space-B"] ∧
    AuthorizedPartitions sampleCandidates sampleProbe {} Scope.Space =
      .ok [("space-A", true)] ∧
    (∀ k v, (k, v) ∈ [("space-A", true)] →
      v = true ∧ k ∈ ["space-A", "space-B"] ∧ sampleProbe {} Scope.Space k = none) :=
  ⟨rfl, rfl,
    ((AuthorizedPartitions_exact sampleCandidates sampleProbe {} Scope.Space
      ["space-A", "space-B"] rfl).1 [("space-A", true)] rfl).1⟩

/-- Claim C20 at a concrete run. -/
theorem created_app_reported_as_requested_witness :
    "guid-9" ≠ "" ∧
    (cfAppToAppRecord (sampleDeps offlineClient)
      (CreateAppMessage.toCFApp { Name := "my-app", SpaceGUID := "space-a" } "guid-9")).GUID ≠
      "" :=
  ⟨by decide,
    (created_app_reported_as_requested (sampleDeps offlineClient)
      { Name := "my-app", SpaceGUID := "space-a" } "guid-9").2.2.2.2.2.2.2.2.1 (by decide)⟩

/-! ### Handlers, lookups, filters and env secrets -/

/-- Claim C21: when the org repository answers, `orgListHandler` returns status
200 with the presented org list as body, and carries a header (the
`X-Cf-Warnings` certificate warning, its only header) if and only if the
caller's certificate data decodes as PEM, parses as a certificate, and the time
until its `NotAfter` is not less than the configured duration, that is, if and
only if `isExpirationValid` is false; certificate data without a PEM block or
with an unparseable block yields no header.  Status and body do not depend on
the certificate. -/
theorem orgListHandler_certificate_warning (deps : HandlerDeps) (h : OrgHandler)
    (decodeClock checkClock : Int) (authInfo : Info) (r : OrgListRequest)
    (orgs : List String)
    (hlist : h.ListOrgs authInfo (deps.parseCommaSeparatedList r.names) = .ok orgs) :
    ∃ resp, orgListHandler deps h decodeClock checkClock authInfo r = (some resp, none) ∧
      resp.httpStatus = 200 ∧
      resp.body = some (deps.ForOrgList orgs h.apiBaseURL r.URL) ∧
      (resp.headers ≠ [] ↔
        ∃ certBlock notAfter, deps.pemDecode authInfo.CertData = some certBlock ∧
          deps.ParseCertificate certBlock = .ok notAfter ∧
          ¬ Until checkClock notAfter < h.userCertificateExpirationWarningDuration ∧
          resp.headers = [("X-Cf-Warnings", deps.Sprintf certWarningMsg
            [deps.formatRFC3339 notAfter,
              deps.formatDuration h.userCertificateExpirationWarningDuration])]) ∧
      (resp.headers ≠ [] ↔
        isExpirationValid checkClock (decodePEMNotAfter deps decodeClock authInfo.CertData).1
          h.userCertificateExpirationWarningDuration
          (decodePEMNotAfter deps decodeClock authInfo.CertData).2 = false) ∧
      (deps.pemDecode authInfo.CertData = none → resp.headers = []) ∧
      (∀ certBlock err, deps.pemDecode authInfo.CertData = some certBlock →
        deps.ParseCertificate certBlock = .error err → resp.headers = []) := by
  simp only [orgListHandler, hlist]
  cases hdecode : deps.pemDecode authInfo.CertData with
  | none =>
    simp [decodePEMNotAfter, hdecode, isExpirationValid, NewHandlerResponse,
      HandlerResponse.WithBody]
  | some certBlock =>
    cases hparse : deps.ParseCertificate certBlock with
    | error err =>
      simp [decodePEMNotAfter, hdecode, hparse, isExpirationValid, NewHandlerResponse,
        HandlerResponse.WithBody]
    | ok notAfter =>
      by_cases hvalid : Until checkClock notAfter < h.userCertificateExpirationWarningDuration
      · simp [decodePEMNotAfter, hdecode, hparse, isExpirationValid, hvalid,
          NewHandlerResponse, HandlerResponse.WithBody]
      · have hge : h.userCertificateExpirationWarningDuration ≤ Until checkClock notAfter :=
          not_lt.mp hvalid
        refine ⟨{ httpStatus := 200
                  body := some (deps.ForOrgList orgs h.apiBaseURL r.URL)
                  headers := [("X-Cf-Warnings", deps.Sprintf certWarningMsg
                    [deps.formatRFC3339 notAfter,
                      deps.formatDuration h.userCertificateExpirationWarningDuration])] },
          ?_, rfl, rfl, ?_, ?_, ?_, ?_⟩
        · simp [decodePEMNotAfter, hdecode, hparse, isExpirationValid, hvalid,
            NewHandlerResponse, HandlerResponse.WithBody, HandlerResponse.WithHeader,
            GoMap.set]
        · simp [hparse, hge]
        · simp [decodePEMNotAfter, hdecode, hparse, isExpirationValid, hvalid]
        · simp
        · intro certBlock' err hblock herr
          simp only [Option.some.injEq] at hblock
          subst hblock
          rw [hparse] at herr
          simp at herr

theorem matchingApps_eq_filter (items : List CFApp) (appName : String) :
    matchingApps items appName =
      items.filter fun app => app.Spec.DisplayName = appName := by
  have key : ∀ acc : List CFApp,
      items.foldl (fun matchingApps app =>
        if app.Spec.DisplayName = appName then matchingApps ++ [app] else matchingApps) acc =
      acc ++ items.filter fun app => app.Spec.DisplayName = appName := by
    induction items with
    | nil => intro acc; simp
    | cons a rest ih =>
      intro acc
      by_cases ha : a.Spec.DisplayName = appName
      · simp [List.foldl_cons, ha, ih]
      · simp [List.foldl_cons, ha, ih]
  simpa [matchingApps] using key []

/-- Claim C22: given a successful list of the space's apps,
`GetAppByNameAndSpace` returns the empty record with the not-found error when
no listed app has the display name, the empty record with the
`duplicate instances` error when more than one has it, and the record of the
matching app without error when exactly one has it; it returns without error
exactly when one listed app has the display name. -/
theorem GetAppByNameAndSpace_resolves_unique (d : Deps) (authInfo : Info)
    (appName spaceGUID : String) (userClient : UserClient) (items : List CFApp)
    (hbuild : d.BuildClient authInfo = .ok userClient)
    (hlist : userClient.ListApps spaceGUID = .ok items) :
    ((∀ app ∈ items, app.Spec.DisplayName ≠ appName) →
      (GetAppByNameAndSpace d authInfo appName spaceGUID).value = {} ∧
      (GetAppByNameAndSpace d authInfo appName spaceGUID).err =
        some (d.NewNotFoundError
          (.errorf "app %q in space %q not found" [appName, spaceGUID] none)
          AppResourceType)) ∧
    (1 < items.countP (fun app => app.Spec.DisplayName = appName) →
      (GetAppByNameAndSpace d authInfo appName spaceGUID).value = {} ∧
      (GetAppByNameAndSpace d authInfo appName spaceGUID).err =
        some (.errorf "duplicate instances of app %q in space %q"
          [appName, spaceGUID] none)) ∧
    (∀ app, (items.filter fun a => a.Spec.DisplayName = appName) = [app] →
      (GetAppByNameAndSpace d authInfo appName spaceGUID).value = cfAppToAppRecord d app ∧
      (GetAppByNameAndSpace d authInfo appName spaceGUID).err = none) ∧
    ((GetAppByNameAndSpace d authInfo appName spaceGUID).err = none ↔
      items.countP (fun app => app.Spec.DisplayName = appName) = 1) := by
  simp only [GetAppByNameAndSpace, hbuild, hlist, matchingApps_eq_filter,
    List.countP_eq_length_filter]
  cases hf : items.filter fun app => app.Spec.DisplayName = appName with
  | nil =>
    refine ⟨fun _ => ⟨rfl, rfl⟩, ?_, ?_, ?_⟩
    · intro hcount; simp at hcount
    · intro app happ; simp at happ
    · simp
  | cons a rest =>
    have hmem : a ∈ items.filter fun app => app.Spec.DisplayName = appName := by
      rw [hf]; exact List.mem_cons_self _ _
    have ha : a ∈ items ∧ a.Spec.DisplayName = appName := by
      simpa using hmem
    cases rest with
    | nil =>
      refine ⟨fun hnone => absurd ha.2 (hnone a ha.1), ?_, ?_, ?_⟩
      · intro hcount; simp at hcount
      · intro app happ
        simp only [List.cons.injEq, and_true] at happ
        subst happ
        exact ⟨rfl, rfl⟩
      · simp
    | cons b rest' =>
      refine ⟨fun hnone => absurd ha.2 (hnone a ha.1), fun _ => ⟨rfl, rfl⟩, ?_, ?_⟩
      · intro app happ; simp at happ
      · simp

theorem CreateOrPatchAppEnvVars_run (d : Deps) (authInfo : Info)
    (envVariables : CreateOrPatchAppEnvVarsMessage) (userClient : UserClient)
    (hbuild : d.BuildClient authInfo = .ok userClient) :
    (CreateOrPatchAppEnvVars d authInfo envVariables).trace =
      [.BuildClient,
        .CreateOrPatchSecret (GenerateEnvSecretName envVariables.AppGUID)] ∧
    (∀ err, userClient.CreateOrPatchSecret (appEnvVarsRecordToSecret envVariables)
        (fun secretObj =>
          { secretObj with StringData := envVariables.EnvironmentVariables }) = .error err →
      (CreateOrPatchAppEnvVars d authInfo envVariables).err =
        d.FromK8sError (some err) AppEnvResourceType) ∧
    (∀ stored, userClient.CreateOrPatchSecret (appEnvVarsRecordToSecret envVariables)
        (fun secretObj =>
          { secretObj with StringData := envVariables.EnvironmentVariables }) = .ok stored →
      (CreateOrPatchAppEnvVars d authInfo envVariables).err = none) := by
  refine ⟨?_, ?_, ?_⟩
  · simp only [CreateOrPatchAppEnvVars, hbuild]
    cases userClient.CreateOrPatchSecret _ _ <;> rfl
  · intro err hsecret
    simp only [CreateOrPatchAppEnvVars, hbuild, hsecret]
  · intro stored hsecret
    simp only [CreateOrPatchAppEnvVars, hbuild, hsecret]

/-- Claim C26: the CFApp built by `toCFApp` names the env secret
`GenerateEnvSecretName` of its own object name; after the store accepts the
app, `CreateApp` issues one secret write, for the secret named
`GenerateEnvSecretName` of the stored app's name, in the app's namespace,
labelled with the app's name under the app-guid label, with a single owner
reference of kind `CFApp` naming the app with its UID; the mutation of the
write keeps that metadata; when the store keeps the requested object name this
is the secret the app's `Spec.EnvSecretName` names.  The outcome of `CreateApp`
is the outcome of that write. -/
theorem CreateApp_env_secret_matches (d : Deps) (authInfo : Info) (guid : String)
    (appCreateMessage : CreateAppMessage) (userClient : UserClient) (created : CFApp)
    (hbuild : d.BuildClient authInfo = .ok userClient)
    (hcreate : userClient.CreateApp (appCreateMessage.toCFApp guid) = .ok created) :
    (appCreateMessage.toCFApp guid).Spec.EnvSecretName =
      GenerateEnvSecretName (appCreateMessage.toCFApp guid).Name ∧
    (CreateApp d authInfo guid appCreateMessage).trace =
      [.BuildClient, .Create guid, .BuildClient,
        .CreateOrPatchSecret (GenerateEnvSecretName created.Name)] ∧
    (∀ err, userClient.CreateOrPatchSecret
        (envSecretFor created appCreateMessage.EnvironmentVariables)
        (fun secretObj =>
          { secretObj with StringData := appCreateMessage.EnvironmentVariables }) =
        .error err →
      (CreateApp d authInfo guid appCreateMessage).err =
        d.FromK8sError (some err) AppEnvResourceType) ∧
    (∀ stored, userClient.CreateOrPatchSecret
        (envSecretFor created appCreateMessage.EnvironmentVariables)
        (fun secretObj =>
          { secretObj with StringData := appCreateMessage.EnvironmentVariables }) =
        .ok stored →
      (CreateApp d authInfo guid appCreateMessage).value = cfAppToAppRecord d created ∧
      (CreateApp d authInfo guid appCreateMessage).err = none) ∧
    (envSecretFor created appCreateMessage.EnvironmentVariables).toObjectMeta =
      { Name := GenerateEnvSecretName created.Name
        Namespace := created.Namespace
        Labels := [(CFAppGUIDLabel, created.Name)]
        OwnerReferences :=
          [{ APIVersion := APIVersion, Kind := "CFApp", Name := created.Name,
             UID := created.UID }] } ∧
    (∀ secretObj : Secret,
      ({ secretObj with StringData := appCreateMessage.EnvironmentVariables } :
        Secret).toObjectMeta = secretObj.toObjectMeta) ∧
    (created.Name = (appCreateMessage.toCFApp guid).Name →
      (envSecretFor created appCreateMessage.EnvironmentVariables).Name =
        (appCreateMessage.toCFApp guid).Spec.EnvSecretName) := by
  obtain ⟨htrace, herror, hok⟩ := CreateOrPatchAppEnvVars_run d authInfo
    { AppGUID := created.Name, AppEtcdUID := created.UID, SpaceGUID := created.Namespace
      EnvironmentVariables := appCreateMessage.EnvironmentVariables } userClient hbuild
  refine ⟨rfl, ?_, ?_, ?_, rfl, fun _ => rfl, ?_⟩
  · simp only [CreateApp, hbuild, hcreate]
    cases henv : (CreateOrPatchAppEnvVars d authInfo
        { AppGUID := created.Name, AppEtcdUID := created.UID, SpaceGUID := created.Namespace
          EnvironmentVariables := appCreateMessage.EnvironmentVariables }).err <;>
      simp [htrace, CreateAppMessage.toCFApp]
  · intro err hsecret
    have h := herror err hsecret
    simp only [CreateApp, hbuild, hcreate]
    cases hmap : d.FromK8sError (some err) AppEnvResourceType <;> simp [h, hmap]
  · intro stored hsecret
    have h := hok stored hsecret
    simp [CreateApp, hbuild, hcreate, h]
  · intro hname
    simp [envSecretFor, appEnvVarsRecordToSecret, CreateAppMessage.toCFApp, hname]

/-- Claim C27: the mutation `PatchApp` submits replaces `Spec.Lifecycle` of the
fetched app by the lifecycle of the message and leaves the object metadata
(labels and annotations included), the status, the display name, the desired
state, the env secret name and the current droplet as fetched; after a
successful fetch the store is patched once; and when the fetch fails the
trace has no patch and no secret write. -/
theorem PatchApp_changes_lifecycle_only (d : Deps) (authInfo : Info)
    (appPatchMessage : PatchAppMessage) (userClient : UserClient)
    (hbuild : d.BuildClient authInfo = .ok userClient) :
    (∀ app : CFApp,
      setLifecycle appPatchMessage.toCFApp app =
        { app with Spec := { app.Spec with Lifecycle := appPatchMessage.Lifecycle } } ∧
      (setLifecycle appPatchMessage.toCFApp app).toObjectMeta = app.toObjectMeta ∧
      (setLifecycle appPatchMessage.toCFApp app).Status = app.Status ∧
      (setLifecycle appPatchMessage.toCFApp app).Spec.DisplayName = app.Spec.DisplayName ∧
      (setLifecycle appPatchMessage.toCFApp app).Spec.DesiredState = app.Spec.DesiredState ∧
      (setLifecycle appPatchMessage.toCFApp app).Spec.EnvSecretName =
        app.Spec.EnvSecretName ∧
      (setLifecycle appPatchMessage.toCFApp app).Spec.CurrentDropletRef =
        app.Spec.CurrentDropletRef) ∧
    (∀ app err,
      userClient.GetApp appPatchMessage.SpaceGUID appPatchMessage.AppGUID = .ok app →
      d.PatchResource userClient app (setLifecycle appPatchMessage.toCFApp) = .error err →
      (PatchApp d authInfo appPatchMessage).value = {} ∧
      (PatchApp d authInfo appPatchMessage).err = d.FromK8sError (some err) AppResourceType ∧
      (PatchApp d authInfo appPatchMessage).trace =
        [.BuildClient, .Get appPatchMessage.AppGUID, .PatchResource app.Name]) ∧
    (∀ app patched,
      userClient.GetApp appPatchMessage.SpaceGUID appPatchMessage.AppGUID = .ok app →
      d.PatchResource userClient app (setLifecycle appPatchMessage.toCFApp) = .ok patched →
      (PatchApp d authInfo appPatchMessage).trace =
        [.BuildClient, .Get appPatchMessage.AppGUID, .PatchResource app.Name, .BuildClient,
          .CreateOrPatchSecret (GenerateEnvSecretName patched.Name)] ∧
      ((PatchApp d authInfo appPatchMessage).err = none →
        (PatchApp d authInfo appPatchMessage).value = cfAppToAppRecord d patched)) ∧
    (∀ err,
      userClient.GetApp appPatchMessage.SpaceGUID appPatchMessage.AppGUID = .error err →
      (PatchApp d authInfo appPatchMessage).value = {} ∧
      (PatchApp d authInfo appPatchMessage).err = d.FromK8sError (some err) AppResourceType ∧
      (∀ n, Call.PatchResource n ∉ (PatchApp d authInfo appPatchMessage).trace) ∧
      (∀ n, Call.CreateOrPatchSecret n ∉ (PatchApp d authInfo appPatchMessage).trace)) := by
  refine ⟨fun app => ⟨rfl, rfl, rfl, rfl, rfl, rfl, rfl⟩, ?_, ?_, ?_⟩
  · intro app err hget hpatch
    simp [PatchApp, hbuild, hget, hpatch]
  · intro app patched hget hpatch
    obtain ⟨htrace, _, _⟩ := CreateOrPatchAppEnvVars_run d authInfo
      { AppGUID := patched.Name, AppEtcdUID := patched.UID, SpaceGUID := patched.Namespace
        EnvironmentVariables := appPatchMessage.EnvironmentVariables } userClient hbuild
    simp only [PatchApp, hbuild, hget, hpatch]
    cases henv : (CreateOrPatchAppEnvVars d authInfo
        { AppGUID := patched.Name, AppEtcdUID := patched.UID, SpaceGUID := patched.Namespace
          EnvironmentVariables := appPatchMessage.EnvironmentVariables }).err <;>
      simp [htrace]
  · intro err hget
    simp [PatchApp, hbuild, hget]

theorem GoMap.set_of_not_mem_keys {β : Type} (m : GoMap β) (k : String) (v : β)
    (h : k ∉ GoMap.keys m) : GoMap.set m k v = m ++ [(k, v)] := by
  induction m with
  | nil => rfl
  | cons e rest ih =>
    obtain ⟨k', v'⟩ := e
    have hk : ¬ k' = k := by
      intro hk
      exact h (by simp [GoMap.keys, hk])
    have hrest : k ∉ GoMap.keys rest := by
      intro hmem
      exact h (by simp only [GoMap.keys, List.map_cons, List.mem_cons]
                  exact Or.inr hmem)
    simp [GoMap.set, hk, ih hrest]

theorem GoMap.foldl_set_nodup {β : Type} (entries : GoMap β) :
    ∀ acc : GoMap β, (GoMap.keys acc ++ GoMap.keys entries).Nodup →
      entries.foldl (fun m kv => GoMap.set m kv.1 kv.2) acc = acc ++ entries := by
  induction entries with
  | nil => intro acc _; simp
  | cons e rest ih =>
    intro acc hnodup
    have hfresh : e.1 ∉ GoMap.keys acc := by
      intro hmem
      have := List.nodup_append.mp hnodup
      exact this.2.2 hmem (by simp [GoMap.keys])
    have hnext : (GoMap.keys (acc ++ [e]) ++ GoMap.keys rest).Nodup := by
      simpa [GoMap.keys] using hnodup
    rw [List.foldl_cons, GoMap.set_of_not_mem_keys acc e.1 e.2 hfresh, ih _ hnext]
    simp

theorem GoMap.lookup_filter {β : Type} (m : GoMap β) (p : String × β → Bool) (k : String)
    (h : ∀ v, p (k, v) = true) : GoMap.lookup (m.filter p) k = GoMap.lookup m k := by
  induction m with
  | nil => rfl
  | cons e rest ih =>
    obtain ⟨k', v'⟩ := e
    by_cases hk : k' = k
    · subst hk
      simp [List.filter_cons, h, GoMap.lookup]
    · by_cases hp : p (k', v') = true
      · simp [List.filter_cons, hp, GoMap.lookup, hk, ih]
      · simp [List.filter_cons, hp, GoMap.lookup, hk, ih]

theorem patchEnvVars_fold (patch : GoMap (Option String)) :
    ∀ secretObj : Secret,
      (patch.foldl (fun (secretObj : Secret) kv =>
        match kv.2 with
        | none => { secretObj with Data := GoMap.delete secretObj.Data kv.1 }
        | some v => { secretObj with StringData := GoMap.set secretObj.StringData kv.1 v })
        secretObj).toObjectMeta = secretObj.toObjectMeta ∧
      (patch.foldl (fun (secretObj : Secret) kv =>
        match kv.2 with
        | none => { secretObj with Data := GoMap.delete secretObj.Data kv.1 }
        | some v => { secretObj with StringData := GoMap.set secretObj.StringData kv.1 v })
        secretObj).Data =
        (secretObj.Data.filter fun entry =>
          !(patch.any fun kv => decide (kv.1 = entry.1) && kv.2.isNone)) ∧
      (patch.foldl (fun (secretObj : Secret) kv =>
        match kv.2 with
        | none => { secretObj with Data := GoMap.delete secretObj.Data kv.1 }
        | some v => { secretObj with StringData := GoMap.set secretObj.StringData kv.1 v })
        secretObj).StringData =
        (setEntries patch).foldl (fun m kv => GoMap.set m kv.1 kv.2)
          secretObj.StringData := by
  induction patch with
  | nil => intro s; simp [setEntries]
  | cons kv rest ih =>
    intro s
    obtain ⟨k, v⟩ := kv
    cases v with
    | none =>
      obtain ⟨h1, h2, h3⟩ := ih { s with Data := GoMap.delete s.Data k }
      refine ⟨h1, ?_, ?_⟩
      · simp only [List.foldl_cons]
        rw [h2]
        simp only [GoMap.delete, List.filter_filter, List.any_cons, Option.isNone_none,
          Bool.and_true]
        apply List.filter_congr
        intro entry _
        by_cases hk : k = entry.1
        · simp [hk]
        · have hk' : ¬ entry.1 = k := fun e => hk e.symm
          simp [hk, hk']
      · simp only [List.foldl_cons]
        rw [h3]
        simp [setEntries]
    | some value =>
      obtain ⟨h1, h2, h3⟩ := ih { s with StringData := GoMap.set s.StringData k value }
      refine ⟨h1, ?_, ?_⟩
      · simp only [List.foldl_cons]
        rw [h2]
        simp
      · simp only [List.foldl_cons]
        rw [h3]
        simp [setEntries]

theorem setEntries_keys_nodup (patch : GoMap (Option String))
    (hnodup : (GoMap.keys patch).Nodup) : (GoMap.keys (setEntries patch)).Nodup := by
  induction patch with
  | nil => simp [setEntries, GoMap.keys]
  | cons kv rest ih =>
    obtain ⟨k, v⟩ := kv
    simp only [GoMap.keys, List.map_cons, List.nodup_cons] at hnodup
    have hrest := ih hnodup.2
    cases v with
    | none => simpa [setEntries] using hrest
    | some value =>
      simp only [setEntries, List.filterMap_cons, Option.map_some', GoMap.keys, List.map_cons,
        List.nodup_cons]
      refine ⟨?_, hrest⟩
      intro hmem
      apply hnodup.1
      simp only [List.mem_map, List.mem_filterMap] at hmem ⊢
      obtain ⟨⟨k', v'⟩, ⟨⟨k'', o⟩, hin, hmap⟩, hk⟩ := hmem
      cases o with
      | none => simp at hmap
      | some w =>
        simp only [Option.map_some', Option.some.injEq, Prod.mk.injEq] at hmap
        exact ⟨(k'', some w), hin, by rw [hmap.1]; exact hk⟩

theorem mem_setEntries (patch : GoMap (Option String)) (k v : String) :
    (k, v) ∈ setEntries patch ↔ (k, some v) ∈ patch := by
  simp only [setEntries, List.mem_filterMap]
  constructor
  · rintro ⟨⟨k', o⟩, hin, hmap⟩
    cases o with
    | none => simp at hmap
    | some w =>
      simp only [Option.map_some', Option.some.injEq, Prod.mk.injEq] at hmap
      rw [← hmap.1, ← hmap.2]
      exact hin
  · intro hin
    exact ⟨(k, some v), hin, rfl⟩

/-- Claim C28: `PatchAppEnvVars` issues one create-or-patch of the secret named
`GenerateEnvSecretName` of the app GUID in the space of the message, with the
mutate step `patchEnvVars`; its result is the record of the secret the store
answers with, or the store's error; in particular, on a store that applies the
mutate step to the secret it holds, the result is the record of the patched
secret.  For a patch map (keys pairwise distinct), that mutate step leaves
`StringData` equal to the entries of the patch with a non-nil value,
dereferenced; `Data` has no key whose patch value is nil; every entry of `Data`
was there before; a key the patch does not mention keeps its `Data` entry and
value; and the object metadata is unchanged. -/
theorem PatchAppEnvVars_null_means_delete (d : Deps) (authInfo : Info)
    (message : PatchAppEnvVarsMessage)
    (secretObj : Secret) (hmap : (GoMap.keys message.EnvironmentVariables).Nodup) :
    (∀ userClient, d.BuildClient authInfo = .ok userClient →
      (PatchAppEnvVars d authInfo message).trace =
        [.BuildClient, .CreateOrPatchSecret (GenerateEnvSecretName message.AppGUID)] ∧
      (∀ stored,
        userClient.CreateOrPatchSecret
            { Name := GenerateEnvSecretName message.AppGUID, Namespace := message.SpaceGUID }
            (patchEnvVars message) = .ok stored →
        (PatchAppEnvVars d authInfo message).value = appEnvVarsSecretToRecord stored ∧
        (PatchAppEnvVars d authInfo message).err = none) ∧
      (userClient.CreateOrPatchSecret
            { Name := GenerateEnvSecretName message.AppGUID, Namespace := message.SpaceGUID }
            (patchEnvVars message) = .ok (patchEnvVars message secretObj) →
        (PatchAppEnvVars d authInfo message).value =
          appEnvVarsSecretToRecord (patchEnvVars message secretObj) ∧
        (PatchAppEnvVars d authInfo message).value.EnvironmentVariables =
          convertByteSliceValuesToStrings (secretObj.Data.filter fun entry =>
            !(message.EnvironmentVariables.any fun kv =>
              decide (kv.1 = entry.1) && kv.2.isNone)) ∧
        (PatchAppEnvVars d authInfo message).err = none) ∧
      (∀ err,
        userClient.CreateOrPatchSecret
            { Name := GenerateEnvSecretName message.AppGUID, Namespace := message.SpaceGUID }
            (patchEnvVars message) = .error err →
        (PatchAppEnvVars d authInfo message).err =
          d.FromK8sError (some err) AppEnvResourceType)) ∧
    (patchEnvVars message secretObj).StringData = setEntries message.EnvironmentVariables ∧
    (∀ k v, (k, v) ∈ (patchEnvVars message secretObj).StringData ↔
      (k, some v) ∈ message.EnvironmentVariables) ∧
    (∀ k, (k, none) ∈ message.EnvironmentVariables →
      k ∉ GoMap.keys (patchEnvVars message secretObj).Data) ∧
    (∀ k v, (k, v) ∈ (patchEnvVars message secretObj).Data → (k, v) ∈ secretObj.Data) ∧
    (∀ k, k ∉ GoMap.keys message.EnvironmentVariables →
      GoMap.lookup (patchEnvVars message secretObj).Data k = GoMap.lookup secretObj.Data k ∧
      ∀ v, (k, v) ∈ (patchEnvVars message secretObj).Data ↔ (k, v) ∈ secretObj.Data) ∧
    (patchEnvVars message secretObj).toObjectMeta = secretObj.toObjectMeta := by
  obtain ⟨hmeta, hdata, hstring⟩ := patchEnvVars_fold message.EnvironmentVariables
    { secretObj with StringData := [] }
  have hS : (patchEnvVars message secretObj).StringData =
      setEntries message.EnvironmentVariables := by
    have hfold := GoMap.foldl_set_nodup (setEntries message.EnvironmentVariables) []
      (by simpa [GoMap.keys] using setEntries_keys_nodup _ hmap)
    exact hstring.trans (by simpa using hfold)
  have hD : (patchEnvVars message secretObj).Data =
      secretObj.Data.filter fun entry =>
        !(message.EnvironmentVariables.any fun kv => decide (kv.1 = entry.1) && kv.2.isNone) := by
    exact hdata
  refine ⟨?_, hS, ?_, ?_, ?_, ?_, ?_⟩
  · intro userClient hbuild
    refine ⟨?_, ?_, ?_, ?_⟩
    · simp only [PatchAppEnvVars, hbuild]
      cases userClient.CreateOrPatchSecret _ _ <;> rfl
    · intro stored hstore
      simp only [PatchAppEnvVars, hbuild, hstore, and_self]
    · intro hstore
      simp only [PatchAppEnvVars, hbuild, hstore, and_self, true_and, and_true]
      simp only [appEnvVarsSecretToRecord, hD]
    · intro err hstore
      simp only [PatchAppEnvVars, hbuild, hstore]
  · intro k v
    rw [hS]
    exact mem_setEntries _ k v
  · intro k hnil hkey
    rw [hD] at hkey
    simp only [GoMap.keys, List.mem_map, List.mem_filter] at hkey
    obtain ⟨⟨k', v'⟩, ⟨_, hkeep⟩, hk⟩ := hkey
    simp only at hk
    subst hk
    have : (message.EnvironmentVariables.any fun kv =>
        decide (kv.1 = k') && kv.2.isNone) = true :=
      List.any_eq_true.mpr ⟨(k', none), hnil, by simp⟩
    simp [this] at hkeep
  · intro k v hkv
    rw [hD] at hkv
    exact (List.mem_filter.mp hkv).1
  · intro k hfresh
    have hkeep : ∀ v : String, (fun entry : String × String =>
        !(message.EnvironmentVariables.any fun kv =>
          decide (kv.1 = entry.1) && kv.2.isNone)) (k, v) = true := by
      intro v
      simp only [Bool.not_eq_true', List.any_eq_false]
      intro kv hkv
      have hne : ¬ kv.1 = k := by
        intro hk
        exact hfresh (by simp only [GoMap.keys, List.mem_map]; exact ⟨kv, hkv, hk⟩)
      simp [hne]
    refine ⟨?_, ?_⟩
    · rw [hD]
      exact GoMap.lookup_filter _ _ k hkeep
    · intro v
      rw [hD, List.mem_filter]
      exact ⟨fun h => h.1, fun h => ⟨h, hkeep v⟩⟩
  · exact hmeta

theorem GoMap.keys_set {β : Type} (m : GoMap β) (k0 : String) (v0 : β) (k : String) :
    k ∈ GoMap.keys (GoMap.set m k0 v0) ↔ k = k0 ∨ k ∈ GoMap.keys m := by
  induction m with
  | nil => simp [GoMap.set, GoMap.keys]
  | cons e rest ih =>
    obtain ⟨k', v'⟩ := e
    by_cases hk : k' = k0
    · subst hk
      simp [GoMap.set, GoMap.keys]
    · simp only [GoMap.set, hk, if_false]
      simp only [GoMap.keys, List.map_cons, List.mem_cons] at ih ⊢
      rw [ih]
      tauto

theorem GoMap.keys_foldl_set {β : Type} (entries : GoMap β) (k : String) :
    ∀ acc : GoMap β,
      k ∈ GoMap.keys (entries.foldl (fun m kv => GoMap.set m kv.1 kv.2) acc) ↔
        k ∈ GoMap.keys acc ∨ k ∈ GoMap.keys entries := by
  induction entries with
  | nil => intro acc; simp [GoMap.keys]
  | cons e rest ih =>
    intro acc
    rw [List.foldl_cons, ih, GoMap.keys_set]
    simp only [GoMap.keys, List.map_cons, List.mem_cons]
    tauto

theorem TrimSuffix_append (g suffix : String) : TrimSuffix (g ++ suffix) suffix = g := by
  unfold TrimSuffix
  have hsuffix : suffix.data.isSuffixOf (g ++ suffix).data = true := by
    rw [String.data_append, List.isSuffixOf_iff_suffix]
    exact List.suffix_append _ _
  rw [if_pos hsuffix, String.data_append]
  simp

/-- Claim C29: for every string `g`, `appEnvVarsSecretToRecord` of a secret
named `GenerateEnvSecretName g` has `AppGUID = g` and `Name = g ++ "-env"`; the
keys of its `EnvironmentVariables` are the keys of the secret's `Data`, and
when the keys of `Data` are pairwise distinct, as in a map, the entries are
those of `Data`, each value being the string of the bytes. -/
theorem env_secret_name_round_trip (g : String) (envVars : Secret)
    (hname : envVars.Name = GenerateEnvSecretName g) :
    (appEnvVarsSecretToRecord envVars).AppGUID = g ∧
    (appEnvVarsSecretToRecord envVars).Name = g ++ "-env" ∧
    (∀ k, k ∈ GoMap.keys (appEnvVarsSecretToRecord envVars).EnvironmentVariables ↔
      k ∈ GoMap.keys envVars.Data) ∧
    ((GoMap.keys envVars.Data).Nodup →
      (appEnvVarsSecretToRecord envVars).EnvironmentVariables = envVars.Data) := by
  refine ⟨?_, ?_, ?_, ?_⟩
  · simp only [appEnvVarsSecretToRecord, hname, GenerateEnvSecretName]
    exact TrimSuffix_append g "-env"
  · simp only [appEnvVarsSecretToRecord, hname, GenerateEnvSecretName]
  · intro k
    simp only [appEnvVarsSecretToRecord, convertByteSliceValuesToStrings]
    rw [GoMap.keys_foldl_set]
    simp [GoMap.keys]
  · intro hmap
    have hfold := GoMap.foldl_set_nodup envVars.Data [] (by simpa [GoMap.keys] using hmap)
    simpa [appEnvVarsSecretToRecord, convertByteSliceValuesToStrings] using hfold

theorem foldl_append_if {α β : Type} (app : α) (p : β → Bool) (values : List β) :
    ∀ acc : List α,
      values.foldl (fun filtered v => if p v then filtered ++ [app] else filtered) acc =
        acc ++ List.replicate (values.countP p) app := by
  induction values with
  | nil => intro acc; simp
  | cons v rest ih =>
    intro acc
    by_cases hv : p v = true
    · simp [List.foldl_cons, hv, ih, List.countP_cons_of_pos, List.replicate_succ]
    · simp [List.foldl_cons, hv, ih, List.countP_cons_of_neg]

theorem foldl_append_replicate {α : Type} (n : α → Nat) (step : List α → α → List α)
    (hstep : ∀ acc app, step acc app = acc ++ List.replicate (n app) app) (l : List α) :
    ∀ acc : List α, l.foldl step acc = acc ++ l.flatMap fun app => List.replicate (n app) app := by
  induction l with
  | nil => intro acc; simp
  | cons x rest ih => intro acc; simp [List.foldl_cons, hstep, ih]

theorem mem_flatMap_replicate {α : Type} (n : α → Nat) (l : List α) (x : α) :
    x ∈ (l.flatMap fun app => List.replicate (n app) app) ↔ x ∈ l ∧ n x ≠ 0 := by
  simp only [List.mem_flatMap, List.mem_replicate]
  constructor
  · rintro ⟨a, ha, hn, rfl⟩
    exact ⟨ha, hn⟩
  · rintro ⟨hx, hn⟩
    exact ⟨x, hx, hn, rfl⟩


theorem foldl_append_replicate_same {α β : Type} (app : α) (c : β → Nat) (values : List β) :
    ∀ acc : List α,
      values.foldl (fun filtered v => filtered ++ List.replicate (c v) app) acc =
        acc ++ List.replicate (values.map c).sum app := by
  induction values with
  | nil => intro acc; simp
  | cons v rest ih =>
    intro acc
    simp only [List.foldl_cons, List.map_cons, List.sum_cons]
    rw [ih, List.replicate_add, List.append_assoc]

theorem applyAppListFilter_secondLoop (message : ListAppsMessage) (acc : List CFApp)
    (app : CFApp) :
    (if decide (message.Names.length > 0) && decide (message.SpaceGuids.length > 0) then
        message.Names.foldl (fun filtered name =>
          message.SpaceGuids.foldl (fun filtered spaceGUID =>
            if appBelongsToSpace app spaceGUID && appMatchesName app name then
              filtered ++ [app]
            else filtered) filtered) acc
      else if decide (message.Names.length > 0) then
        message.Names.foldl (fun filtered name =>
          if appMatchesName app name then filtered ++ [app] else filtered) acc
      else if decide (message.SpaceGuids.length > 0) then
        message.SpaceGuids.foldl (fun filtered spaceGUID =>
          if appBelongsToSpace app spaceGUID then filtered ++ [app] else filtered) acc
      else acc) = acc ++ List.replicate (nameSpaceHits message app) app := by
  unfold nameSpaceHits
  by_cases hn : message.Names.length > 0 <;> by_cases hs : message.SpaceGuids.length > 0
  · simp only [hn, hs, decide_True, Bool.and_self, if_true, and_self]
    simp only [foldl_append_if]
    exact foldl_append_replicate_same app _ message.Names acc
  · simp only [hn, hs, decide_True, decide_False, Bool.and_false, if_true, and_false, if_false,
      Bool.false_eq_true]
    exact foldl_append_if app _ message.Names acc
  · simp only [hn, hs, decide_True, decide_False, Bool.false_and, if_true, false_and, if_false,
      Bool.false_eq_true]
    exact foldl_append_if app _ message.SpaceGuids acc
  · simp [hn, hs]

/-- The result of `applyAppListFilter` in closed form: each loop repeats an
app once for every filter value it matches. -/
theorem applyAppListFilter_eq (appList : List CFApp) (message : ListAppsMessage) :
    applyAppListFilter appList message =
      let selected :=
        if message.Guids = [] then appList
        else appList.flatMap fun app => List.replicate (guidHits message app) app
      if message.Names = [] ∧ message.SpaceGuids = [] then selected
      else selected.flatMap fun app => List.replicate (nameSpaceHits message app) app := by
  have hfirst : appList.foldl (fun filtered app =>
      message.Guids.foldl (fun filtered guid =>
        if appMatchesGUID app guid then filtered ++ [app] else filtered) filtered) [] =
      appList.flatMap fun app => List.replicate (guidHits message app) app := by
    have := foldl_append_replicate (guidHits message) _
      (fun acc app => foldl_append_if app (fun guid => appMatchesGUID app guid)
        message.Guids acc) appList []
    simpa using this
  have hsecond : ∀ scope acc : List CFApp, scope.foldl (fun filtered app =>
        if decide (message.Names.length > 0) && decide (message.SpaceGuids.length > 0) then
          message.Names.foldl (fun filtered name =>
            message.SpaceGuids.foldl (fun filtered spaceGUID =>
              if appBelongsToSpace app spaceGUID && appMatchesName app name then
                filtered ++ [app]
              else filtered) filtered) filtered
        else if decide (message.Names.length > 0) then
          message.Names.foldl (fun filtered name =>
            if appMatchesName app name then filtered ++ [app] else filtered) filtered
        else if decide (message.SpaceGuids.length > 0) then
          message.SpaceGuids.foldl (fun filtered spaceGUID =>
            if appBelongsToSpace app spaceGUID then filtered ++ [app] else filtered) filtered
        else filtered) acc =
      acc ++ scope.flatMap fun app => List.replicate (nameSpaceHits message app) app :=
    fun scope acc => foldl_append_replicate (nameSpaceHits message) _
      (fun acc app => applyAppListFilter_secondLoop message acc app) scope acc
  unfold applyAppListFilter
  simp only [hfirst, hsecond]
  have hlen : ∀ l : List String, decide (l.length > 0) = !decide (l = []) := by
    intro l
    cases l <;> simp
  simp only [hlen]
  generalize (appList.flatMap fun app => List.replicate (guidHits message app) app) = selected
  by_cases hg : message.Guids = []
  · by_cases hn : message.Names = [] <;> by_cases hs : message.SpaceGuids = [] <;>
      simp [hg, hn, hs]
  · cases selected with
    | nil =>
      by_cases hn : message.Names = [] <;> by_cases hs : message.SpaceGuids = [] <;>
        simp [hg, hn, hs]
    | cons x rest =>
      by_cases hn : message.Names = [] <;> by_cases hs : message.SpaceGuids = [] <;>
        simp [hg, hn, hs]

theorem guidHits_ne_zero (message : ListAppsMessage) (app : CFApp) :
    guidHits message app ≠ 0 ↔ app.Name ∈ message.Guids := by
  unfold guidHits appMatchesGUID
  rw [Nat.ne_zero_iff_zero_lt, List.countP_pos_iff]
  simp

theorem sum_map_ne_zero {β : Type} (c : β → Nat) (values : List β) :
    (values.map c).sum ≠ 0 ↔ ∃ v ∈ values, c v ≠ 0 := by
  induction values with
  | nil => simp
  | cons v rest ih =>
    simp only [List.map_cons, List.sum_cons, List.mem_cons, exists_eq_or_imp]
    rw [← ih]
    omega

theorem nameSpaceHits_ne_zero (message : ListAppsMessage) (app : CFApp)
    (hspecified : ¬ (message.Names = [] ∧ message.SpaceGuids = [])) :
    nameSpaceHits message app ≠ 0 ↔
      (message.Names = [] ∨ app.Spec.DisplayName ∈ message.Names) ∧
      (message.SpaceGuids = [] ∨ app.Namespace ∈ message.SpaceGuids) := by
  unfold nameSpaceHits appMatchesName appBelongsToSpace
  by_cases hn : message.Names = [] <;> by_cases hs : message.SpaceGuids = []
  · exact absurd ⟨hn, hs⟩ hspecified
  · have hslen : message.SpaceGuids.length > 0 := List.length_pos.mpr hs
    simp only [hn, List.length_nil, gt_iff_lt, Nat.lt_irrefl, false_and, if_false, hslen, if_true,
      true_or, true_and, hs, false_or]
    rw [Nat.ne_zero_iff_zero_lt, List.countP_pos_iff]
    simp
  · have hnlen : message.Names.length > 0 := List.length_pos.mpr hn
    simp only [hs, List.length_nil, gt_iff_lt, Nat.lt_irrefl, and_false, if_false, hnlen, if_true,
      true_or, and_true, hn, false_or]
    rw [Nat.ne_zero_iff_zero_lt, List.countP_pos_iff]
    simp
  · have hnlen : message.Names.length > 0 := List.length_pos.mpr hn
    have hslen : message.SpaceGuids.length > 0 := List.length_pos.mpr hs
    simp only [hnlen, hslen, and_self, if_true, hn, hs, false_or]
    rw [sum_map_ne_zero]
    constructor
    · rintro ⟨name, hname, hcount⟩
      rw [Nat.ne_zero_iff_zero_lt, List.countP_pos_iff] at hcount
      obtain ⟨spaceGUID, hspace, hboth⟩ := hcount
      simp only [Bool.and_eq_true, decide_eq_true_eq] at hboth
      exact ⟨hboth.2 ▸ hname, hboth.1 ▸ hspace⟩
    · rintro ⟨hname, hspace⟩
      refine ⟨_, hname, ?_⟩
      rw [Nat.ne_zero_iff_zero_lt, List.countP_pos_iff]
      exact ⟨_, hspace, by simp⟩

/-- Claim C23: an app occurs in the result of `applyAppListFilter` if and only
if it occurs in the input and satisfies each specified filter (object name in
`Guids`, display name in `Names`, namespace in `SpaceGuids`, an empty filter
being satisfied by every app); with all three filters empty the result is the
input list, and with a non-empty `Guids` filter that matches no app the result
is empty. -/
theorem applyAppListFilter_conjunction (appList : List CFApp) (message : ListAppsMessage) :
    (∀ app, app ∈ applyAppListFilter appList message ↔
      app ∈ appList ∧
      (message.Guids = [] ∨ app.Name ∈ message.Guids) ∧
      (message.Names = [] ∨ app.Spec.DisplayName ∈ message.Names) ∧
      (message.SpaceGuids = [] ∨ app.Namespace ∈ message.SpaceGuids)) ∧
    (message.Guids = [] → message.Names = [] → message.SpaceGuids = [] →
      applyAppListFilter appList message = appList) ∧
    (message.Guids ≠ [] → (∀ app ∈ appList, app.Name ∉ message.Guids) →
      applyAppListFilter appList message = []) := by
  have hsel : ∀ app, app ∈ (if message.Guids = [] then appList
      else appList.flatMap fun app => List.replicate (guidHits message app) app) ↔
      app ∈ appList ∧ (message.Guids = [] ∨ app.Name ∈ message.Guids) := by
    intro app
    by_cases hg : message.Guids = []
    · simp [hg]
    · simp only [hg, if_false, false_or]
      rw [mem_flatMap_replicate, guidHits_ne_zero]
  refine ⟨?_, ?_, ?_⟩
  · intro app
    rw [applyAppListFilter_eq]
    by_cases hns : message.Names = [] ∧ message.SpaceGuids = []
    · simp only [hns, and_self, if_true]
      rw [hsel]
      simp [hns.1, hns.2]
    · simp only [hns, if_false]
      rw [mem_flatMap_replicate, nameSpaceHits_ne_zero message app hns, hsel]
      tauto
  · intro hg hn hs
    rw [applyAppListFilter_eq]
    simp [hg, hn, hs]
  · intro hg hnone
    rw [applyAppListFilter_eq]
    have hempty : (appList.flatMap fun app => List.replicate (guidHits message app) app) = [] := by
      apply List.eq_nil_iff_forall_not_mem.mpr
      intro app happ
      rw [mem_flatMap_replicate, guidHits_ne_zero] at happ
      exact hnone app happ.1 happ.2
    simp only [hg, if_false, hempty]
    split <;> rfl

theorem flatMap_replicate_sublist {α : Type} (n : α → Nat) (hn : ∀ a, n a ≤ 1) (l : List α) :
    (l.flatMap fun app => List.replicate (n app) app).Sublist l := by
  induction l with
  | nil => simp
  | cons x rest ih =>
    rw [List.flatMap_cons]
    have hx : (List.replicate (n x) x).Sublist [x] := by
      have := hn x
      interval_cases n x <;> simp
    exact hx.append ih

theorem countP_eq_le_one (values : List String) (hnodup : values.Nodup) (x : String)
    (p : String → Bool) (hp : ∀ v, p v = true → v = x) : values.countP p ≤ 1 := by
  induction values with
  | nil => simp
  | cons v rest ih =>
    simp only [List.nodup_cons] at hnodup
    by_cases hv : p v = true
    · have hzero : rest.countP p = 0 := by
        rw [List.countP_eq_zero]
        intro w hw hpw
        have h1 := hp v hv
        have h2 := hp w hpw
        exact hnodup.1 (by rw [h1, ← h2]; exact hw)
      rw [List.countP_cons_of_pos _ _ hv, hzero]
    · rw [List.countP_cons_of_neg _ _ hv]
      exact ih hnodup.2

theorem sum_map_le_one (values : List String) (hnodup : values.Nodup) (x : String)
    (c : String → Nat) (hc : ∀ v, c v ≤ 1) (hzero : ∀ v, v ≠ x → c v = 0) :
    (values.map c).sum ≤ 1 := by
  induction values with
  | nil => simp
  | cons v rest ih =>
    simp only [List.nodup_cons] at hnodup
    simp only [List.map_cons, List.sum_cons]
    by_cases hv : v = x
    · have hrest : (rest.map c).sum = 0 := by
        rw [List.sum_eq_zero_iff]
        intro y hy
        obtain ⟨w, hw, rfl⟩ := List.mem_map.mp hy
        apply hzero
        intro hwx
        exact hnodup.1 (by rw [hv, ← hwx]; exact hw)
      have := hc v
      omega
    · have := hzero v hv
      have := ih hnodup.2
      omega

theorem guidHits_le_one (message : ListAppsMessage) (hnodup : message.Guids.Nodup)
    (app : CFApp) : guidHits message app ≤ 1 := by
  unfold guidHits
  apply countP_eq_le_one _ hnodup app.Name
  intro v hv
  simpa [appMatchesGUID] using Eq.symm (by simpa [appMatchesGUID] using hv)

theorem nameSpaceHits_le_one (message : ListAppsMessage) (hnames : message.Names.Nodup)
    (hspaces : message.SpaceGuids.Nodup) (app : CFApp) : nameSpaceHits message app ≤ 1 := by
  have hname : ∀ p : String → Bool, (∀ v, p v = true → v = app.Spec.DisplayName) →
      message.Names.countP p ≤ 1 :=
    fun p hp => countP_eq_le_one _ hnames _ p hp
  have hspace : ∀ p : String → Bool, (∀ v, p v = true → v = app.Namespace) →
      message.SpaceGuids.countP p ≤ 1 :=
    fun p hp => countP_eq_le_one _ hspaces _ p hp
  unfold nameSpaceHits
  split
  · apply sum_map_le_one _ hnames app.Spec.DisplayName
    · intro name
      apply hspace
      intro v hv
      simp only [appBelongsToSpace, appMatchesName, Bool.and_eq_true, decide_eq_true_eq] at hv
      exact hv.1.symm
    · intro name hne
      rw [List.countP_eq_zero]
      intro v _ hv
      simp only [appBelongsToSpace, appMatchesName, Bool.and_eq_true, decide_eq_true_eq] at hv
      exact hne hv.2.symm
  · split
    · apply hname
      intro v hv
      simp only [appMatchesName, decide_eq_true_eq] at hv
      exact hv.symm
    · split
      · apply hspace
        intro v hv
        simp only [appBelongsToSpace, decide_eq_true_eq] at hv
        exact hv.symm
      · exact Nat.zero_le 1

theorem applyAppListFilter_sublist (appList : List CFApp) (message : ListAppsMessage)
    (hguids : message.Guids.Nodup) (hnames : message.Names.Nodup)
    (hspaces : message.SpaceGuids.Nodup) :
    (applyAppListFilter appList message).Sublist appList := by
  rw [applyAppListFilter_eq]
  have hselected : (if message.Guids = [] then appList
      else appList.flatMap fun app => List.replicate (guidHits message app) app).Sublist
      appList := by
    split
    · exact List.Sublist.refl _
    · exact flatMap_replicate_sublist _ (guidHits_le_one message hguids) appList
  simp only []
  split
  · exact hselected
  · exact (flatMap_replicate_sublist _ (nameSpaceHits_le_one message hnames hspaces) _).trans
      hselected

/-- Claim C24, refuted on the code: `applyAppListFilter` returns a sublist of
its input when no filter list repeats a value, but an app is appended once
for every filter value it matches; with `Guids = ["guid-1", "guid-1"]` (or
`Names = ["alpha", "alpha"]`) the one app of the input is returned twice, the
result is not a sublist of the input, and `ListApps` reports the app twice. -/
theorem applyAppListFilter_repeated_value_duplicates :
    (∀ (appList : List CFApp) (message : ListAppsMessage),
      message.Guids.Nodup → message.Names.Nodup → message.SpaceGuids.Nodup →
      (applyAppListFilter appList message).Sublist appList) ∧
    applyAppListFilter [sampleApp "alpha" "guid-1" "space-a"]
        { Guids := ["guid-1", "guid-1"] } =
      [sampleApp "alpha" "guid-1" "space-a", sampleApp "alpha" "guid-1" "space-a"] ∧
    ¬ (applyAppListFilter [sampleApp "alpha" "guid-1" "space-a"]
        { Guids := ["guid-1", "guid-1"] }).Sublist [sampleApp "alpha" "guid-1" "space-a"] ∧
    applyAppListFilter [sampleApp "alpha" "guid-1" "space-a"]
        { Names := ["alpha", "alpha"] } =
      [sampleApp "alpha" "guid-1" "space-a", sampleApp "alpha" "guid-1" "space-a"] ∧
    (ListApps (sampleDeps listingClient) {} { Guids := ["guid-1", "guid-1"] }).err = none ∧
    (ListApps (sampleDeps listingClient) {}
        { Guids := ["guid-1", "guid-1"] }).records.elems.map (fun r => r.GUID) =
      ["guid-1", "guid-1"] := by
  refine ⟨applyAppListFilter_sublist, by decide, ?_, by decide, rfl, by decide⟩
  intro hsub
  have := hsub.length_le
  revert this
  decide

theorem listAppsInNamespaces_total (d : Deps) (userClient : UserClient)
    (message : ListAppsMessage) (namespaces : List String) :
    ∀ filteredApps,
      (listFails userClient namespaces = false →
        listAppsInNamespaces d userClient message namespaces filteredApps =
          .ok (filteredApps ++ visitedFilteredApps userClient message namespaces)) ∧
      (listFails userClient namespaces = true →
        ∃ err, listAppsInNamespaces d userClient message namespaces filteredApps =
          .error err) := by
  induction namespaces with
  | nil => intro acc; simp [listFails, listAppsInNamespaces, visitedFilteredApps]
  | cons ns rest ih =>
    intro acc
    unfold listAppsInNamespaces
    cases hl : userClient.ListApps ns with
    | error err =>
      by_cases hf : IsForbidden err = true
      · have := ih acc
        simpa [listFails, hl, hf, visitedFilteredApps] using this
      · simp [listFails, hl, hf]
    | ok items =>
      have := ih (acc ++ applyAppListFilter items message)
      simpa [listFails, hl, visitedFilteredApps] using this

theorem listFails_perm (userClient : UserClient) (first second : List String)
    (hperm : first.Perm second) :
    listFails userClient first = listFails userClient second := by
  unfold listFails
  rw [Bool.eq_iff_iff, List.any_eq_true, List.any_eq_true]
  constructor
  · rintro ⟨ns, hns, h⟩
    exact ⟨ns, hperm.mem_iff.mp hns, h⟩
  · rintro ⟨ns, hns, h⟩
    exact ⟨ns, hperm.mem_iff.mpr hns, h⟩

theorem visitedFilteredApps_perm (userClient : UserClient) (message : ListAppsMessage)
    (first second : List String) (hperm : first.Perm second) :
    (visitedFilteredApps userClient message first).Perm
      (visitedFilteredApps userClient message second) := by
  unfold visitedFilteredApps
  exact List.Perm.flatMap_right _ hperm

/-- Claim C25: for two authorized namespace maps whose keys are the same up
to visiting order, and the same store, `ListApps` succeeds on one exactly when
it succeeds on the other, and on success the two results are permutations of
each other, both in display-name order. -/
theorem ListApps_visiting_order_irrelevant (d : Deps) (authInfo : Info)
    (message : ListAppsMessage) (first second : GoMap Bool)
    (hperm : (GoMap.keys first).Perm (GoMap.keys second)) :
    ((ListApps (withSpaceNamespaces d first) authInfo message).err = none ↔
      (ListApps (withSpaceNamespaces d second) authInfo message).err = none) ∧
    ((ListApps (withSpaceNamespaces d first) authInfo message).err = none →
      ∃ firstRecords secondRecords,
        (ListApps (withSpaceNamespaces d first) authInfo message).records = some firstRecords ∧
        (ListApps (withSpaceNamespaces d second) authInfo message).records =
          some secondRecords ∧
        firstRecords.Perm secondRecords ∧
        SortedByName firstRecords ∧ SortedByName secondRecords) := by
  have hbuild : ∀ nsList, (withSpaceNamespaces d nsList).BuildClient = d.BuildClient :=
    fun _ => rfl
  have hauth : ∀ nsList, (withSpaceNamespaces d nsList).GetAuthorizedSpaceNamespaces authInfo =
      .ok nsList := fun _ => rfl
  simp only [ListApps, hauth, hbuild, listAppsInNamespaces_withSpaceNamespaces,
    returnAppList_withSpaceNamespaces]
  cases d.BuildClient authInfo with
  | error err => simp
  | ok userClient =>
    simp only []
    have hfails := listFails_perm userClient _ _ hperm
    cases hf : listFails userClient (GoMap.keys first) with
    | true =>
      obtain ⟨e1, h1⟩ := (listAppsInNamespaces_total d userClient message _ []).2 hf
      obtain ⟨e2, h2⟩ := (listAppsInNamespaces_total d userClient message _ []).2
        (hfails ▸ hf)
      rw [h1, h2]
      simp
    | false =>
      have h1 := (listAppsInNamespaces_total d userClient message _ []).1 hf
      have h2 := (listAppsInNamespaces_total d userClient message _ []).1 (hfails ▸ hf)
      rw [h1, h2]
      simp only [List.nil_append, true_iff, forall_true_left, Option.some.injEq]
      refine ⟨trivial, _, _, rfl, rfl, ?_, (sortSort_spec _).2, (sortSort_spec _).2⟩
      rw [returnAppList_eq_map, returnAppList_eq_map]
      exact ((sortSort_spec _).1.trans
        ((visitedFilteredApps_perm userClient message _ _ hperm).map _)).trans
        (sortSort_spec _).1.symm

/-- Claim C21 at a concrete run: a certificate that expires at 500 with the
clock at 0 and the limit 100 gets the warning, one that expires at 50 and a
text that does not parse get none. -/
theorem orgListHandler_certificate_warning_witness :
    sampleOrgHandler.ListOrgs { CertData := "long-lived" }
        (sampleHandlerDeps.parseCommaSeparatedList "") = .ok ["org-1"] ∧
    (∃ resp, orgListHandler sampleHandlerDeps sampleOrgHandler 0 0 { CertData := "long-lived" }
        { URL := "/v3/organizations", names := "" } = (some resp, none) ∧
      resp.httpStatus = 200 ∧ resp.headers ≠ []) ∧
    (∃ resp, orgListHandler sampleHandlerDeps sampleOrgHandler 0 0 { CertData := "short-lived" }
        { URL := "/v3/organizations", names := "" } = (some resp, none) ∧
      resp.httpStatus = 200 ∧ ¬ resp.headers ≠ []) ∧
    (∃ resp, orgListHandler sampleHandlerDeps sampleOrgHandler 0 0 { CertData := "garbage" }
        { URL := "/v3/organizations", names := "" } = (some resp, none) ∧
      resp.httpStatus = 200 ∧ resp.headers = []) :=
  ⟨rfl,
    (orgListHandler_certificate_warning sampleHandlerDeps sampleOrgHandler 0 0
      { CertData := "long-lived" } { URL := "/v3/organizations", names := "" } ["org-1"]
      rfl).imp fun _ h => ⟨h.1, h.2.1, h.2.2.2.2.1.mpr (by decide)⟩,
    (orgListHandler_certificate_warning sampleHandlerDeps sampleOrgHandler 0 0
      { CertData := "short-lived" } { URL := "/v3/organizations", names := "" } ["org-1"]
      rfl).imp fun _ h => ⟨h.1, h.2.1, fun hwarn => absurd (h.2.2.2.2.1.mp hwarn) (by decide)⟩,
    (orgListHandler_certificate_warning sampleHandlerDeps sampleOrgHandler 0 0
      { CertData := "garbage" } { URL := "/v3/organizations", names := "" } ["org-1"]
      rfl).imp fun _ h => ⟨h.1, h.2.1,
        h.2.2.2.2.2.2 "garbage" (.plain "x509: malformed certificate") rfl rfl⟩⟩

/-- Claim C22 at a concrete run: `alpha` resolves to the one app of that name
in `space-a`, and `omega` is not found. -/
theorem GetAppByNameAndSpace_resolves_unique_witness :
    (sampleDeps listingClient).BuildClient {} = .ok listingClient ∧
    listingClient.ListApps "space-a" =
      .ok [sampleApp "zeta" "guid-1" "space-a", sampleApp "alpha" "guid-2" "space-a"] ∧
    ((GetAppByNameAndSpace (sampleDeps listingClient) {} "alpha" "space-a").value =
        cfAppToAppRecord (sampleDeps listingClient) (sampleApp "alpha" "guid-2" "space-a") ∧
      (GetAppByNameAndSpace (sampleDeps listingClient) {} "alpha" "space-a").err = none) ∧
    ((GetAppByNameAndSpace (sampleDeps listingClient) {} "omega" "space-a").value = {} ∧
      (GetAppByNameAndSpace (sampleDeps listingClient) {} "omega" "space-a").err =
        some ((sampleDeps listingClient).NewNotFoundError
          (.errorf "app %q in space %q not found" ["omega", "space-a"] none)
          AppResourceType)) :=
  ⟨rfl, rfl,
    (GetAppByNameAndSpace_resolves_unique (sampleDeps listingClient) {} "alpha" "space-a"
      listingClient _ rfl rfl).2.2.1 (sampleApp "alpha" "guid-2" "space-a") (by decide),
    (GetAppByNameAndSpace_resolves_unique (sampleDeps listingClient) {} "omega" "space-a"
      listingClient _ rfl rfl).1 (by decide)⟩

/-- Claim C23 at a concrete run. -/
theorem applyAppListFilter_conjunction_witness :
    sampleApp "alpha" "guid-2" "space-a" ∈
      applyAppListFilter
        [sampleApp "zeta" "guid-1" "space-a", sampleApp "alpha" "guid-2" "space-a"]
        { Names := ["alpha"], SpaceGuids := ["space-b", "space-a"] } ∧
    applyAppListFilter
        [sampleApp "zeta" "guid-1" "space-a", sampleApp "alpha" "guid-2" "space-a"] {} =
      [sampleApp "zeta" "guid-1" "space-a", sampleApp "alpha" "guid-2" "space-a"] ∧
    applyAppListFilter
        [sampleApp "zeta" "guid-1" "space-a", sampleApp "alpha" "guid-2" "space-a"]
        { Guids := ["guid-9"], Names := ["alpha"] } = [] :=
  ⟨((applyAppListFilter_conjunction _ _).1 _).mpr
      ⟨by decide, Or.inl rfl, Or.inr (by decide), Or.inr (by decide)⟩,
    (applyAppListFilter_conjunction _ _).2.1 rfl rfl rfl,
    (applyAppListFilter_conjunction _ _).2.2 (by decide) (by decide)⟩

/-- Claim C25 at a concrete run: the two visiting orders of `space-a` and
`space-b`. -/
theorem ListApps_visiting_order_irrelevant_witness :
    (GoMap.keys [("space-a", true), ("space-b", true)]).Perm
      (GoMap.keys [("space-b", true), ("space-a", true)]) ∧
    (ListApps (withSpaceNamespaces (sampleDeps listingClient)
      [("space-a", true), ("space-b", true)]) {} {}).err = none ∧
    ∃ firstRecords secondRecords,
      (ListApps (withSpaceNamespaces (sampleDeps listingClient)
        [("space-a", true), ("space-b", true)]) {} {}).records = some firstRecords ∧
      (ListApps (withSpaceNamespaces (sampleDeps listingClient)
        [("space-b", true), ("space-a", true)]) {} {}).records = some secondRecords ∧
      firstRecords.Perm secondRecords ∧
      SortedByName firstRecords ∧ SortedByName secondRecords :=
  ⟨by decide, rfl,
    (ListApps_visiting_order_irrelevant (sampleDeps listingClient) {} {}
      [("space-a", true), ("space-b", true)] [("space-b", true), ("space-a", true)]
      (by decide)).2 rfl⟩

/-- Claim C26 at a concrete run: the app `guid-7` and its env secret. -/
theorem CreateApp_env_secret_matches_witness :
    (sampleDeps acceptingClient).BuildClient {} = .ok acceptingClient ∧
    acceptingClient.CreateApp (sampleCreateMessage.toCFApp "guid-7") =
      .ok { sampleCreateMessage.toCFApp "guid-7" with UID := "uid-1" } ∧
    (CreateApp (sampleDeps acceptingClient) {} "guid-7" sampleCreateMessage).trace =
      [.BuildClient, .Create "guid-7", .BuildClient,
        .CreateOrPatchSecret (GenerateEnvSecretName "guid-7")] ∧
    (envSecretFor { sampleCreateMessage.toCFApp "guid-7" with UID := "uid-1" }
        sampleCreateMessage.EnvironmentVariables).toObjectMeta =
      { Name := GenerateEnvSecretName "guid-7"
        Namespace := "space-a"
        Labels := [(CFAppGUIDLabel, "guid-7")]
        OwnerReferences :=
          [{ APIVersion := APIVersion, Kind := "CFApp", Name := "guid-7", UID := "uid-1" }] } ∧
    (envSecretFor { sampleCreateMessage.toCFApp "guid-7" with UID := "uid-1" }
        sampleCreateMessage.EnvironmentVariables).Name =
      (sampleCreateMessage.toCFApp "guid-7").Spec.EnvSecretName :=
  ⟨rfl, rfl,
    (CreateApp_env_secret_matches (sampleDeps acceptingClient) {} "guid-7" sampleCreateMessage
      acceptingClient { sampleCreateMessage.toCFApp "guid-7" with UID := "uid-1" }
      rfl rfl).2.1,
    (CreateApp_env_secret_matches (sampleDeps acceptingClient) {} "guid-7" sampleCreateMessage
      acceptingClient { sampleCreateMessage.toCFApp "guid-7" with UID := "uid-1" }
      rfl rfl).2.2.2.2.1,
    (CreateApp_env_secret_matches (sampleDeps acceptingClient) {} "guid-7" sampleCreateMessage
      acceptingClient { sampleCreateMessage.toCFApp "guid-7" with UID := "uid-1" }
      rfl rfl).2.2.2.2.2.2 rfl⟩

/-- Claim C27 at a concrete run: a patch that also names another display name,
state and labels; and a patch of an app the store does not hold. -/
theorem PatchApp_changes_lifecycle_only_witness :
    (sampleDeps acceptingClient).BuildClient {} = .ok acceptingClient ∧
    setLifecycle samplePatch.toCFApp (storedApp "space-a") =
      { storedApp "space-a" with
        Spec := { (storedApp "space-a").Spec with Lifecycle := samplePatch.Lifecycle } } ∧
    (setLifecycle samplePatch.toCFApp (storedApp "space-a")).Spec.DisplayName = "alpha" ∧
    (PatchApp (sampleDeps acceptingClient) {} samplePatch).trace =
      [.BuildClient, .Get "guid-1", .PatchResource "guid-1", .BuildClient,
        .CreateOrPatchSecret (GenerateEnvSecretName "guid-1")] ∧
    (∀ n, Call.PatchResource n ∉
      (PatchApp (sampleDeps acceptingClient) {} { AppGUID := "guid-9" }).trace) ∧
    (∀ n, Call.CreateOrPatchSecret n ∉
      (PatchApp (sampleDeps acceptingClient) {} { AppGUID := "guid-9" }).trace) :=
  ⟨rfl,
    ((PatchApp_changes_lifecycle_only (sampleDeps acceptingClient) {} samplePatch
      acceptingClient rfl).1 (storedApp "space-a")).1,
    rfl,
    ((PatchApp_changes_lifecycle_only (sampleDeps acceptingClient) {} samplePatch
      acceptingClient rfl).2.2.1 (storedApp "space-a")
      (setLifecycle samplePatch.toCFApp (storedApp "space-a")) rfl rfl).1,
    ((PatchApp_changes_lifecycle_only (sampleDeps acceptingClient) {} { AppGUID := "guid-9" }
      acceptingClient rfl).2.2.2 (.status "NotFound" "cfapp not found") rfl).2.2.1,
    ((PatchApp_changes_lifecycle_only (sampleDeps acceptingClient) {} { AppGUID := "guid-9" }
      acceptingClient rfl).2.2.2 (.status "NotFound" "cfapp not found") rfl).2.2.2⟩

/-- Claim C28 at a concrete run: the patch sets `PORT` and `MODE` and deletes
`DEBUG` on a store that holds the env secret with `DEBUG` and `REGION`;
`REGION` is kept and the stale `StringData` entry is gone. -/
theorem PatchAppEnvVars_null_means_delete_witness :
    (GoMap.keys sampleEnvPatch.EnvironmentVariables).Nodup ∧
    (sampleDeps secretHoldingClient).BuildClient {} = .ok secretHoldingClient ∧
    (PatchAppEnvVars (sampleDeps secretHoldingClient) {} sampleEnvPatch).value =
      appEnvVarsSecretToRecord (patchEnvVars sampleEnvPatch sampleEnvSecret) ∧
    (PatchAppEnvVars (sampleDeps secretHoldingClient) {} sampleEnvPatch).value =
      { Name := "guid-1-env", AppGUID := "guid-1", SpaceGUID := "space-a"
        EnvironmentVariables := [("REGION", "eu")] } ∧
    patchEnvVars sampleEnvPatch sampleEnvSecret =
      { Name := "guid-1-env", Namespace := "space-a"
        Data := [("REGION", "eu")]
        StringData := [("PORT", "8080"), ("MODE", "")] } ∧
    (patchEnvVars sampleEnvPatch sampleEnvSecret).StringData =
      setEntries sampleEnvPatch.EnvironmentVariables ∧
    "DEBUG" ∉ GoMap.keys (patchEnvVars sampleEnvPatch sampleEnvSecret).Data ∧
    GoMap.lookup (patchEnvVars sampleEnvPatch sampleEnvSecret).Data "REGION" =
      GoMap.lookup sampleEnvSecret.Data "REGION" :=
  ⟨by decide, rfl,
    (((PatchAppEnvVars_null_means_delete (sampleDeps secretHoldingClient) {} sampleEnvPatch
      sampleEnvSecret (by decide)).1 secretHoldingClient rfl).2.2.1 rfl).1,
    by decide, by decide,
    (PatchAppEnvVars_null_means_delete (sampleDeps secretHoldingClient) {} sampleEnvPatch
      sampleEnvSecret (by decide)).2.1,
    (PatchAppEnvVars_null_means_delete (sampleDeps secretHoldingClient) {} sampleEnvPatch
      sampleEnvSecret (by decide)).2.2.2.1 "DEBUG" (by decide),
    ((PatchAppEnvVars_null_means_delete (sampleDeps secretHoldingClient) {} sampleEnvPatch
      sampleEnvSecret (by decide)).2.2.2.2.2.1 "REGION" (by decide)).1⟩

/-- Claim C29 at a concrete run: the GUID `app-env` itself ends in `-env`. -/
theorem env_secret_name_round_trip_witness :
    suffixedEnvSecret.Name = GenerateEnvSecretName "app-env" ∧
    (appEnvVarsSecretToRecord suffixedEnvSecret).AppGUID = "app-env" ∧
    (appEnvVarsSecretToRecord suffixedEnvSecret).Name = "app-env" ++ "-env" ∧
    (appEnvVarsSecretToRecord suffixedEnvSecret).EnvironmentVariables =
      suffixedEnvSecret.Data :=
  ⟨by decide,
    (env_secret_name_round_trip "app-env" suffixedEnvSecret (by decide)).1,
    (env_secret_name_round_trip "app-env" suffixedEnvSecret (by decide)).2.1,
    (env_secret_name_round_trip "app-env" suffixedEnvSecret (by decide)).2.2.2 (by decide)⟩

end Korifi
